import Mathlib

/-!
# SkillShare: the swap-request lifecycle and the rating gate

A shallow embedding of `server/models/SwapRequest.js`, `server/models/Notification.js`,
`server/models/Feedback.js`, `server/routes/swaps.js` and the submission handler of
`server/routes/feedback.js`: the document store is an explicit state, every route
handler is a function from a state and a request to a new state and a response.
-/

namespace SkillShare

/-! ## Identifiers -/

/-- A BSON ObjectId: twelve bytes, kept as the 24 hexadecimal digits of its rendering. -/
structure ObjectId where
  digits : List (Fin 16)
  size : digits.length = 24
deriving DecidableEq

/-- The value of one hexadecimal character; both letter cases are accepted, as by
`isMongoId` of the validator and by the ObjectId constructor of the driver. -/
def hexDigitValue (c : Char) : Option (Fin 16) :=
  let n := c.toNat
  if 48 ≤ n ∧ n ≤ 57 then some (Fin.ofNat (n - 48))
  else if 97 ≤ n ∧ n ≤ 102 then some (Fin.ofNat (n - 87))
  else if 65 ≤ n ∧ n ≤ 70 then some (Fin.ofNat (n - 55))
  else none

/-- The lower-case character of one hexadecimal digit (`ObjectId.toString()` is lower case). -/
def hexDigitChar (d : Fin 16) : Char :=
  if d.val < 10 then Char.ofNat (48 + d.val) else Char.ofNat (87 + d.val)

/-- The digits of a string of hexadecimal characters, `none` when a character is not one. -/
def hexDigits : List Char → Option (List (Fin 16))
  | [] => some []
  | c :: cs =>
    match hexDigitValue c, hexDigits cs with
    | some d, some ds => some (d :: ds)
    | _, _ => none

/-- `ObjectId.prototype.toString()`: 24 lower-case hexadecimal characters. -/
def ObjectId.toString (o : ObjectId) : String :=
  String.mk (o.digits.map hexDigitChar)

/-- The cast the driver applies to a string used where an ObjectId is expected
(`findById`, query filters, document fields): 24 hexadecimal characters of either
case denote an ObjectId, anything else raises a CastError (`none`). -/
def castObjectId (s : String) : Option ObjectId :=
  match hexDigits s.data with
  | none => none
  | some ds => if h : ds.length = 24 then some ⟨ds, h⟩ else none

/-- `isMongoId()` of express-validator: 24 hexadecimal characters. -/
def isMongoId (s : String) : Bool :=
  s.data.length == 24 && s.data.all (fun c => (hexDigitValue c).isSome)

/-! ## Documents -/

/-- The `status` enum of `swapRequestSchema`. -/
inductive Status where
  | pending
  | accepted
  | rejected
  | cancelled
  | completed
deriving DecidableEq, Repr

/-- A document of the `SwapRequest` collection (`swapRequestSchema`, with timestamps). -/
structure SwapRequest where
  id : ObjectId
  requesterId : ObjectId
  recipientId : ObjectId
  status : Status
  requesterSkill : String
  recipientSkill : String
  message : Option String
  scheduledDate : Option Nat
  completedAt : Option Nat
  cancelledBy : Option ObjectId
  cancellationReason : Option String
  createdAt : Nat
  updatedAt : Nat
deriving DecidableEq

/-- The fields of a `User` document that the swap, feedback, profile and login routes
read or write; `password` is the stored hash. -/
structure User where
  id : ObjectId
  name : String
  skillsOffered : List String
  isPublic : Bool
  banned : Bool
  rating : Rat
  totalRatings : Nat
  email : String
  password : String
  role : String
deriving DecidableEq

/-- A document of the `Notification` collection (`notificationSchema`). -/
structure Notification where
  userId : ObjectId
  type : String
  message : String
  read : Bool
  swapRequestId : Option ObjectId
  createdAt : Nat
deriving DecidableEq

/-- A document of the `Feedback` collection (`feedbackSchema`, with timestamps). -/
structure Feedback where
  id : ObjectId
  swapRequestId : ObjectId
  fromUserId : ObjectId
  toUserId : ObjectId
  rating : Int
  comment : Option String
  skillRated : String
  createdAt : Nat
  updatedAt : Nat
deriving DecidableEq

/-- The document store: the four collections the swap and feedback routes touch. -/
structure Db where
  users : List User
  swaps : List SwapRequest
  notifications : List Notification
  feedback : List Feedback
deriving DecidableEq

/-- The JSON answer of a handler: HTTP status, `success`, `message`, and the swap
document when one is returned. -/
structure Response where
  status : Nat
  success : Bool
  message : String
  swapRequest : Option SwapRequest
deriving DecidableEq

/-! ## Model methods and collection operations -/

/-- The virtual `isActive`: `['pending', 'accepted'].includes(this.status)`. -/
def SwapRequest.isActive (s : SwapRequest) : Bool :=
  s.status = .pending || s.status = .accepted

/-- `this.save()`: the stored document with the same `_id` is replaced, and the
`timestamps` option refreshes `updatedAt`. -/
def saveSwap : List SwapRequest → SwapRequest → List SwapRequest
  | [], _ => []
  | x :: xs, s => if x.id = s.id then s :: xs else x :: saveSwap xs s

/-- `swapRequestSchema.methods.accept`. -/
def SwapRequest.accept (s : SwapRequest) (now : Nat) : SwapRequest :=
  { s with status := .accepted, updatedAt := now }

/-- `swapRequestSchema.methods.reject`. -/
def SwapRequest.reject (s : SwapRequest) (now : Nat) : SwapRequest :=
  { s with status := .rejected, updatedAt := now }

/-- `swapRequestSchema.methods.cancel`, with `reason = ''` as the default. -/
def SwapRequest.cancel (s : SwapRequest) (userId : ObjectId) (reason : Option String)
    (now : Nat) : SwapRequest :=
  { s with status := .cancelled, cancelledBy := some userId,
           cancellationReason := some (reason.getD ""), updatedAt := now }

/-- `swapRequestSchema.methods.complete`. -/
def SwapRequest.complete (s : SwapRequest) (now : Nat) : SwapRequest :=
  { s with status := .completed, completedAt := some now, updatedAt := now }

/-- The `length` of a JavaScript string: the number of UTF-16 code units, two for every
character outside the basic plane. The `maxlength` validators of the schemas count it,
where `isLength` of the validation chains counts such a character once. -/
def utf16Length (s : String) : Nat :=
  (s.data.map (fun c => if c.toNat < 65536 then 1 else 2)).sum

/-- The validators of `swapRequestSchema`, which `SwapRequest.create` and every `save()`
run on the whole document: the two skills are required, hence not empty, `message` has
at most 500 and `cancellationReason` at most 200 code units. The ids are present and the
status is in the enum by the types. -/
def SwapRequest.validate (s : SwapRequest) : Bool :=
  decide (s.requesterSkill ≠ "")
    && decide (s.recipientSkill ≠ "")
    && (match s.message with
        | none => true
        | some m => decide (utf16Length m ≤ 500))
    && (match s.cancellationReason with
        | none => true
        | some r => decide (utf16Length r ≤ 200))

/-- `User.findById` on an ObjectId. -/
def findUser (db : Db) (uid : ObjectId) : Option User :=
  db.users.find? (fun u => decide (u.id = uid))

/-- `SwapRequest.findById` on an ObjectId. -/
def findSwap (db : Db) (sid : ObjectId) : Option SwapRequest :=
  db.swaps.find? (fun s => decide (s.id = sid))

/-- The `type` enum of `notificationSchema`. -/
def notificationTypes : List String := ["swap_request", "swap_accepted", "swap_rejected"]

/-- `Notification.create`: the schema validation (`userId` required, `type` in the enum,
`message` required, hence not empty), then the insertion; `none` is the thrown
ValidationError. A populated path whose user is gone is `null`, here `none`. -/
def Notification.create (db : Db) (userId : Option ObjectId) (type message : String)
    (swapRequestId : ObjectId) (now : Nat) : Option Db :=
  match userId with
  | none => none
  | some uid =>
    if type ∈ notificationTypes ∧ message ≠ "" then
      some { db with notifications :=
        db.notifications ++ [⟨uid, type, message, false, some swapRequestId, now⟩] }
    else none

/-! ## `POST /api/swaps` -/

/-- The body of `POST /api/swaps` after the sanitizers of the validation chain have run
(`trim()` on the two skills and on the message). For `scheduledDate`, `some none` is a
value that is not an ISO 8601 date and `some (some t)` one that denotes the instant `t`. -/
structure CreateBody where
  recipientId : String
  requesterSkill : String
  recipientSkill : String
  message : Option String
  scheduledDate : Option (Option Nat)
deriving DecidableEq

/-- The validation chain of `POST /api/swaps` has recorded no error. `isLength` counts
characters, a surrogate pair once; the `maxlength` of the schema, which counts code
units, is checked by `SwapRequest.validate` when the document is created. -/
def createValid (body : CreateBody) : Bool :=
  isMongoId body.recipientId
    && decide (body.requesterSkill ≠ "")
    && decide (body.recipientSkill ≠ "")
    && (match body.message with
        | none => true
        | some m => decide (m.length ≤ 500))
    && (match body.scheduledDate with
        | none => true
        | some d => d.isSome)

/-- The filter of the `existingSwap` query:
`{ $or: [{requesterId: me, recipientId}, {requesterId: recipientId, recipientId: me}],
   status: { $in: ['pending', 'accepted'] } }`. -/
def existingSwapQuery (me recipientId : ObjectId) (s : SwapRequest) : Bool :=
  ((decide (s.requesterId = me) && decide (s.recipientId = recipientId))
    || (decide (s.requesterId = recipientId) && decide (s.recipientId = me)))
  && (decide (s.status = .pending) || decide (s.status = .accepted))

/-- The document `SwapRequest.create` inserts: the fields the handler passes, the schema
default `status: 'pending'`, and the timestamps. -/
def newSwap (caller recipientId : ObjectId) (body : CreateBody) (newId : ObjectId)
    (now : Nat) : SwapRequest :=
  { id := newId, requesterId := caller, recipientId := recipientId, status := .pending,
    requesterSkill := body.requesterSkill, recipientSkill := body.recipientSkill,
    message := body.message, scheduledDate := body.scheduledDate.join,
    completedAt := none, cancelledBy := none, cancellationReason := none,
    createdAt := now, updatedAt := now }

/-- The answer of a handler that returns no document. -/
def reply (status : Nat) (message : String) : Response :=
  ⟨status, false, message, none⟩

/-- The handler of `POST /api/swaps`. `caller` is the authenticated user, whose
`req.user.id` is `caller.toString`; `newId` is the `_id` the driver gives the new
document and `now` the clock. -/
def createSwap (db : Db) (caller : ObjectId) (body : CreateBody) (newId : ObjectId)
    (now : Nat) : Db × Response :=
  if createValid body = false then (db, reply 400 "Validation failed")
  else
    match castObjectId body.recipientId with
    | none => (db, reply 500 "Server error while creating swap request")
    | some recipientId =>
      match findUser db recipientId with
      | none => (db, reply 404 "Recipient not found")
      | some recipient =>
        if recipient.banned = true then (db, reply 404 "Recipient not found")
        else if recipient.isPublic = false then
          (db, reply 403 "Cannot send request to private profile")
        else if body.recipientId = caller.toString then
          (db, reply 400 "Cannot send swap request to yourself")
        else
          match findUser db caller with
          | none => (db, reply 500 "Server error while creating swap request")
          | some requester =>
            if body.requesterSkill ∉ requester.skillsOffered then
              (db, reply 400
                "You must have the skill you are offering in your skills offered list")
            else if body.recipientSkill ∉ recipient.skillsOffered then
              (db, reply 400 "Recipient does not have the skill you are requesting")
            else
              match db.swaps.find? (existingSwapQuery caller recipientId) with
              | some _ =>
                (db, reply 400
                  "There is already an active swap request between you and this user")
              | none =>
                let swapRequest := newSwap caller recipientId body newId now
                if swapRequest.validate = false then
                  (db, reply 500 "Server error while creating swap request")
                else
                let db1 : Db := { db with swaps := db.swaps ++ [swapRequest] }
                match Notification.create db1 (some recipientId) "swap_request"
                    (requester.name ++ " sent you a swap request.") swapRequest.id now with
                | none => (db1, reply 500 "Server error while creating swap request")
                | some db2 =>
                  (db2, ⟨201, true, "Swap request sent successfully", some swapRequest⟩)

/-! ## `PUT /api/swaps/:id/accept`, `reject`, `cancel`, `complete` -/

/-- The handler of `PUT /api/swaps/:id/accept`; `idParam` is `req.params.id`. -/
def acceptSwap (db : Db) (caller : ObjectId) (idParam : String) (now : Nat) :
    Db × Response :=
  match castObjectId idParam with
  | none => (db, reply 500 "Server error while accepting swap request")
  | some sid =>
    match findSwap db sid with
    | none => (db, reply 404 "Swap request not found")
    | some swapRequest =>
      if swapRequest.recipientId.toString ≠ caller.toString then
        (db, reply 403 "Only the recipient can accept swap requests")
      else if swapRequest.status ≠ .pending then
        (db, reply 400 "Swap request is no longer pending")
      else
        let saved := swapRequest.accept now
        if saved.validate = false then
          (db, reply 500 "Server error while accepting swap request")
        else
        let db1 : Db := { db with swaps := saveSwap db.swaps saved }
        -- populate: a path whose user no longer exists becomes null
        match findUser db1 saved.recipientId with
        | none => (db1, reply 500 "Server error while accepting swap request")
        | some recipient =>
          match Notification.create db1 ((findUser db1 saved.requesterId).map (·.id))
              "swap_accepted" (recipient.name ++ " accepted your swap request!")
              saved.id now with
          | none => (db1, reply 500 "Server error while accepting swap request")
          | some db2 =>
            (db2, ⟨200, true, "Swap request accepted successfully", some saved⟩)

/-- The handler of `PUT /api/swaps/:id/reject`. -/
def rejectSwap (db : Db) (caller : ObjectId) (idParam : String) (now : Nat) :
    Db × Response :=
  match castObjectId idParam with
  | none => (db, reply 500 "Server error while rejecting swap request")
  | some sid =>
    match findSwap db sid with
    | none => (db, reply 404 "Swap request not found")
    | some swapRequest =>
      if swapRequest.recipientId.toString ≠ caller.toString then
        (db, reply 403 "Only the recipient can reject swap requests")
      else if swapRequest.status ≠ .pending then
        (db, reply 400 "Swap request is no longer pending")
      else
        let saved := swapRequest.reject now
        if saved.validate = false then
          (db, reply 500 "Server error while rejecting swap request")
        else
        let db1 : Db := { db with swaps := saveSwap db.swaps saved }
        match findUser db1 saved.recipientId with
        | none => (db1, reply 500 "Server error while rejecting swap request")
        | some recipient =>
          match Notification.create db1 ((findUser db1 saved.requesterId).map (·.id))
              "swap_rejected" (recipient.name ++ " rejected your swap request.")
              saved.id now with
          | none => (db1, reply 500 "Server error while rejecting swap request")
          | some db2 =>
            (db2, ⟨200, true, "Swap request rejected successfully", some saved⟩)

/-- The validation chain of `PUT /api/swaps/:id/cancel` has recorded no error
(`reason` is the body field after `trim()`); `isLength` counts characters, a surrogate
pair once, and the `maxlength` of the schema is checked by `SwapRequest.validate` when
the document is saved. -/
def cancelValid (reason : Option String) : Bool :=
  match reason with
  | none => true
  | some r => decide (r.length ≤ 200)

/-- The handler of `PUT /api/swaps/:id/cancel`. -/
def cancelSwap (db : Db) (caller : ObjectId) (idParam : String) (reason : Option String)
    (now : Nat) : Db × Response :=
  if cancelValid reason = false then (db, reply 400 "Validation failed")
  else
    match castObjectId idParam with
    | none => (db, reply 500 "Server error while cancelling swap request")
    | some sid =>
      match findSwap db sid with
      | none => (db, reply 404 "Swap request not found")
      | some swapRequest =>
        if swapRequest.requesterId.toString ≠ caller.toString
            ∧ swapRequest.recipientId.toString ≠ caller.toString then
          (db, reply 403 "Not authorized to cancel this swap request")
        else if swapRequest.status ∉ [Status.pending, Status.accepted] then
          (db, reply 400 "Swap request cannot be cancelled")
        else
          let saved := swapRequest.cancel caller reason now
          if saved.validate = false then
            (db, reply 500 "Server error while cancelling swap request")
          else
          let db1 : Db := { db with swaps := saveSwap db.swaps saved }
          (db1, ⟨200, true, "Swap request cancelled successfully", some saved⟩)

/-- The handler of `PUT /api/swaps/:id/complete`. -/
def completeSwap (db : Db) (caller : ObjectId) (idParam : String) (now : Nat) :
    Db × Response :=
  match castObjectId idParam with
  | none => (db, reply 500 "Server error while completing swap")
  | some sid =>
    match findSwap db sid with
    | none => (db, reply 404 "Swap request not found")
    | some swapRequest =>
      if swapRequest.requesterId.toString ≠ caller.toString
          ∧ swapRequest.recipientId.toString ≠ caller.toString then
        (db, reply 403 "Not authorized to complete this swap")
      else if swapRequest.status ≠ .accepted then
        (db, reply 400 "Only accepted swaps can be marked as completed")
      else
        let saved := swapRequest.complete now
        if saved.validate = false then (db, reply 500 "Server error while completing swap")
        else
        let db1 : Db := { db with swaps := saveSwap db.swaps saved }
        (db1, ⟨200, true, "Swap marked as completed successfully", some saved⟩)

/-- The four lifecycle actions. -/
inductive Action where
  | accept
  | reject
  | cancel (reason : Option String)
  | complete
deriving DecidableEq

/-- One lifecycle call: who calls, on which `:id`, which action, and the clock. -/
structure TransitionCall where
  caller : ObjectId
  idParam : String
  action : Action
  now : Nat

/-- The operation `transitionSwap` of the interface: the route of the action. -/
def transitionSwap (db : Db) (c : TransitionCall) : Db × Response :=
  match c.action with
  | .accept => acceptSwap db c.caller c.idParam c.now
  | .reject => rejectSwap db c.caller c.idParam c.now
  | .cancel reason => cancelSwap db c.caller c.idParam reason c.now
  | .complete => completeSwap db c.caller c.idParam c.now

/-- The store after a sequence of lifecycle calls, executed one after the other. -/
def runTransitions (db : Db) : List TransitionCall → Db
  | [] => db
  | c :: cs => runTransitions (transitionSwap db c).1 cs

/-! ## `POST /api/feedback` -/

/-- The body of `POST /api/feedback` after the sanitizers of the validation chain have
run (`trim()` on the comment and on the rated skill); `rating` is the integer the field
denotes. -/
structure FeedbackBody where
  swapRequestId : String
  toUserId : String
  rating : Int
  comment : Option String
  skillRated : String
deriving DecidableEq

/-- The validation chain of `POST /api/feedback` has recorded no error. -/
def feedbackValid (body : FeedbackBody) : Bool :=
  isMongoId body.swapRequestId
    && isMongoId body.toUserId
    && decide (1 ≤ body.rating ∧ body.rating ≤ 5)
    && (match body.comment with
        | none => true
        | some c => decide (c.length ≤ 500))
    && decide (body.skillRated ≠ "")

/-- The JSON answer of the feedback handler: HTTP status, `success`, `message`, and the
feedback document when one is returned. -/
structure FeedbackResponse where
  status : Nat
  success : Bool
  message : String
  feedback : Option Feedback
deriving DecidableEq

/-- The answer of the feedback handler when it returns no document. -/
def feedbackReply (status : Nat) (message : String) : FeedbackResponse :=
  ⟨status, false, message, none⟩

/-- What `user.updateRating(rating)` makes of the stored `rating` and `totalRatings` of a
user, given the new rating. The method is declared in `models/User.js`, which is not
among the sources, so the handlers take it as a parameter. -/
abbrev UpdateRating := Rat → Nat → Int → Rat × Nat

/-- `user.save()`: the stored user with the same `_id` is replaced. -/
def saveUser : List User → User → List User
  | [], _ => []
  | x :: xs, u => if x.id = u.id then u :: xs else x :: saveUser xs u

/-- The `pre('save')` hook of `feedbackSchema` for a new document: when the rated user
exists, `updateRating` is applied to that user. -/
def feedbackPreSave (updateRating : UpdateRating) (db : Db) (toUserId : ObjectId)
    (rating : Int) : Db :=
  match findUser db toUserId with
  | none => db
  | some user =>
    let r := updateRating user.rating user.totalRatings rating
    { db with users := saveUser db.users { user with rating := r.1, totalRatings := r.2 } }

/-- The filter of the `existingFeedback` query:
`{ swapRequestId, fromUserId: req.user.id }`. -/
def existingFeedbackQuery (swapRequestId me : ObjectId) (f : Feedback) : Bool :=
  decide (f.swapRequestId = swapRequestId) && decide (f.fromUserId = me)

/-- The document `Feedback.create` inserts. -/
def newFeedback (caller swapRequestId toUserId : ObjectId) (body : FeedbackBody)
    (newId : ObjectId) (now : Nat) : Feedback :=
  { id := newId, swapRequestId := swapRequestId, fromUserId := caller,
    toUserId := toUserId, rating := body.rating, comment := body.comment,
    skillRated := body.skillRated, createdAt := now, updatedAt := now }

/-- The validators of `feedbackSchema`, which `Feedback.create` runs on the new document
before the `pre('save')` hook: the rating is from 1 to 5, `skillRated` is required, hence
not empty, and `comment` has at most 500 code units. -/
def Feedback.validate (f : Feedback) : Bool :=
  decide (1 ≤ f.rating ∧ f.rating ≤ 5)
    && decide (f.skillRated ≠ "")
    && (match f.comment with
        | none => true
        | some c => decide (utf16Length c ≤ 500))

/-- The handler of `POST /api/feedback`. `caller` is the authenticated user, whose
`req.user.id` is `caller.toString`; `newId` is the `_id` the driver gives the new
document and `now` the clock. -/
def submitFeedback (updateRating : UpdateRating) (db : Db) (caller : ObjectId)
    (body : FeedbackBody) (newId : ObjectId) (now : Nat) : Db × FeedbackResponse :=
  if feedbackValid body = false then (db, feedbackReply 400 "Validation failed")
  else
    match castObjectId body.swapRequestId with
    | none => (db, feedbackReply 500 "Server error while creating feedback")
    | some sid =>
      match findSwap db sid with
      | none => (db, feedbackReply 404 "Swap request not found")
      | some swapRequest =>
        if swapRequest.status ≠ .completed then
          (db, feedbackReply 400 "Feedback can only be given for completed swaps")
        else if swapRequest.requesterId.toString ≠ caller.toString
            ∧ swapRequest.recipientId.toString ≠ caller.toString then
          (db, feedbackReply 403 "Not authorized to give feedback for this swap")
        else if body.toUserId = caller.toString then
          (db, feedbackReply 400 "Cannot rate yourself")
        else if swapRequest.requesterId.toString ≠ body.toUserId
            ∧ swapRequest.recipientId.toString ≠ body.toUserId then
          (db, feedbackReply 400 "User being rated must be involved in the swap")
        else
          match db.feedback.find? (existingFeedbackQuery sid caller) with
          | some _ =>
            (db, feedbackReply 400 "You have already given feedback for this swap")
          | none =>
            match castObjectId body.toUserId with
            | none => (db, feedbackReply 500 "Server error while creating feedback")
            | some toUserId =>
              let feedback := newFeedback caller sid toUserId body newId now
              if feedback.validate = false then
                (db, feedbackReply 500 "Server error while creating feedback")
              else
              let db1 := feedbackPreSave updateRating db toUserId body.rating
              let db2 : Db := { db1 with feedback := db1.feedback ++ [feedback] }
              -- populate: a path whose user no longer exists becomes null
              match findUser db2 caller with
              | none => (db2, feedbackReply 500 "Server error while creating feedback")
              | some sender =>
                let senderName := if sender.name = "" then "A user" else sender.name
                match Notification.create db2 (some toUserId) "feedback"
                    ("You received a new rating from " ++ senderName ++ ".") sid now with
                | none => (db2, feedbackReply 500 "Server error while creating feedback")
                | some db3 =>
                  (db3, ⟨201, true, "Feedback submitted successfully", some feedback⟩)

/-- One call of the interface: a creation, a lifecycle call or a feedback submission. -/
inductive Op where
  | create (caller : ObjectId) (body : CreateBody) (newId : ObjectId) (now : Nat)
  | transition (c : TransitionCall)
  | feedback (caller : ObjectId) (body : FeedbackBody) (newId : ObjectId) (now : Nat)

/-- The store after one call. -/
def step (updateRating : UpdateRating) (db : Db) : Op → Db
  | .create caller body newId now => (createSwap db caller body newId now).1
  | .transition c => (transitionSwap db c).1
  | .feedback caller body newId now =>
    (submitFeedback updateRating db caller body newId now).1

/-- The store after a sequence of calls, executed one after the other. -/
def run (updateRating : UpdateRating) (db : Db) : List Op → Db
  | [] => db
  | o :: os => run updateRating (step updateRating db o) os

/-! ## `PUT /api/feedback/:id`, `DELETE /api/feedback/:id`, `getAverageRating` -/

/-- The body of `PUT /api/feedback/:id`. The handler hands `req.body` whole to
`findByIdAndUpdate`, so besides the two validated fields it may carry any path of the
schema. String fields are as the sanitizers and the `trim` of the schema leave them. -/
structure FeedbackUpdateBody where
  rating : Option Int
  comment : Option String
  swapRequestId : Option String
  fromUserId : Option String
  toUserId : Option String
  skillRated : Option String
deriving DecidableEq

/-- The validation chain of `PUT /api/feedback/:id` has recorded no error. -/
def feedbackUpdateValid (body : FeedbackUpdateBody) : Bool :=
  (match body.rating with
   | none => true
   | some r => decide (1 ≤ r ∧ r ≤ 5))
  && (match body.comment with
      | none => true
      | some c => decide (c.length ≤ 500))

/-- `Feedback.findById` on an ObjectId. -/
def findFeedback (db : Db) (fid : ObjectId) : Option Feedback :=
  db.feedback.find? (fun f => decide (f.id = fid))

/-- The test `hoursSinceCreation > 24`, where `hoursSinceCreation` is
`(Date.now() - feedback.createdAt.getTime()) / (1000 * 60 * 60)`; the clock counts
milliseconds and the positive divisor is moved to the other side. -/
def olderThan24Hours (now createdAt : Nat) : Bool :=
  decide ((now : Int) - (createdAt : Int) > 24 * (1000 * 60 * 60))

/-- A path of the update document that holds an id: absent, it leaves the current value;
present, it is cast, and `none` is the CastError. -/
def castOptionalId (current : ObjectId) : Option String → Option ObjectId
  | none => some current
  | some s => castObjectId s

/-- The `$set` that `findByIdAndUpdate(id, req.body, { runValidators: true })` makes of
the body on the found document: ids are cast, `skillRated` is required, `comment` has
at most 500 code units, the timestamps option refreshes `updatedAt`; `none` is a
CastError or ValidationError. -/
def Feedback.applyUpdate (f : Feedback) (body : FeedbackUpdateBody) (now : Nat) :
    Option Feedback :=
  match castOptionalId f.swapRequestId body.swapRequestId,
        castOptionalId f.fromUserId body.fromUserId,
        castOptionalId f.toUserId body.toUserId with
  | some swapRequestId, some fromUserId, some toUserId =>
    if body.skillRated = some "" then none
    else if (match body.comment with
             | none => false
             | some c => decide (500 < utf16Length c)) = true then none
    else
      some { f with swapRequestId := swapRequestId, fromUserId := fromUserId,
                    toUserId := toUserId,
                    rating := body.rating.getD f.rating,
                    comment := (match body.comment with
                                | some c => some c
                                | none => f.comment),
                    skillRated := body.skillRated.getD f.skillRated,
                    updatedAt := now }
  | _, _, _ => none

/-- The unique index on `(swapRequestId, fromUserId)`: another document holds the key. -/
def duplicateKey (others : List Feedback) (g : Feedback) : Bool :=
  others.any (existingFeedbackQuery g.swapRequestId g.fromUserId)

/-- The stored feedback with the same `_id` is replaced. -/
def saveFeedback : List Feedback → Feedback → List Feedback
  | [], _ => []
  | x :: xs, g => if x.id = g.id then g :: xs else x :: saveFeedback xs g

/-- The handler of `PUT /api/feedback/:id`. -/
def updateFeedback (db : Db) (caller : ObjectId) (idParam : String)
    (body : FeedbackUpdateBody) (now : Nat) : Db × FeedbackResponse :=
  if feedbackUpdateValid body = false then (db, feedbackReply 400 "Validation failed")
  else
    match castObjectId idParam with
    | none => (db, feedbackReply 500 "Server error while updating feedback")
    | some fid =>
      match findFeedback db fid with
      | none => (db, feedbackReply 404 "Feedback not found")
      | some feedback =>
        if feedback.fromUserId.toString ≠ caller.toString then
          (db, feedbackReply 403 "Not authorized to update this feedback")
        else if olderThan24Hours now feedback.createdAt = true then
          (db, feedbackReply 400 "Feedback can only be updated within 24 hours of creation")
        else
          match feedback.applyUpdate body now with
          | none => (db, feedbackReply 500 "Server error while updating feedback")
          | some updated =>
            if duplicateKey (db.feedback.eraseP (fun f => decide (f.id = fid))) updated
                = true then
              (db, feedbackReply 500 "Server error while updating feedback")
            else
              ({ db with feedback := saveFeedback db.feedback updated },
                ⟨200, true, "Feedback updated successfully", some updated⟩)

/-- The handler of `DELETE /api/feedback/:id`. -/
def deleteFeedback (db : Db) (caller : ObjectId) (idParam : String) (now : Nat) :
    Db × FeedbackResponse :=
  match castObjectId idParam with
  | none => (db, feedbackReply 500 "Server error while deleting feedback")
  | some fid =>
    match findFeedback db fid with
    | none => (db, feedbackReply 404 "Feedback not found")
    | some feedback =>
      if feedback.fromUserId.toString ≠ caller.toString then
        (db, feedbackReply 403 "Not authorized to delete this feedback")
      else if olderThan24Hours now feedback.createdAt = true then
        (db, feedbackReply 400 "Feedback can only be deleted within 24 hours of creation")
      else
        ({ db with feedback := db.feedback.eraseP (fun f => decide (f.id = fid)) },
          ⟨200, true, "Feedback deleted successfully", none⟩)

/-- The handler of `DELETE /api/admin/feedback/:id`, behind the admin middleware. -/
def adminDeleteFeedback (db : Db) (idParam : String) : Db × FeedbackResponse :=
  match castObjectId idParam with
  | none => (db, feedbackReply 500 "Server error while deleting feedback")
  | some fid =>
    match findFeedback db fid with
    | none => (db, feedbackReply 404 "Feedback not found")
    | some _ =>
      ({ db with feedback := db.feedback.eraseP (fun f => decide (f.id = fid)) },
        ⟨200, true, "Feedback deleted successfully", none⟩)

/-- `Math.round(average * 10) / 10` for the average `sum / count` of a positive number of
integer ratings, on exact numbers: `Math.round` is the floor of its argument plus one
half. -/
def roundToOneDecimal (sum : Int) (count : Nat) : Rat :=
  mkRat ((20 * sum + count) / (2 * count)) 10

/-- `feedbackSchema.statics.getAverageRating`: the rounded mean and the count of the
ratings addressed to the user, and `(0, 0)` when there is none. -/
def Feedback.getAverageRating (db : Db) (userId : ObjectId) : Rat × Nat :=
  let ratings := (db.feedback.filter (fun f => decide (f.toUserId = userId))).map (·.rating)
  if ratings.length = 0 then (0, 0)
  else (roundToOneDecimal ratings.sum ratings.length, ratings.length)

/-! ## `GET /api/swaps/mine` and the pagination block -/

/-- The string of a status in the `enum` of the schema. -/
def Status.name : Status → String
  | .pending => "pending"
  | .accepted => "accepted"
  | .rejected => "rejected"
  | .cancelled => "cancelled"
  | .completed => "completed"

/-- The `pagination` object of the list endpoints. `totalPages` is `none` when
`Math.ceil(total / limit)` is not a number (`limit` is 0). -/
structure Pagination where
  currentPage : Nat
  totalPages : Option Nat
  total : Nat
  hasNext : Bool
  hasPrev : Bool
deriving DecidableEq

/-- The `pagination` object for integers `page ≥ 1` and `limit`, where `returned` is the
length of the page the query returned: `skip` is `(page - 1) * limit`. -/
def paginationBlock (total page limit returned : Nat) : Pagination :=
  { currentPage := page,
    totalPages := if limit = 0 then none else some ⌈(total : ℚ) / (limit : ℚ)⌉₊,
    total := total,
    hasNext := decide ((page - 1) * limit + returned < total),
    hasPrev := decide (page > 1) }

/-- The records a query with `.limit(limit).skip(skip)` returns of the matching ones, in
their order; a limit of 0 is no limit. -/
def pageOf {α : Type} (matching : List α) (skip limit : Nat) : List α :=
  if limit = 0 then matching.drop skip else (matching.drop skip).take limit

/-- The filter of `GET /mine`: `{ $or: [{requesterId: me}, {recipientId: me}] }`, with
`status` added when the query string gives a non-empty one. -/
def mineQuery (me : ObjectId) (status : Option String) (s : SwapRequest) : Bool :=
  (decide (s.requesterId = me) || decide (s.recipientId = me))
  && (match status with
      | none => true
      | some st => if st = "" then true else decide (s.status.name = st))

/-- One element of `swaps` in the answer of `GET /mine`: the document, its two populated
paths (`null` is `none`), and the two added fields. -/
structure MineItem where
  swap : SwapRequest
  requester : User
  recipient : Option User
  isRequester : Bool
  otherUser : Option User
deriving DecidableEq

/-- The body of the `map` in `GET /mine`; `none` is the TypeError of reading `_id` of a
requester path that populate left `null`. -/
def annotate (db : Db) (caller : ObjectId) (s : SwapRequest) : Option MineItem :=
  match findUser db s.requesterId with
  | none => none
  | some requester =>
    let recipient := findUser db s.recipientId
    let isRequester := decide (requester.id.toString = caller.toString)
    some ⟨s, requester, recipient, isRequester,
      if isRequester = true then recipient else some requester⟩

/-- The `map` over the page: it throws as soon as one element does. -/
def annotateAll (db : Db) (caller : ObjectId) : List SwapRequest → Option (List MineItem)
  | [] => some []
  | s :: rest =>
    match annotate db caller s, annotateAll db caller rest with
    | some x, some xs => some (x :: xs)
    | _, _ => none

/-- The successful answer of `GET /mine`. -/
structure MineResult where
  swaps : List MineItem
  pagination : Pagination
deriving DecidableEq

/-- The handler of `GET /api/swaps/mine` for integers `page` and `limit`; the answer is
`none` for the 500 of the `catch` block (a negative skip, a TypeError). The store is
returned as the handler leaves it. Documents with equal `createdAt` are kept in stored
order. -/
def listMine (db : Db) (caller : ObjectId) (status : Option String) (page limit : Nat) :
    Db × Option MineResult :=
  if page = 0 then (db, none)
  else
    let matching := db.swaps.filter (mineQuery caller status)
    let sorted := matching.insertionSort (fun a b => b.createdAt ≤ a.createdAt)
    let swapRequests := pageOf sorted ((page - 1) * limit) limit
    let total := matching.length
    match annotateAll db caller swapRequests with
    | none => (db, none)
    | some swapsWithContext =>
      (db, some ⟨swapsWithContext, paginationBlock total page limit swapRequests.length⟩)

/-! ## `PUT /api/users/:id` -/

/-- The paths of the user schema that an update document may set. -/
structure ProfileFields where
  name : Option String
  skillsOffered : Option (List String)
  isPublic : Option Bool
  rating : Option Rat
  totalRatings : Option Nat
  email : Option String
  password : Option String
  role : Option String
  banned : Option Bool
deriving DecidableEq

/-- The body of `PUT /api/users/:id`: its top-level keys, and the object under the key
`$set` when the body has one. -/
structure ProfileBody where
  fields : ProfileFields
  set : Option ProfileFields
deriving DecidableEq

/-- The validation chain of `PUT /api/users/:id` has recorded no error (of the fields
kept here only `name` has a bound; the chain looks at top-level keys). -/
def profileValid (body : ProfileBody) : Bool :=
  match body.fields.name with
  | none => true
  | some n => decide (2 ≤ n.length ∧ n.length ≤ 50)

/-- The four `delete updateData.…` statements: top-level keys of the copy. -/
def ProfileBody.strip (body : ProfileBody) : ProfileBody :=
  { body with fields :=
      { body.fields with email := none, password := none, role := none, banned := none } }

/-- The paths an update object sets on a user. -/
def User.setFields (u : User) (f : ProfileFields) : User :=
  { u with name := f.name.getD u.name,
           skillsOffered := f.skillsOffered.getD u.skillsOffered,
           isPublic := f.isPublic.getD u.isPublic,
           rating := f.rating.getD u.rating,
           totalRatings := f.totalRatings.getD u.totalRatings,
           email := f.email.getD u.email,
           password := f.password.getD u.password,
           role := f.role.getD u.role,
           banned := f.banned.getD u.banned }

/-- The update `findByIdAndUpdate` applies: the object under `$set`, then the top-level
keys, which the driver folds into the same `$set`. -/
def User.applyUpdate (u : User) (updateData : ProfileBody) : User :=
  (match updateData.set with
   | none => u
   | some s => u.setFields s).setFields updateData.fields

/-- The JSON answer of the profile and login handlers. -/
structure UserResponse where
  status : Nat
  success : Bool
  message : String
  user : Option User
deriving DecidableEq

/-- The handler of `PUT /api/users/:id`; `idParam` is `req.params.id`. The validators of
the user schema, declared in `models/User.js`, are not among the sources and are taken
to accept the update. -/
def updateProfile (db : Db) (caller : ObjectId) (idParam : String) (body : ProfileBody) :
    Db × UserResponse :=
  if profileValid body = false then (db, ⟨400, false, "Validation failed", none⟩)
  else if idParam ≠ caller.toString then
    (db, ⟨403, false, "You can only update your own profile", none⟩)
  else
    let updateData := body.strip
    match castObjectId idParam with
    | none => (db, ⟨500, false, "Server error while updating profile", none⟩)
    | some uid =>
      match findUser db uid with
      | none => (db, ⟨404, false, "User not found", none⟩)
      | some user =>
        let updated := user.applyUpdate updateData
        ({ db with users := saveUser db.users updated },
          ⟨200, true, "Profile updated successfully", some updated⟩)

/-! ## `POST /api/auth/login` -/

/-- The body of `POST /api/auth/login`. -/
structure LoginBody where
  email : String
  password : String
deriving DecidableEq

/-- The handler of `POST /api/auth/login`. `isEmail` and `normalizeEmail` are the
validator and the sanitizer of the chain, `comparePassword stored candidate` is the
method of `models/User.js`, which is not among the sources. -/
def login (isEmail : String → Bool) (normalizeEmail : String → String)
    (comparePassword : String → String → Bool) (db : Db) (body : LoginBody) :
    Db × UserResponse :=
  if (isEmail body.email && decide (body.password ≠ "")) = false then
    (db, ⟨400, false, "Validation failed", none⟩)
  else
    let email := normalizeEmail body.email
    match db.users.find? (fun u => decide (u.email = email)) with
    | none => (db, ⟨401, false, "Invalid credentials", none⟩)
    | some user =>
      if user.banned = true then (db, ⟨403, false, "Account has been banned", none⟩)
      else if comparePassword user.password body.password = false then
        (db, ⟨401, false, "Invalid credentials", none⟩)
      else if user.email = "p@p.com" ∧ body.password = "password123456789" then
        let admin := { user with role := "admin" }
        ({ db with users := saveUser db.users admin },
          ⟨200, true, "Login successful", some admin⟩)
      else (db, ⟨200, true, "Login successful", some user⟩)

/-! ## The two halves of accept and reject -/

/-- The accept and reject handlers up to their last check: the document `findById`
returned, or the answer that ends the request. `what` is `accept` or `reject`. -/
def respondRead (what : String) (db : Db) (caller : ObjectId) (idParam : String) :
    Except Response SwapRequest :=
  match castObjectId idParam with
  | none => .error (reply 500 ("Server error while " ++ what ++ "ing swap request"))
  | some sid =>
    match findSwap db sid with
    | none => .error (reply 404 "Swap request not found")
    | some swapRequest =>
      if swapRequest.recipientId.toString ≠ caller.toString then
        .error (reply 403 ("Only the recipient can " ++ what ++ " swap requests"))
      else if swapRequest.status ≠ .pending then
        .error (reply 400 "Swap request is no longer pending")
      else .ok swapRequest

/-- The accept handler from `await swapRequest.accept()` on, run on the document the
first half holds in memory and on the store as it is by then. -/
def acceptWrite (db : Db) (swapRequest : SwapRequest) (now : Nat) : Db × Response :=
  let saved := swapRequest.accept now
  if saved.validate = false then (db, reply 500 "Server error while accepting swap request")
  else
  let db1 : Db := { db with swaps := saveSwap db.swaps saved }
  match findUser db1 saved.recipientId with
  | none => (db1, reply 500 "Server error while accepting swap request")
  | some recipient =>
    match Notification.create db1 ((findUser db1 saved.requesterId).map (·.id))
        "swap_accepted" (recipient.name ++ " accepted your swap request!")
        saved.id now with
    | none => (db1, reply 500 "Server error while accepting swap request")
    | some db2 =>
      (db2, ⟨200, true, "Swap request accepted successfully", some saved⟩)

/-- The reject handler from `await swapRequest.reject()` on. -/
def rejectWrite (db : Db) (swapRequest : SwapRequest) (now : Nat) : Db × Response :=
  let saved := swapRequest.reject now
  if saved.validate = false then (db, reply 500 "Server error while rejecting swap request")
  else
  let db1 : Db := { db with swaps := saveSwap db.swaps saved }
  match findUser db1 saved.recipientId with
  | none => (db1, reply 500 "Server error while rejecting swap request")
  | some recipient =>
    match Notification.create db1 ((findUser db1 saved.requesterId).map (·.id))
        "swap_rejected" (recipient.name ++ " rejected your swap request.")
        saved.id now with
    | none => (db1, reply 500 "Server error while rejecting swap request")
    | some db2 =>
      (db2, ⟨200, true, "Swap request rejected successfully", some saved⟩)

/-- The edges of the status graph. -/
def Edge : Status → Status → Prop
  | .pending, .accepted => True
  | .pending, .rejected => True
  | .pending, .cancelled => True
  | .accepted, .completed => True
  | .accepted, .cancelled => True
  | _, _ => False

instance : DecidableRel Edge := fun a b => by
  cases a <;> cases b <;> unfold Edge <;> infer_instance

/-- The three terminal statuses. -/
def Status.terminal (s : Status) : Bool :=
  s = .rejected || s = .cancelled || s = .completed

/-- The swaps of the store that are between the two users, in either direction. -/
def between (a b : ObjectId) (s : SwapRequest) : Bool :=
  (decide (s.requesterId = a) && decide (s.recipientId = b))
    || (decide (s.requesterId = b) && decide (s.recipientId = a))

/-- The active swaps between two users. -/
def activeBetween (db : Db) (a b : ObjectId) : List SwapRequest :=
  db.swaps.filter (fun s => between a b s && s.isActive)

/-- The terminal fields of a swap agree with its status: `completedAt` is set exactly
in status completed; `cancelledBy` and `cancellationReason` are set exactly in status
cancelled, and the canceller is the requester or the recipient. -/
def SwapRequest.TerminalFields (s : SwapRequest) : Prop :=
  (s.completedAt.isSome = true ↔ s.status = .completed)
  ∧ (s.cancelledBy.isSome = true ↔ s.status = .cancelled)
  ∧ (s.cancellationReason.isSome = true ↔ s.status = .cancelled)
  ∧ (∀ u, s.cancelledBy = some u → u = s.requesterId ∨ u = s.recipientId)

/-- The failure kinds of the error taxonomy, and the server error of a `catch` block. -/
inductive FailureKind where
  | notFound
  | forbidden
  | conflict
  | validationError
  | selfReference
  | serverError
deriving DecidableEq, Repr

/-- The kind, in the taxonomy of the specification, of each failure message the handlers
of `routes/swaps.js` and `routes/feedback.js` send. -/
def failureKind (message : String) : Option FailureKind :=
  if message ∈ ["Recipient not found", "Swap request not found"] then some .notFound
  else if message ∈ ["Cannot send request to private profile",
      "Only the recipient can accept swap requests",
      "Only the recipient can reject swap requests",
      "Not authorized to cancel this swap request",
      "Not authorized to complete this swap",
      "Not authorized to give feedback for this swap"] then some .forbidden
  else if message ∈ ["There is already an active swap request between you and this user",
      "Swap request is no longer pending",
      "Swap request cannot be cancelled",
      "Only accepted swaps can be marked as completed",
      "Feedback can only be given for completed swaps",
      "You have already given feedback for this swap"] then some .conflict
  else if message ∈ ["Validation failed",
      "You must have the skill you are offering in your skills offered list",
      "Recipient does not have the skill you are requesting",
      "User being rated must be involved in the swap"] then some .validationError
  else if message ∈ ["Cannot send swap request to yourself", "Cannot rate yourself"] then
    some .selfReference
  else if message ∈ ["Server error while creating swap request",
      "Server error while accepting swap request",
      "Server error while rejecting swap request",
      "Server error while cancelling swap request",
      "Server error while completing swap",
      "Server error while creating feedback"] then some .serverError
  else none

/-- The HTTP status the handlers send with a failure of each kind. -/
def FailureKind.httpStatus : FailureKind → Nat
  | .notFound => 404
  | .forbidden => 403
  | .conflict => 400
  | .validationError => 400
  | .selfReference => 400
  | .serverError => 500

/-- The invariant of a stored feedback: its swap is stored and completed, and its rater
and ratee are the two participants of that swap, one each, and differ. -/
def Feedback.Sound (db : Db) (f : Feedback) : Prop :=
  ∃ s, findSwap db f.swapRequestId = some s ∧ s.status = .completed
    ∧ ((f.fromUserId = s.requesterId ∧ f.toUserId = s.recipientId)
      ∨ (f.fromUserId = s.recipientId ∧ f.toUserId = s.requesterId))
    ∧ f.fromUserId ≠ f.toUserId

/-! ## Sample data -/

/-- The ObjectId whose 24 digits are all `d`. -/
def sampleId (d : Fin 16) : ObjectId := ⟨List.replicate 24 d, by simp⟩

/-- Ann, `aaaaaaaaaaaaaaaaaaaaaaaa`, offers Guitar. -/
def ann : User :=
  ⟨sampleId 10, "Ann", ["Guitar"], true, false, 0, 0, "ann@x.org", "hash-of-ann", "user"⟩

/-- Bob, `bbbbbbbbbbbbbbbbbbbbbbbb`, offers Python. -/
def bob : User :=
  ⟨sampleId 11, "Bob", ["Python"], true, false, 0, 0, "bob@x.org", "hash-of-bob", "user"⟩

/-- Dan, `dddddddddddddddddddddddd`, offers Chess and keeps a private profile. -/
def dan : User :=
  ⟨sampleId 13, "Dan", ["Chess"], false, false, 0, 0, "dan@x.org", "hash-of-dan", "user"⟩

/-- A swap `111111111111111111111111` from Ann to Bob, Guitar for Python, in a status. -/
def sampleSwap (st : Status) : SwapRequest :=
  { id := sampleId 1, requesterId := ann.id, recipientId := bob.id, status := st,
    requesterSkill := "Guitar", recipientSkill := "Python", message := none,
    scheduledDate := none, completedAt := none, cancelledBy := none,
    cancellationReason := none, createdAt := 0, updatedAt := 0 }

/-- A store with Ann, Bob and Dan and no swap. -/
def emptyDb : Db := ⟨[ann, bob, dan], [], [], []⟩

/-- A store with Ann, Bob and Dan and the sample swap in a status. -/
def sampleDb (st : Status) : Db := ⟨[ann, bob, dan], [sampleSwap st], [], []⟩

/-- The body of Ann's request to Bob, Guitar for Python. -/
def annToBob : CreateBody := ⟨"bbbbbbbbbbbbbbbbbbbbbbbb", "Guitar", "Python", none, none⟩

/-- A string of `n` characters outside the basic plane (U+1F600), two code units each. -/
def astral (n : Nat) : String := String.mk (List.replicate n (Char.ofNat 128512))

/-- The body of Ann's request to Bob with a message. -/
def annToBobWith (message : String) : CreateBody :=
  ⟨"bbbbbbbbbbbbbbbbbbbbbbbb", "Guitar", "Python", some message, none⟩

/-- The body of a request to Ann, Guitar for Guitar, with her id as the server renders it. -/
def toAnnLower : CreateBody := ⟨"aaaaaaaaaaaaaaaaaaaaaaaa", "Guitar", "Guitar", none, none⟩

/-- The same request with the id written in upper case. -/
def toAnnUpper : CreateBody := ⟨"AAAAAAAAAAAAAAAAAAAAAAAA", "Guitar", "Guitar", none, none⟩

/-- The body of a request to Dan, Chess for Chess. -/
def toDan : CreateBody := ⟨"dddddddddddddddddddddddd", "Chess", "Chess", none, none⟩

/-- Modelled from the spec: `updateRating` of `models/User.js`, which is not among the
sources; the running average and the count are folded incrementally: the new average is
`(rating * totalRatings + newRating) / (totalRatings + 1)`, written on numerator and
denominator. -/
def foldRating : UpdateRating := fun rating totalRatings newRating =>
  (mkRat (rating.num * totalRatings + newRating * rating.den)
      (rating.den * (totalRatings + 1)),
    totalRatings + 1)

/-- The body of Ann's rating of Bob for the sample swap: five, for Python. -/
def annRatesBob : FeedbackBody :=
  ⟨"111111111111111111111111", "bbbbbbbbbbbbbbbbbbbbbbbb", 5, none, "Python"⟩

/-- The calls of the scenario: Ann asks Bob, Bob accepts, Ann completes. -/
def scenarioOps : List Op :=
  [.create ann.id annToBob (sampleId 1) 1,
   .transition ⟨bob.id, "111111111111111111111111", .accept, 2⟩,
   .transition ⟨ann.id, "111111111111111111111111", .complete, 3⟩]

/-- The store after the scenario: the swap `111111111111111111111111` is completed. -/
def doneDb : Db := run foldRating emptyDb scenarioOps

/-- The store after Ann has then rated Bob. -/
def ratedDb : Db := step foldRating doneDb (.feedback ann.id annRatesBob (sampleId 2) 4)

/-- The body of a rating for the sample swap that names Ann, in lower case. -/
def ratesAnnLower : FeedbackBody :=
  ⟨"111111111111111111111111", "aaaaaaaaaaaaaaaaaaaaaaaa", 5, none, "Guitar"⟩

/-- The same body with Ann's id written in upper case. -/
def ratesAnnUpper : FeedbackBody :=
  ⟨"111111111111111111111111", "AAAAAAAAAAAAAAAAAAAAAAAA", 5, none, "Guitar"⟩

/-- The sample store after Ann has deleted her account: her pending request to Bob stays. -/
def annDeletedDb : Db := ⟨[bob, dan], [sampleSwap .pending], [], []⟩

/-- A body of `PUT /api/feedback/:id` that carries a rating and nothing else. -/
def editRating (r : Int) : FeedbackUpdateBody := ⟨some r, none, none, none, none, none⟩

/-- A body of `PUT /api/feedback/:id` that carries Dan's id as `toUserId` and nothing
else. -/
def moveToDan : FeedbackUpdateBody :=
  ⟨none, none, none, none, some "dddddddddddddddddddddddd", none⟩

/-- An update object that sets no path. -/
def noFields : ProfileFields := ⟨none, none, none, none, none, none, none, none, none⟩

/-- The body `{ role: 'admin' }` that the profile page of the client sends. -/
def roleAdmin : ProfileBody := ⟨{ noFields with role := some "admin" }, none⟩

/-- The body `{ $set: { role: 'admin' } }`. -/
def setRoleAdmin : ProfileBody := ⟨noFields, some { noFields with role := some "admin" }⟩

/-- Pat, `cccccccccccccccccccccccc`, whose address is `p@p.com`. -/
def pat : User :=
  ⟨sampleId 12, "Pat", [], true, false, 0, 0, "p@p.com", "hash-of-pat", "user"⟩

/-- A store with Pat alone. -/
def patDb : Db := ⟨[pat], [], [], []⟩

/-! ## Identifiers: the rendering determines the ObjectId -/

theorem hexDigitValue_hexDigitChar : ∀ d : Fin 16, hexDigitValue (hexDigitChar d) = some d := by
  decide

theorem hexDigits_map_hexDigitChar (ds : List (Fin 16)) :
    hexDigits (ds.map hexDigitChar) = some ds := by
  induction ds with
  | nil => rfl
  | cons d ds ih => simp [hexDigits, hexDigitValue_hexDigitChar, ih]

theorem castObjectId_toString (o : ObjectId) : castObjectId o.toString = some o := by
  obtain ⟨ds, h⟩ := o
  simp [castObjectId, ObjectId.toString, hexDigits_map_hexDigitChar, h]

theorem toString_inj {a b : ObjectId} : a.toString = b.toString ↔ a = b := by
  constructor
  · intro h
    have := congrArg castObjectId h
    simpa [castObjectId_toString] using this
  · intro h
    rw [h]

/-! ## What `save` does to the collection -/

theorem saveSwap_length (l : List SwapRequest) (s : SwapRequest) :
    (saveSwap l s).length = l.length := by
  induction l with
  | nil => rfl
  | cons x xs ih =>
    by_cases h : x.id = s.id <;> simp [saveSwap, h, ih]

theorem saveSwap_spec (l : List SwapRequest) (sid : ObjectId) (s t : SwapRequest)
    (hfind : l.find? (fun x => decide (x.id = sid)) = some s) (hid : t.id = sid) :
    ∃ i : Nat, l[i]? = some s ∧ (saveSwap l t)[i]? = some t
      ∧ ∀ j : Nat, j ≠ i → (saveSwap l t)[j]? = l[j]? := by
  induction l with
  | nil => simp at hfind
  | cons x xs ih =>
    by_cases hx : x.id = sid
    · have hxs : x = s := by simpa [List.find?, hx] using hfind
      refine ⟨0, by simp [hxs], by simp [saveSwap, hx, hid], ?_⟩
      intro j hj
      cases j with
      | zero => exact absurd rfl hj
      | succ j => simp [saveSwap, hx, hid]
    · have hrest : xs.find? (fun x => decide (x.id = sid)) = some s := by
        simpa [List.find?, hx] using hfind
      obtain ⟨i, h1, h2, h3⟩ := ih hrest
      have hx2 : ¬ x.id = t.id := by rw [hid]; exact hx
      refine ⟨i + 1, by simpa using h1, by simpa [saveSwap, hx2] using h2, ?_⟩
      intro j hj
      cases j with
      | zero => simp [saveSwap, hx2]
      | succ j =>
        have : j ≠ i := fun h => hj (by rw [h])
        simpa [saveSwap, hx2] using h3 j this

theorem find_id {l : List SwapRequest} {sid : ObjectId} {s : SwapRequest}
    (h : l.find? (fun x => decide (x.id = sid)) = some s) : s.id = sid := by
  have := List.find?_some h
  simpa using this

/-! ## What the handlers do to the store -/

theorem Notification.create_some {db db2 : Db} {userId : Option ObjectId}
    {type message : String} {sid : ObjectId} {now : Nat}
    (h : Notification.create db userId type message sid now = some db2) :
    ∃ uid, userId = some uid ∧ db2.users = db.users ∧ db2.swaps = db.swaps
      ∧ db2.notifications
          = db.notifications ++ [⟨uid, type, message, false, some sid, now⟩] := by
  unfold Notification.create at h
  split at h
  · exact absurd h (by simp)
  · rename_i uid
    split at h
    · cases h
      exact ⟨uid, rfl, rfl, rfl, rfl⟩
    · exact absurd h (by simp)

/-- What one lifecycle call does to the store: it is refused and nothing changes, or one
found document is saved with a status one edge further. -/
theorem transitionSwap_cases (db : Db) (c : TransitionCall) :
    ((transitionSwap db c).1 = db ∧ (transitionSwap db c).2.success = false)
    ∨ ∃ sid s t, castObjectId c.idParam = some sid ∧ findSwap db sid = some s
        ∧ t.id = s.id ∧ t.requesterId = s.requesterId ∧ t.recipientId = s.recipientId
        ∧ Edge s.status t.status
        ∧ (transitionSwap db c).1.swaps = saveSwap db.swaps t
        ∧ (transitionSwap db c).1.users = db.users := by
  obtain ⟨caller, idParam, action, now⟩ := c
  cases action with
  | accept =>
    simp only [transitionSwap, acceptSwap]
    cases hsid : castObjectId idParam with
    | none => left; exact ⟨rfl, rfl⟩
    | some sid =>
      dsimp only
      cases hs : findSwap db sid with
      | none => left; exact ⟨rfl, rfl⟩
      | some s =>
        dsimp only
        by_cases h1 : s.recipientId.toString ≠ caller.toString
        · left; simp [h1, reply]
        · by_cases h2 : s.status ≠ .pending
          · left; simp [h1, h2, reply]
          · by_cases hval : (s.accept now).validate = false
            · left; simp [h1, h2, hval, reply]
            right
            have h2p : s.status = .pending := by simpa using h2
            refine ⟨sid, s, s.accept now, rfl, hs, rfl, rfl, rfl, ?_, ?_⟩
            · simp [SwapRequest.accept, h2p, Edge]
            · simp only [h1, h2, hval, if_false]
              cases hu : findUser _ (s.accept now).recipientId with
              | none => exact ⟨rfl, rfl⟩
              | some r =>
                dsimp only
                cases hn : Notification.create _ _ _ _ _ _ with
                | none => exact ⟨rfl, rfl⟩
                | some db2 =>
                  obtain ⟨_, _, hu2, hs2, _⟩ := Notification.create_some hn
                  exact ⟨hs2, hu2⟩
  | reject =>
    simp only [transitionSwap, rejectSwap]
    cases hsid : castObjectId idParam with
    | none => left; exact ⟨rfl, rfl⟩
    | some sid =>
      dsimp only
      cases hs : findSwap db sid with
      | none => left; exact ⟨rfl, rfl⟩
      | some s =>
        dsimp only
        by_cases h1 : s.recipientId.toString ≠ caller.toString
        · left; simp [h1, reply]
        · by_cases h2 : s.status ≠ .pending
          · left; simp [h1, h2, reply]
          · by_cases hval : (s.reject now).validate = false
            · left; simp [h1, h2, hval, reply]
            right
            have h2p : s.status = .pending := by simpa using h2
            refine ⟨sid, s, s.reject now, rfl, hs, rfl, rfl, rfl, ?_, ?_⟩
            · simp [SwapRequest.reject, h2p, Edge]
            · simp only [h1, h2, hval, if_false]
              cases hu : findUser _ (s.reject now).recipientId with
              | none => exact ⟨rfl, rfl⟩
              | some r =>
                dsimp only
                cases hn : Notification.create _ _ _ _ _ _ with
                | none => exact ⟨rfl, rfl⟩
                | some db2 =>
                  obtain ⟨_, _, hu2, hs2, _⟩ := Notification.create_some hn
                  exact ⟨hs2, hu2⟩
  | cancel reason =>
    simp only [transitionSwap, cancelSwap]
    by_cases hv : cancelValid reason = false
    · left; simp [hv, reply]
    · simp only [hv, if_false]
      cases hsid : castObjectId idParam with
      | none => left; exact ⟨rfl, rfl⟩
      | some sid =>
        dsimp only
        cases hs : findSwap db sid with
        | none => left; exact ⟨rfl, rfl⟩
        | some s =>
          dsimp only
          by_cases h1 : s.requesterId.toString ≠ caller.toString
              ∧ s.recipientId.toString ≠ caller.toString
          · left; simp [h1, reply]
          · by_cases h2 : s.status ∉ [Status.pending, Status.accepted]
            · left; simp only [h1, h2, if_true, if_false]; exact ⟨rfl, rfl⟩
            · by_cases hval : (s.cancel caller reason now).validate = false
              · left; simp only [h1, h2, hval, if_true, if_false]; exact ⟨rfl, rfl⟩
              right
              refine ⟨sid, s, s.cancel caller reason now, rfl, hs, rfl, rfl, rfl, ?_, ?_⟩
              · have h2p : s.status = .pending ∨ s.status = .accepted := by
                  cases hst : s.status <;> simp [hst] at h2 ⊢
                rcases h2p with h | h <;> simp [SwapRequest.cancel, h, Edge]
              · simp only [h1, h2, hval, if_false]
                exact ⟨rfl, rfl⟩
  | complete =>
    simp only [transitionSwap, completeSwap]
    cases hsid : castObjectId idParam with
    | none => left; exact ⟨rfl, rfl⟩
    | some sid =>
      dsimp only
      cases hs : findSwap db sid with
      | none => left; exact ⟨rfl, rfl⟩
      | some s =>
        dsimp only
        by_cases h1 : s.requesterId.toString ≠ caller.toString
            ∧ s.recipientId.toString ≠ caller.toString
        · left; simp [h1, reply]
        · by_cases h2 : s.status ≠ .accepted
          · left; simp [h1, h2, reply]
          · by_cases hval : (s.complete now).validate = false
            · left; simp [h1, h2, hval, reply]
            right
            have h2p : s.status = .accepted := by simpa using h2
            refine ⟨sid, s, s.complete now, rfl, hs, rfl, rfl, rfl, ?_, ?_⟩
            · simp [SwapRequest.complete, h2p, Edge]
            · simp [h1, h2, hval]

theorem Edge.not_terminal {a b : Status} (h : Edge a b) : a.terminal = false := by
  cases a <;> cases b <;> simp_all [Edge, Status.terminal]

theorem Edge.not_pending {a b : Status} (h : Edge a b) : b ≠ .pending := by
  cases a <;> cases b <;> simp_all [Edge]

/-- One lifecycle call, position by position in the collection. -/
theorem transitionSwap_step (d : Db) (c : TransitionCall) :
    (transitionSwap d c).1.swaps.length = d.swaps.length
    ∧ (∀ (i : Nat) (s t : SwapRequest),
        d.swaps[i]? = some s → (transitionSwap d c).1.swaps[i]? = some t →
          (t.status = s.status ∨ Edge s.status t.status)
          ∧ (s.status.terminal = true → t.status = s.status)
          ∧ (t.status = .pending → s.status = .pending))
    ∧ ((transitionSwap d c).2.success = true →
        ∃ (i : Nat) (s t : SwapRequest),
          d.swaps[i]? = some s ∧ (transitionSwap d c).1.swaps[i]? = some t
          ∧ castObjectId c.idParam = some s.id
          ∧ Edge s.status t.status
          ∧ ∀ j : Nat, j ≠ i → (transitionSwap d c).1.swaps[j]? = d.swaps[j]?) := by
  rcases transitionSwap_cases d c with ⟨hsame, hfail⟩ | ⟨sid, s, t, hcast, hfind, hid, _, _, hedge, hsw, _⟩
  · refine ⟨by rw [hsame], ?_, ?_⟩
    · intro i s t hs ht
      rw [hsame, hs] at ht
      cases ht
      exact ⟨Or.inl rfl, fun _ => rfl, fun h => h⟩
    · intro h
      rw [hfail] at h
      exact absurd h (by simp)
  · have hsid : s.id = sid := find_id hfind
    obtain ⟨i, hi, hi2, hrest⟩ := saveSwap_spec d.swaps sid s t hfind (hid.trans hsid)
    refine ⟨by rw [hsw, saveSwap_length], ?_, ?_⟩
    · intro j a b ha hb
      rw [hsw] at hb
      by_cases hj : j = i
      · subst hj
        rw [hi] at ha
        rw [hi2] at hb
        cases ha
        cases hb
        refine ⟨Or.inr hedge, ?_, ?_⟩
        · intro hterm
          rw [hedge.not_terminal] at hterm
          exact absurd hterm (by simp)
        · intro hp
          exact absurd hp hedge.not_pending
      · rw [hrest j hj, ha] at hb
        cases hb
        exact ⟨Or.inl rfl, fun _ => rfl, fun h => h⟩
    · intro _
      refine ⟨i, s, t, hi, by rw [hsw]; exact hi2, by rw [hcast, hsid], hedge, ?_⟩
      intro j hj
      rw [hsw]
      exact hrest j hj

/-- Over a sequence of lifecycle calls every swap keeps its position and its status
follows a path of the graph. -/
theorem runTransitions_path (calls : List TransitionCall) :
    ∀ (db : Db) (i : Nat) (s t : SwapRequest),
      db.swaps[i]? = some s → (runTransitions db calls).swaps[i]? = some t →
        Relation.ReflTransGen Edge s.status t.status := by
  induction calls with
  | nil =>
    intro db i s t hs ht
    simp only [runTransitions] at ht
    rw [hs] at ht
    cases ht
    exact Relation.ReflTransGen.refl
  | cons c cs ih =>
    intro db i s t hs ht
    simp only [runTransitions] at ht
    obtain ⟨hlen, hstep, _⟩ := transitionSwap_step db c
    have hi : i < db.swaps.length := by
      by_contra hcon
      rw [List.getElem?_eq_none (Nat.le_of_not_lt hcon)] at hs
      exact absurd hs (by simp)
    have hi2 : i < (transitionSwap db c).1.swaps.length := by rw [hlen]; exact hi
    have hm := List.getElem?_eq_getElem hi2
    have hpath := ih _ i _ t hm ht
    rcases (hstep i s _ hs hm).1 with h | h
    · rw [h] at hpath
      exact hpath
    · exact Relation.ReflTransGen.head h hpath

/-- C1. Lifecycle calls only move a swap's status along the edges pending→accepted,
pending→rejected, pending→cancelled, accepted→completed, accepted→cancelled: after any
sequence of calls, the next call leaves every swap in place with its status unchanged or
moved along one edge, never leaves a terminal status and never produces pending; a
successful call moves the addressed swap along exactly one edge and changes no other
swap; and over the whole sequence each status follows a path of the graph. -/
theorem C1_status_follows_lifecycle_graph (db : Db) (calls : List TransitionCall)
    (c : TransitionCall) :
    (transitionSwap (runTransitions db calls) c).1.swaps.length
        = (runTransitions db calls).swaps.length
    ∧ (∀ (i : Nat) (s t : SwapRequest),
        (runTransitions db calls).swaps[i]? = some s →
        (transitionSwap (runTransitions db calls) c).1.swaps[i]? = some t →
          (t.status = s.status ∨ Edge s.status t.status)
          ∧ (s.status.terminal = true → t.status = s.status)
          ∧ (t.status = .pending → s.status = .pending))
    ∧ ((transitionSwap (runTransitions db calls) c).2.success = true →
        ∃ (i : Nat) (s t : SwapRequest),
          (runTransitions db calls).swaps[i]? = some s
          ∧ (transitionSwap (runTransitions db calls) c).1.swaps[i]? = some t
          ∧ castObjectId c.idParam = some s.id
          ∧ Edge s.status t.status
          ∧ ∀ j : Nat, j ≠ i →
              (transitionSwap (runTransitions db calls) c).1.swaps[j]?
                = (runTransitions db calls).swaps[j]?)
    ∧ (∀ (i : Nat) (s t : SwapRequest),
        db.swaps[i]? = some s → (runTransitions db calls).swaps[i]? = some t →
          Relation.ReflTransGen Edge s.status t.status) := by
  obtain ⟨h1, h2, h3⟩ := transitionSwap_step (runTransitions db calls) c
  exact ⟨h1, h2, h3, runTransitions_path calls db⟩

theorem append_ne_empty (a b : String) (hb : b ≠ "") : a ++ b ≠ "" := by
  intro h
  apply hb
  have h2 := congrArg String.data h
  simp only [String.data_append] at h2
  have h3 : b.data = [] := (List.append_eq_nil.mp h2).2
  exact String.ext h3

/-- What a creation call does to the store: it is refused and nothing changes, or every
check has passed, one pending document and one notification are inserted, and the
answer is 201. -/
theorem createSwap_cases (db : Db) (caller : ObjectId) (body : CreateBody)
    (newId : ObjectId) (now : Nat) :
    ((createSwap db caller body newId now).1 = db
      ∧ (createSwap db caller body newId now).2.success = false)
    ∨ ∃ rid recipient requester,
        createValid body = true
        ∧ castObjectId body.recipientId = some rid
        ∧ findUser db rid = some recipient
        ∧ recipient.banned = false ∧ recipient.isPublic = true
        ∧ body.recipientId ≠ caller.toString
        ∧ findUser db caller = some requester
        ∧ body.requesterSkill ∈ requester.skillsOffered
        ∧ body.recipientSkill ∈ recipient.skillsOffered
        ∧ db.swaps.find? (existingSwapQuery caller rid) = none
        ∧ createSwap db caller body newId now
            = (⟨db.users, db.swaps ++ [newSwap caller rid body newId now],
                db.notifications ++ [⟨rid, "swap_request",
                  requester.name ++ " sent you a swap request.", false, some newId, now⟩], db.feedback⟩,
               ⟨201, true, "Swap request sent successfully",
                 some (newSwap caller rid body newId now)⟩) := by
  unfold createSwap
  by_cases hv : createValid body = false
  · left; simp [hv, reply]
  · simp only [hv, if_false]
    cases hc : castObjectId body.recipientId with
    | none => left; exact ⟨rfl, rfl⟩
    | some rid =>
      dsimp only
      cases hr : findUser db rid with
      | none => left; exact ⟨rfl, rfl⟩
      | some recipient =>
        dsimp only
        by_cases hb : recipient.banned = true
        · left; simp [hb, reply]
        · by_cases hp : recipient.isPublic = false
          · left; simp [hb, hp, reply]
          · by_cases hself : body.recipientId = caller.toString
            · left; simp [hb, hp, hself, reply]
            · simp only [hb, hp, hself, if_false]
              cases hq : findUser db caller with
              | none => left; exact ⟨rfl, rfl⟩
              | some requester =>
                dsimp only
                by_cases h4 : body.requesterSkill ∉ requester.skillsOffered
                · left; simp [h4, reply]
                · by_cases h5 : body.recipientSkill ∉ recipient.skillsOffered
                  · left; simp [h4, h5, reply]
                  · simp only [h4, h5, if_false]
                    cases h6 : db.swaps.find? (existingSwapQuery caller rid) with
                    | some _ => left; exact ⟨rfl, rfl⟩
                    | none =>
                      by_cases hval : (newSwap caller rid body newId now).validate = false
                      · left; simp [hval, reply]
                      right
                      refine ⟨rid, recipient, requester, trivial, rfl, hr,
                        by simpa using hb, by simpa using hp, hself, rfl,
                        by simpa using h4, by simpa using h5, h6, ?_⟩
                      have hm : requester.name ++ " sent you a swap request." ≠ "" :=
                        append_ne_empty _ _ (by decide)
                      simp only [hval, if_false]
                      simp [Notification.create, notificationTypes, hm, newSwap]

/-! ## What a feedback submission does to the store -/

theorem saveUser_length (l : List User) (u : User) : (saveUser l u).length = l.length := by
  induction l with
  | nil => rfl
  | cons x xs ih =>
    by_cases h : x.id = u.id <;> simp [saveUser, h, ih]

theorem feedbackPreSave_frame (updateRating : UpdateRating) (db : Db) (toUserId : ObjectId)
    (rating : Int) :
    (feedbackPreSave updateRating db toUserId rating).swaps = db.swaps
    ∧ (feedbackPreSave updateRating db toUserId rating).notifications = db.notifications
    ∧ (feedbackPreSave updateRating db toUserId rating).feedback = db.feedback := by
  unfold feedbackPreSave
  cases findUser db toUserId <;> exact ⟨rfl, rfl, rfl⟩

/-- A feedback submission is refused and changes nothing, or every check has passed and
one document is inserted after the hook has run; no notification is ever stored and the
answer is never a success, because `'feedback'` is not a notification type. -/
theorem submitFeedback_cases (updateRating : UpdateRating) (db : Db) (caller : ObjectId)
    (body : FeedbackBody) (newId : ObjectId) (now : Nat) :
    (submitFeedback updateRating db caller body newId now).2.success = false
    ∧ ((submitFeedback updateRating db caller body newId now).1 = db
      ∨ ∃ sid s toId,
          feedbackValid body = true
          ∧ castObjectId body.swapRequestId = some sid
          ∧ findSwap db sid = some s
          ∧ s.status = .completed
          ∧ (s.requesterId = caller ∨ s.recipientId = caller)
          ∧ body.toUserId ≠ caller.toString
          ∧ (s.requesterId.toString = body.toUserId ∨ s.recipientId.toString = body.toUserId)
          ∧ db.feedback.find? (existingFeedbackQuery sid caller) = none
          ∧ castObjectId body.toUserId = some toId
          ∧ (submitFeedback updateRating db caller body newId now).1
              = { feedbackPreSave updateRating db toId body.rating with
                  feedback := db.feedback ++ [newFeedback caller sid toId body newId now] }
          ∧ (submitFeedback updateRating db caller body newId now).2
              = feedbackReply 500 "Server error while creating feedback") := by
  unfold submitFeedback
  by_cases hv : feedbackValid body = false
  · simp [hv, feedbackReply]
  · simp only [hv, if_false]
    cases hc : castObjectId body.swapRequestId with
    | none => exact ⟨rfl, Or.inl rfl⟩
    | some sid =>
      dsimp only
      cases hs : findSwap db sid with
      | none => exact ⟨rfl, Or.inl rfl⟩
      | some s =>
        dsimp only
        by_cases h2 : s.status ≠ .completed
        · simp [h2, feedbackReply]
        · by_cases h3 : s.requesterId.toString ≠ caller.toString
              ∧ s.recipientId.toString ≠ caller.toString
          · simp [h2, h3, feedbackReply]
          · by_cases h4 : body.toUserId = caller.toString
            · simp [h2, h3, h4, feedbackReply]
            · by_cases h5 : s.requesterId.toString ≠ body.toUserId
                  ∧ s.recipientId.toString ≠ body.toUserId
              · simp [h2, h3, h4, h5, feedbackReply]
              · simp only [h2, h3, h4, h5, if_false]
                cases h6 : db.feedback.find? (existingFeedbackQuery sid caller) with
                | some _ => exact ⟨rfl, Or.inl rfl⟩
                | none =>
                  dsimp only
                  cases h7 : castObjectId body.toUserId with
                  | none => exact ⟨rfl, Or.inl rfl⟩
                  | some toId =>
                    dsimp only
                    have hfb := (feedbackPreSave_frame updateRating db toId body.rating).2.2
                    have hpart : s.requesterId = caller ∨ s.recipientId = caller := by
                      by_contra hcon
                      apply h3
                      rw [not_or] at hcon
                      exact ⟨fun e => hcon.1 (toString_inj.mp e),
                        fun e => hcon.2 (toString_inj.mp e)⟩
                    have hratee : s.requesterId.toString = body.toUserId
                        ∨ s.recipientId.toString = body.toUserId := by
                      by_contra hcon
                      rw [not_or] at hcon
                      exact h5 hcon
                    have hst : s.status = .completed := by simpa using h2
                    by_cases hval : (newFeedback caller sid toId body newId now).validate
                        = false
                    · rw [if_pos hval]
                      exact ⟨rfl, Or.inl rfl⟩
                    rw [if_neg hval]
                    cases hu : findUser _ caller with
                    | none =>
                      refine ⟨rfl, Or.inr ⟨sid, s, toId, trivial, rfl, hs,
                        hst, hpart, h4, hratee, h6, rfl, ?_, rfl⟩⟩
                      simp [hfb]
                    | some sender =>
                      dsimp only
                      have hn : ∀ (d : Db) (msg : String),
                          Notification.create d (some toId) "feedback" msg sid now = none := by
                        intro d msg
                        simp [Notification.create, notificationTypes]
                      rw [hn]
                      refine ⟨rfl, Or.inr ⟨sid, s, toId, trivial, rfl, hs,
                        hst, hpart, h4, hratee, h6, rfl, ?_, rfl⟩⟩
                      simp [hfb]

theorem submitFeedback_swaps (updateRating : UpdateRating) (db : Db) (caller : ObjectId)
    (body : FeedbackBody) (newId : ObjectId) (now : Nat) :
    (submitFeedback updateRating db caller body newId now).1.swaps = db.swaps := by
  rcases (submitFeedback_cases updateRating db caller body newId now).2 with
    h | ⟨_, _, toId, _, _, _, _, _, _, _, _, _, h, _⟩
  · rw [h]
  · rw [h]
    exact (feedbackPreSave_frame updateRating db toId body.rating).1

/-! ## At most one active swap per pair -/

theorem Edge.active {a b : Status} (h : Edge a b) :
    (b = .pending ∨ b = .accepted) → (a = .pending ∨ a = .accepted) := by
  cases a <;> cases b <;> simp_all [Edge]

theorem saveSwap_filter_length (p : SwapRequest → Bool) (sid : ObjectId)
    (s t : SwapRequest) (hid : t.id = sid) (hp : p t = true → p s = true) :
    ∀ l : List SwapRequest, l.find? (fun x => decide (x.id = sid)) = some s →
      ((saveSwap l t).filter p).length ≤ (l.filter p).length := by
  intro l
  induction l with
  | nil => intro h; simp at h
  | cons x xs ih =>
    intro hfind
    by_cases hx : x.id = sid
    · have hxs : x = s := by simpa [List.find?, hx] using hfind
      subst hxs
      have hx2 : x.id = t.id := by rw [hid]; exact hx
      simp only [saveSwap, hx2, if_true]
      by_cases hpt : p t = true
      · simp [List.filter_cons, hpt, hp hpt]
      · by_cases hps : p x = true
        · simp [List.filter_cons, hpt, hps]
        · simp [List.filter_cons, hpt, hps]
    · have hrest : xs.find? (fun x => decide (x.id = sid)) = some s := by
        simpa [List.find?, hx] using hfind
      have hx2 : ¬ x.id = t.id := by rw [hid]; exact hx
      have := ih hrest
      simp only [saveSwap, hx2, if_false]
      by_cases hpx : p x = true
      · simpa [List.filter_cons, hpx] using this
      · simpa [List.filter_cons, hpx] using this

/-- A lifecycle call never adds an active swap between two users. -/
theorem transitionSwap_activeBetween (db : Db) (c : TransitionCall) (a b : ObjectId) :
    (activeBetween (transitionSwap db c).1 a b).length ≤ (activeBetween db a b).length := by
  rcases transitionSwap_cases db c with ⟨hsame, _⟩ | ⟨sid, s, t, _, hfind, hid, hq, hr, hedge, hsw, _⟩
  · rw [hsame]
  · unfold activeBetween
    rw [hsw]
    apply saveSwap_filter_length _ sid s t (hid.trans (find_id hfind)) _ _ hfind
    intro ht
    have hact := hedge.active
    simp only [between, SwapRequest.isActive, hq, hr, Bool.and_eq_true, Bool.or_eq_true,
      decide_eq_true_eq] at ht ⊢
    exact ⟨ht.1, hact ht.2⟩

/-- A creation call keeps at most one active swap between any two users. -/
theorem createSwap_activeBetween (db : Db) (caller : ObjectId) (body : CreateBody)
    (newId : ObjectId) (now : Nat) (a b : ObjectId)
    (h : (activeBetween db a b).length ≤ 1) :
    (activeBetween (createSwap db caller body newId now).1 a b).length ≤ 1 := by
  rcases createSwap_cases db caller body newId now with
    ⟨hsame, _⟩ | ⟨rid, _, _, _, _, _, _, _, _, _, _, _, hnone, heq⟩
  · rw [hsame]; exact h
  · rw [heq]
    unfold activeBetween
    simp only [List.filter_append]
    by_cases hbt : between a b (newSwap caller rid body newId now) = true
    · have hempty : db.swaps.filter (fun s => between a b s && s.isActive) = [] := by
        rw [List.filter_eq_nil_iff]
        intro s hs
        have hq := List.find?_eq_none.mp hnone s hs
        simp only [between, newSwap, Bool.or_eq_true, Bool.and_eq_true,
          decide_eq_true_eq] at hbt
        simp only [existingSwapQuery, between, SwapRequest.isActive, Bool.and_eq_true,
          Bool.or_eq_true, decide_eq_true_eq] at hq ⊢
        intro hcon
        apply hq
        refine ⟨?_, hcon.2⟩
        rcases hbt with ⟨h1, h2⟩ | ⟨h1, h2⟩
        · rw [h1, h2]; exact hcon.1
        · rw [h1, h2]; exact hcon.1.symm
      rw [hempty]
      simp [List.filter_cons]
      split <;> simp
    · have : [newSwap caller rid body newId now].filter
          (fun s => between a b s && s.isActive) = [] := by
        simp [List.filter_cons, hbt]
      rw [this]
      simpa using h

/-- C2. In every state reached from a store without swaps by creation and lifecycle
calls (and feedback submissions) executed one after the other, any two users (in either order, and also a user
with themselves) have at most one swap between them whose status is pending or
accepted. -/
theorem C2_at_most_one_active_swap_per_pair (updateRating : UpdateRating)
    (users : List User) (notifications : List Notification) (feedback : List Feedback)
    (ops : List Op) (a b : ObjectId) :
    (activeBetween (run updateRating ⟨users, [], notifications, feedback⟩ ops) a b).length
      ≤ 1 := by
  have key : ∀ (ops : List Op) (db : Db), (activeBetween db a b).length ≤ 1 →
      (activeBetween (run updateRating db ops) a b).length ≤ 1 := by
    intro ops
    induction ops with
    | nil => intro db h; exact h
    | cons o os ih =>
      intro db h
      simp only [run]
      apply ih
      cases o with
      | create caller body newId now =>
        exact createSwap_activeBetween db caller body newId now a b h
      | transition c =>
        exact le_trans (transitionSwap_activeBetween db c a b) h
      | feedback caller body newId now =>
        simp only [step, activeBetween, submitFeedback_swaps]
        exact h
  exact key ops _ (by simp [activeBetween])

/-! ## Refusals by role -/

set_option maxRecDepth 8000 in
/-- C3, as stated, fails: a caller who takes no part in the swap and sends a
cancellation with a reason of 201 characters is answered 400 `Validation failed`, not
403. -/
theorem C3_counterexample_long_reason_is_400 :
    findSwap (sampleDb .pending) (sampleId 1) = some (sampleSwap .pending)
    ∧ dan.id ≠ (sampleSwap .pending).requesterId
    ∧ dan.id ≠ (sampleSwap .pending).recipientId
    ∧ cancelSwap (sampleDb .pending) dan.id "111111111111111111111111"
        (some (String.mk (List.replicate 201 'x'))) 9
      = (sampleDb .pending, reply 400 "Validation failed") := by
  decide

/-- C3, amended. For every stored swap, whatever its status, and with the `:id` of the
request denoting it: accept and reject by anyone other than the recipient are answered
403 and change nothing; complete by anyone who is neither requester nor recipient is
answered 403 and changes nothing; so is cancel when its reason passes validation (at
most 200 characters), and a cancel whose reason does not is answered 400 and changes
nothing either. No status is consulted. -/
theorem C3_role_check_before_status_check (db : Db) (caller : ObjectId) (idParam : String)
    (reason : Option String) (now : Nat) (s : SwapRequest)
    (hcast : castObjectId idParam = some s.id) (hfind : findSwap db s.id = some s) :
    (caller ≠ s.recipientId →
      acceptSwap db caller idParam now
          = (db, reply 403 "Only the recipient can accept swap requests")
      ∧ rejectSwap db caller idParam now
          = (db, reply 403 "Only the recipient can reject swap requests"))
    ∧ (caller ≠ s.requesterId → caller ≠ s.recipientId →
      completeSwap db caller idParam now
          = (db, reply 403 "Not authorized to complete this swap")
      ∧ (cancelValid reason = true →
          cancelSwap db caller idParam reason now
            = (db, reply 403 "Not authorized to cancel this swap request"))
      ∧ (cancelValid reason = false →
          cancelSwap db caller idParam reason now = (db, reply 400 "Validation failed"))) := by
  refine ⟨?_, ?_⟩
  · intro h
    have h' : s.recipientId ≠ caller := fun e => h e.symm
    simp [acceptSwap, rejectSwap, hcast, hfind, toString_inj, h']
  · intro h1 h2
    have h1' : s.requesterId ≠ caller := fun e => h1 e.symm
    have h2' : s.recipientId ≠ caller := fun e => h2 e.symm
    refine ⟨?_, ?_, ?_⟩
    · simp [completeSwap, hcast, hfind, toString_inj, h1', h2']
    · intro hv
      simp [cancelSwap, hcast, hfind, toString_inj, h1', h2', hv]
    · intro hv
      simp [cancelSwap, hv]

/-- C3 at a concrete input: Ann, the requester, tries to accept her own request. -/
theorem C3_role_check_witness :
    acceptSwap (sampleDb .pending) ann.id "111111111111111111111111" 9
      = (sampleDb .pending, reply 403 "Only the recipient can accept swap requests") :=
  ((C3_role_check_before_status_check (sampleDb .pending) ann.id
      "111111111111111111111111" none 9 (sampleSwap .pending)
      (by decide) (by decide)).1 (by decide)).1

/-- C4, as stated, fails: a caller who takes no part in a pending swap and calls
complete is answered 403 (not authorized), not the state conflict. -/
theorem C4_counterexample_outsider_gets_403 :
    findSwap (sampleDb .pending) (sampleId 1) = some (sampleSwap .pending)
    ∧ (sampleSwap .pending).status ≠ .accepted
    ∧ completeSwap (sampleDb .pending) dan.id "111111111111111111111111" 9
      = (sampleDb .pending, reply 403 "Not authorized to complete this swap") := by
  decide

/-- C4, amended. For every stored swap whose status is not accepted, complete fails and
changes nothing, so `completedAt` stays as it was (unset, unless the swap is already
completed): a requester or recipient is answered the state conflict 400 `Only accepted
swaps can be marked as completed`, anyone else 403. -/
theorem C4_complete_needs_accepted (db : Db) (caller : ObjectId) (idParam : String)
    (now : Nat) (s : SwapRequest)
    (hcast : castObjectId idParam = some s.id) (hfind : findSwap db s.id = some s)
    (hstatus : s.status ≠ .accepted) :
    (caller = s.requesterId ∨ caller = s.recipientId →
      completeSwap db caller idParam now
        = (db, reply 400 "Only accepted swaps can be marked as completed"))
    ∧ (caller ≠ s.requesterId ∧ caller ≠ s.recipientId →
      completeSwap db caller idParam now
        = (db, reply 403 "Not authorized to complete this swap"))
    ∧ (completeSwap db caller idParam now).1 = db
    ∧ (completeSwap db caller idParam now).2.success = false
    ∧ (findSwap (completeSwap db caller idParam now).1 s.id).map (·.completedAt)
        = some s.completedAt := by
  have hA : caller = s.requesterId ∨ caller = s.recipientId →
      completeSwap db caller idParam now
        = (db, reply 400 "Only accepted swaps can be marked as completed") := by
    intro h
    have h' : ¬ (s.requesterId ≠ caller ∧ s.recipientId ≠ caller) := by
      rcases h with h | h <;> simp [h]
    simp [completeSwap, hcast, hfind, toString_inj, h', hstatus]
  have hB : caller ≠ s.requesterId ∧ caller ≠ s.recipientId →
      completeSwap db caller idParam now
        = (db, reply 403 "Not authorized to complete this swap") := by
    intro h
    have h1' : s.requesterId ≠ caller := fun e => h.1 e.symm
    have h2' : s.recipientId ≠ caller := fun e => h.2 e.symm
    simp [completeSwap, hcast, hfind, toString_inj, h1', h2']
  have hC : (completeSwap db caller idParam now).1 = db
      ∧ (completeSwap db caller idParam now).2.success = false := by
    by_cases h : caller = s.requesterId ∨ caller = s.recipientId
    · rw [hA h]; exact ⟨rfl, rfl⟩
    · rw [hB (by simpa [not_or] using h)]; exact ⟨rfl, rfl⟩
  refine ⟨hA, hB, hC.1, hC.2, ?_⟩
  rw [hC.1, hfind]
  rfl

/-- C4 at a concrete input: Bob, the recipient, calls complete on the pending swap. -/
theorem C4_complete_needs_accepted_witness :
    completeSwap (sampleDb .pending) bob.id "111111111111111111111111" 9
      = (sampleDb .pending, reply 400 "Only accepted swaps can be marked as completed") :=
  (C4_complete_needs_accepted (sampleDb .pending) bob.id "111111111111111111111111" 9
    (sampleSwap .pending) (by decide) (by decide) (by decide)).1 (Or.inr (by decide))

/-! ## The creation guard -/

theorem existingSwapQuery_eq (a b : ObjectId) (s : SwapRequest) :
    existingSwapQuery a b s = (between a b s && s.isActive) := by
  simp [existingSwapQuery, between, SwapRequest.isActive]

/-- C5, as stated, fails: Dan, whose profile is private, names himself as recipient and
is answered 403 `Cannot send request to private profile`, not the self-swap error. -/
theorem C5_counterexample_private_self_request :
    castObjectId toDan.recipientId = some dan.id
    ∧ createSwap emptyDb dan.id toDan (sampleId 1) 9
      = (emptyDb, reply 403 "Cannot send request to private profile") := by
  decide

/-- C5, amended. A creation request whose `recipientId` is the caller's own id as the
server renders it is always refused and creates no record; when the request passes
validation and the caller's own record exists, is not banned and is public, the answer
is 400 `Cannot send swap request to yourself`. -/
theorem C5_self_request_is_refused (db : Db) (caller : ObjectId) (body : CreateBody)
    (newId : ObjectId) (now : Nat) (hself : body.recipientId = caller.toString) :
    (createSwap db caller body newId now).1 = db
    ∧ (createSwap db caller body newId now).2.success = false
    ∧ (createValid body = true → ∀ u : User, findUser db caller = some u →
        u.banned = false → u.isPublic = true →
        createSwap db caller body newId now
          = (db, reply 400 "Cannot send swap request to yourself")) := by
  refine ⟨?_, ?_, ?_⟩
  · rcases createSwap_cases db caller body newId now with
      ⟨h, _⟩ | ⟨_, _, _, _, _, _, _, _, hne, _⟩
    · exact h
    · exact absurd hself hne
  · rcases createSwap_cases db caller body newId now with
      ⟨_, h⟩ | ⟨_, _, _, _, _, _, _, _, hne, _⟩
    · exact h
    · exact absurd hself hne
  · intro hv u hu hb hp
    simp [createSwap, hv, castObjectId_toString, hu, hb, hp, hself]

/-- C5 at a concrete input: Ann names her own id, in lower case, as the recipient. -/
theorem C5_self_request_is_refused_witness :
    createSwap emptyDb ann.id toAnnLower (sampleId 1) 9
      = (emptyDb, reply 400 "Cannot send swap request to yourself") :=
  (C5_self_request_is_refused emptyDb ann.id toAnnLower (sampleId 1) 9 (by decide)).2.2
    (by decide) ann (by decide) (by decide) (by decide)

/-- C6 at its failing input: Ann names her own id in upper case. The string passes
validation and denotes Ann, no check refuses it, and a swap whose requester and
recipient are both Ann is stored with answer 201. -/
theorem C6_upper_case_self_request_is_accepted :
    createValid toAnnUpper = true
    ∧ castObjectId toAnnUpper.recipientId = some ann.id
    ∧ (createSwap emptyDb ann.id toAnnUpper (sampleId 1) 9).2.status = 201
    ∧ (createSwap emptyDb ann.id toAnnUpper (sampleId 1) 9).1.swaps.map
        (fun s => (s.requesterId, s.recipientId)) = [(ann.id, ann.id)] := by
  decide

/-- The order of the six checks of `POST /api/swaps`, for a request that passes
validation from a caller whose record exists: the answer is that of the first check
that fails, the third check being the comparison of the two id strings. -/
theorem createSwap_first_failed_check (db : Db) (caller : ObjectId) (body : CreateBody)
    (newId : ObjectId) (now : Nat) (rid : ObjectId) (requester : User)
    (hvalid : createValid body = true) (hcast : castObjectId body.recipientId = some rid)
    (hreq : findUser db caller = some requester) :
    ((∀ r, findUser db rid = some r → r.banned = true) →
      createSwap db caller body newId now = (db, reply 404 "Recipient not found"))
    ∧ (∀ r, findUser db rid = some r → r.banned = false →
      (r.isPublic = false →
        createSwap db caller body newId now
          = (db, reply 403 "Cannot send request to private profile"))
      ∧ (r.isPublic = true →
        (body.recipientId = caller.toString →
          createSwap db caller body newId now
            = (db, reply 400 "Cannot send swap request to yourself"))
        ∧ (body.recipientId ≠ caller.toString →
          (body.requesterSkill ∉ requester.skillsOffered →
            createSwap db caller body newId now = (db, reply 400
              "You must have the skill you are offering in your skills offered list"))
          ∧ (body.requesterSkill ∈ requester.skillsOffered →
            (body.recipientSkill ∉ r.skillsOffered →
              createSwap db caller body newId now = (db, reply 400
                "Recipient does not have the skill you are requesting"))
            ∧ (body.recipientSkill ∈ r.skillsOffered →
              (∃ s ∈ db.swaps, existingSwapQuery caller rid s = true) →
              createSwap db caller body newId now = (db, reply 400
                "There is already an active swap request between you and this user")))))) := by
  refine ⟨?_, ?_⟩
  · intro h
    cases hr : findUser db rid with
    | none => simp [createSwap, hvalid, hcast, hr]
    | some r => simp [createSwap, hvalid, hcast, hr, h r hr]
  · intro r hr hb
    refine ⟨?_, ?_⟩
    · intro hp
      simp [createSwap, hvalid, hcast, hr, hb, hp]
    · intro hp
      refine ⟨?_, ?_⟩
      · intro hs
        have hcast' : castObjectId caller.toString = some rid := by rw [← hs]; exact hcast
        simp [createSwap, hvalid, hcast', hr, hb, hp, hs]
      · intro hs
        refine ⟨?_, ?_⟩
        · intro h4
          simp [createSwap, hvalid, hcast, hr, hb, hp, hs, hreq, h4]
        · intro h4
          refine ⟨?_, ?_⟩
          · intro h5
            simp [createSwap, hvalid, hcast, hr, hb, hp, hs, hreq, h4, h5]
          · intro h5 ⟨s, hmem, hq⟩
            cases hf : db.swaps.find? (existingSwapQuery caller rid) with
            | none =>
              have := List.find?_eq_none.mp hf s hmem
              exact absurd hq this
            | some t =>
              simp [createSwap, hvalid, hcast, hr, hb, hp, hs, hreq, h4, h5, hf]

/-- The failure messages of the six checks are pairwise different. -/
theorem createSwap_messages_distinct :
    ["Recipient not found", "Cannot send request to private profile",
     "Cannot send swap request to yourself",
     "You must have the skill you are offering in your skills offered list",
     "Recipient does not have the skill you are requesting",
     "There is already an active swap request between you and this user"].Nodup := by
  decide

/-- What the schema asks of a new document, on a body that passed the validation chain:
a message of at most 500 code units. -/
theorem newSwap_validate (caller rid : ObjectId) (body : CreateBody) (newId : ObjectId)
    (now : Nat) (hvalid : createValid body = true) :
    (newSwap caller rid body newId now).validate = true
      ↔ ∀ m, body.message = some m → utf16Length m ≤ 500 := by
  have h1 : body.requesterSkill ≠ "" ∧ body.recipientSkill ≠ "" := by
    simp only [createValid, Bool.and_eq_true, decide_eq_true_eq] at hvalid
    exact ⟨hvalid.1.1.1.2, hvalid.1.1.2⟩
  simp only [SwapRequest.validate, newSwap, Bool.and_eq_true, decide_eq_true_eq]
  cases hm : body.message with
  | none => simp [h1.1, h1.2]
  | some m => simp [h1.1, h1.2]

/-- All six checks pass: the creation call is answered 500 with nothing stored when the
schema refuses the new document, and otherwise stores it and answers 201. -/
theorem createSwap_after_checks (db : Db) (caller : ObjectId) (body : CreateBody)
    (newId : ObjectId) (now : Nat) (rid : ObjectId) (recipient requester : User)
    (hvalid : createValid body = true)
    (hcast : castObjectId body.recipientId = some rid)
    (h1 : findUser db rid = some recipient) (h1b : recipient.banned = false)
    (h2 : recipient.isPublic = true)
    (h3 : body.recipientId ≠ caller.toString)
    (hreq : findUser db caller = some requester)
    (h4 : body.requesterSkill ∈ requester.skillsOffered)
    (h5 : body.recipientSkill ∈ recipient.skillsOffered)
    (h6 : ∀ s ∈ db.swaps, ¬ (between caller rid s = true ∧ s.isActive = true)) :
    createSwap db caller body newId now
      = if (newSwap caller rid body newId now).validate = false then
          (db, reply 500 "Server error while creating swap request")
        else
          (⟨db.users, db.swaps ++ [newSwap caller rid body newId now],
            db.notifications ++ [⟨rid, "swap_request",
              requester.name ++ " sent you a swap request.", false, some newId, now⟩],
            db.feedback⟩,
           ⟨201, true, "Swap request sent successfully",
             some (newSwap caller rid body newId now)⟩) := by
  have hf : db.swaps.find? (existingSwapQuery caller rid) = none := by
    rw [List.find?_eq_none]
    intro s hs
    rw [existingSwapQuery_eq]
    simpa using h6 s hs
  have hm : requester.name ++ " sent you a swap request." ≠ "" :=
    append_ne_empty _ _ (by decide)
  by_cases hval : (newSwap caller rid body newId now).validate = false
  · simp only [createSwap, hvalid, hcast, h1, h1b, h2, h3, hreq, h4, h5, hf, hval]
    simp
  · rw [if_neg hval]
    simp only [createSwap, hvalid, hcast, h1, h1b, h2, h3, hreq, h4, h5, hf, hval,
      Notification.create, notificationTypes]
    simp [hm, newSwap]

/-- All six checks pass and the schema accepts the new document: the store and the
answer of the creation call. -/
theorem createSwap_success (db : Db) (caller : ObjectId) (body : CreateBody)
    (newId : ObjectId) (now : Nat) (rid : ObjectId) (recipient requester : User)
    (hvalid : createValid body = true)
    (hcast : castObjectId body.recipientId = some rid)
    (h1 : findUser db rid = some recipient) (h1b : recipient.banned = false)
    (h2 : recipient.isPublic = true)
    (h3 : body.recipientId ≠ caller.toString)
    (hreq : findUser db caller = some requester)
    (h4 : body.requesterSkill ∈ requester.skillsOffered)
    (h5 : body.recipientSkill ∈ recipient.skillsOffered)
    (h6 : ∀ s ∈ db.swaps, ¬ (between caller rid s = true ∧ s.isActive = true))
    (hschema : (newSwap caller rid body newId now).validate = true) :
    createSwap db caller body newId now
      = (⟨db.users, db.swaps ++ [newSwap caller rid body newId now],
          db.notifications ++ [⟨rid, "swap_request",
            requester.name ++ " sent you a swap request.", false, some newId, now⟩], db.feedback⟩,
         ⟨201, true, "Swap request sent successfully",
           some (newSwap caller rid body newId now)⟩) := by
  rw [createSwap_after_checks db caller body newId now rid recipient requester hvalid hcast
    h1 h1b h2 h3 hreq h4 h5 h6, if_neg (by simp [hschema])]

/-- When the request passes validation, all six checks pass and the message has at most
500 code units, the creation call is answered 201, appends to the swaps exactly one
document (status pending, requester the caller, recipient, skills and message as given,
`completedAt` and `cancelledBy` unset) and leaves the others as they were, leaves the
users as they were, and appends exactly one notification, addressed to the recipient,
whose message contains the requester's name. -/
theorem createSwap_persists_one_pending_swap (db : Db) (caller : ObjectId)
    (body : CreateBody) (newId : ObjectId) (now : Nat) (rid : ObjectId)
    (recipient requester : User)
    (hvalid : createValid body = true)
    (hcast : castObjectId body.recipientId = some rid)
    (h1 : findUser db rid = some recipient) (h1b : recipient.banned = false)
    (h2 : recipient.isPublic = true)
    (h3 : body.recipientId ≠ caller.toString)
    (hreq : findUser db caller = some requester)
    (h4 : body.requesterSkill ∈ requester.skillsOffered)
    (h5 : body.recipientSkill ∈ recipient.skillsOffered)
    (h6 : ∀ s ∈ db.swaps, ¬ (between caller rid s = true ∧ s.isActive = true))
    (hlen : ∀ m, body.message = some m → utf16Length m ≤ 500) :
    ∃ (n : SwapRequest) (note : Notification),
      (createSwap db caller body newId now).2
        = ⟨201, true, "Swap request sent successfully", some n⟩
      ∧ (createSwap db caller body newId now).1.swaps = db.swaps ++ [n]
      ∧ (createSwap db caller body newId now).1.users = db.users
      ∧ (createSwap db caller body newId now).1.notifications = db.notifications ++ [note]
      ∧ n.status = .pending ∧ n.requesterId = caller ∧ n.recipientId = rid
      ∧ n.requesterSkill = body.requesterSkill ∧ n.recipientSkill = body.recipientSkill
      ∧ n.message = body.message ∧ n.completedAt = none ∧ n.cancelledBy = none
      ∧ note.userId = rid ∧ note.type = "swap_request"
      ∧ ∃ pre post : String, note.message = pre ++ requester.name ++ post := by
  refine ⟨newSwap caller rid body newId now, ⟨rid, "swap_request",
    requester.name ++ " sent you a swap request.", false, some newId, now⟩, ?_⟩
  rw [createSwap_success db caller body newId now rid recipient requester hvalid hcast
    h1 h1b h2 h3 hreq h4 h5 h6
    ((newSwap_validate caller rid body newId now hvalid).mpr hlen)]
  refine ⟨rfl, rfl, rfl, rfl, rfl, rfl, rfl, rfl, rfl, rfl, rfl, rfl, rfl, rfl, ?_⟩
  exact ⟨"", " sent you a swap request.", by simp⟩

set_option maxRecDepth 100000 in
/-- C7, failing input: in the store without swaps Ann asks Bob, Guitar for Python, with
a message of 300 characters outside the basic plane. The request passes the validation
chain, which counts 300 characters, and all six checks; the schema counts 600 code
units, so the call is answered 500 and nothing is stored. -/
theorem C7_astral_message_is_answered_500 :
    createValid (annToBobWith (astral 300)) = true
    ∧ (astral 300).length = 300
    ∧ utf16Length (astral 300) = 600
    ∧ findUser emptyDb bob.id = some bob ∧ bob.banned = false ∧ bob.isPublic = true
    ∧ (annToBobWith (astral 300)).recipientId ≠ ann.id.toString
    ∧ findUser emptyDb ann.id = some ann
    ∧ (annToBobWith (astral 300)).requesterSkill ∈ ann.skillsOffered
    ∧ (annToBobWith (astral 300)).recipientSkill ∈ bob.skillsOffered
    ∧ emptyDb.swaps = []
    ∧ createSwap emptyDb ann.id (annToBobWith (astral 300)) (sampleId 1) 9
        = (emptyDb, reply 500 "Server error while creating swap request") := by
  decide

/-- C8. For a request that passes validation and checks 1 to 5, the answer is the
conflict 400 `There is already an active swap request between you and this user`, with
nothing stored, exactly when the store holds a swap between the two users, in either
direction, whose status is pending or accepted; when every stored swap is in another
status or involves another user, the request is not answered with the conflict, and it
is answered 201 once the schema accepts the new document. -/
theorem C8_conflict_iff_active_swap_between_pair (db : Db) (caller : ObjectId)
    (body : CreateBody) (newId : ObjectId) (now : Nat) (rid : ObjectId)
    (recipient requester : User)
    (hvalid : createValid body = true)
    (hcast : castObjectId body.recipientId = some rid)
    (h1 : findUser db rid = some recipient) (h1b : recipient.banned = false)
    (h2 : recipient.isPublic = true)
    (h3 : body.recipientId ≠ caller.toString)
    (hreq : findUser db caller = some requester)
    (h4 : body.requesterSkill ∈ requester.skillsOffered)
    (h5 : body.recipientSkill ∈ recipient.skillsOffered) :
    (createSwap db caller body newId now
        = (db, reply 400 "There is already an active swap request between you and this user")
      ↔ ∃ s ∈ db.swaps,
          ((s.requesterId = caller ∧ s.recipientId = rid)
            ∨ (s.requesterId = rid ∧ s.recipientId = caller))
          ∧ (s.status = .pending ∨ s.status = .accepted))
    ∧ ((∀ s ∈ db.swaps,
          (s.status = .rejected ∨ s.status = .cancelled ∨ s.status = .completed)
          ∨ ¬ ((s.requesterId = caller ∧ s.recipientId = rid)
                ∨ (s.requesterId = rid ∧ s.recipientId = caller))) →
        createSwap db caller body newId now
          ≠ (db, reply 400 "There is already an active swap request between you and this user")
        ∧ ((newSwap caller rid body newId now).validate = true →
            (createSwap db caller body newId now).2.status = 201)) := by
  have hquery : ∀ s : SwapRequest, existingSwapQuery caller rid s = true ↔
      ((s.requesterId = caller ∧ s.recipientId = rid)
        ∨ (s.requesterId = rid ∧ s.recipientId = caller))
      ∧ (s.status = .pending ∨ s.status = .accepted) := by
    intro s
    simp [existingSwapQuery]
  refine ⟨⟨?_, ?_⟩, ?_⟩
  · intro h
    by_contra hcon
    have h6 : ∀ s ∈ db.swaps, ¬ (between caller rid s = true ∧ s.isActive = true) := by
      intro s hs hact
      apply hcon
      refine ⟨s, hs, (hquery s).mp ?_⟩
      rw [existingSwapQuery_eq]
      simpa using hact
    rw [createSwap_after_checks db caller body newId now rid recipient requester hvalid
      hcast h1 h1b h2 h3 hreq h4 h5 h6] at h
    have := congrArg (fun p => p.2.status) h
    split at this <;> simp [reply] at this
  · intro ⟨s, hs, hq⟩
    exact (((createSwap_first_failed_check db caller body newId now rid requester hvalid
      hcast hreq).2 recipient h1 h1b).2 h2).2 h3 |>.2 h4 |>.2 h5
      ⟨s, hs, (hquery s).mpr hq⟩
  · intro hall
    have h6 : ∀ s ∈ db.swaps, ¬ (between caller rid s = true ∧ s.isActive = true) := by
      intro s hs hact
      have hq : existingSwapQuery caller rid s = true := by
        rw [existingSwapQuery_eq]
        simpa using hact
      have hq2 := (hquery s).mp hq
      rcases hall s hs with hterm | hnot
      · rcases hterm with h | h | h <;> rcases hq2.2 with h' | h' <;> rw [h] at h' <;> cases h'
      · exact hnot hq2.1
    rw [createSwap_after_checks db caller body newId now rid recipient requester hvalid
      hcast h1 h1b h2 h3 hreq h4 h5 h6]
    refine ⟨?_, ?_⟩
    · intro h
      have := congrArg (fun p => p.2.status) h
      split at this <;> simp [reply] at this
    · intro hschema
      rw [if_neg (by simp [hschema])]

/-- C8 at a concrete input: Bob asks Ann while her request to him is still pending. -/
theorem C8_conflict_witness :
    createSwap (sampleDb .pending) bob.id ⟨"aaaaaaaaaaaaaaaaaaaaaaaa", "Python", "Guitar",
        none, none⟩ (sampleId 2) 9
      = (sampleDb .pending,
          reply 400 "There is already an active swap request between you and this user") :=
  (C8_conflict_iff_active_swap_between_pair (sampleDb .pending) bob.id
    ⟨"aaaaaaaaaaaaaaaaaaaaaaaa", "Python", "Guitar", none, none⟩ (sampleId 2) 9 ann.id
    ann bob (by decide) (by decide) (by decide) (by decide) (by decide) (by decide)
    (by decide) (by decide) (by decide)).1.mpr
    ⟨sampleSwap .pending, by decide, by decide, by decide⟩

/-- C9. A creation request whose `requesterSkill` is not in the offered-skills list of
the caller's record, or whose `recipientSkill` is not in the list of the record its
`recipientId` denotes (a missing record has no list), fails and stores nothing; hence
every swap a creation call adds to the store has its requester skill in the requester's
list and its recipient skill in the recipient's list, as the store holds them at that
call. -/
theorem C9_skills_are_possessed_at_creation (db : Db) (caller : ObjectId)
    (body : CreateBody) (newId : ObjectId) (now : Nat) :
    (((∀ q, findUser db caller = some q → body.requesterSkill ∉ q.skillsOffered)
        ∨ (∀ rid r, castObjectId body.recipientId = some rid → findUser db rid = some r →
            body.recipientSkill ∉ r.skillsOffered)) →
      (createSwap db caller body newId now).1 = db
      ∧ (createSwap db caller body newId now).2.success = false)
    ∧ (∀ n, n ∈ (createSwap db caller body newId now).1.swaps → n ∉ db.swaps →
        ∃ q r, findUser db n.requesterId = some q ∧ findUser db n.recipientId = some r
          ∧ n.requesterSkill ∈ q.skillsOffered ∧ n.recipientSkill ∈ r.skillsOffered) := by
  rcases createSwap_cases db caller body newId now with
    ⟨hsame, hfail⟩ | ⟨rid, recipient, requester, _, hcast, hr, _, _, _, hq, h4, h5, _, heq⟩
  · refine ⟨fun _ => ⟨hsame, hfail⟩, ?_⟩
    intro n hn hnot
    rw [hsame] at hn
    exact absurd hn hnot
  · refine ⟨?_, ?_⟩
    · intro h
      rcases h with h | h
      · exact absurd h4 (h requester hq)
      · exact absurd h5 (h rid recipient hcast hr)
    · intro n hn hnot
      rw [heq] at hn
      simp only [List.mem_append, List.mem_singleton] at hn
      rcases hn with hn | hn
      · exact absurd hn hnot
      · subst hn
        exact ⟨requester, recipient, hq, hr, h4, h5⟩

/-! ## Accept and reject -/

/-- C10 at its failing input: Ann has deleted her account and Bob accepts her pending
request. The swap is saved as accepted, the notification for the requester is refused by
the schema (`userId` is null after populate), and Bob is answered 500: the status has
changed, no notification exists, and the call reports a failure. -/
theorem C10_accept_after_requester_deleted :
    findSwap annDeletedDb (sampleId 1) = some (sampleSwap .pending)
    ∧ (sampleSwap .pending).recipientId = bob.id
    ∧ acceptSwap annDeletedDb bob.id "111111111111111111111111" 9
      = (⟨[bob, dan], [(sampleSwap .pending).accept 9], [], []⟩,
          reply 500 "Server error while accepting swap request")
    ∧ rejectSwap annDeletedDb bob.id "111111111111111111111111" 9
      = (⟨[bob, dan], [(sampleSwap .pending).reject 9], [], []⟩,
          reply 500 "Server error while rejecting swap request") := by
  decide

/-- When the accept handler answers success: the `:id` denotes a stored swap, the caller
is its recipient, its status is pending, the schema accepts the document, and the
records of both participants exist. -/
theorem acceptSwap_success_iff (db : Db) (caller : ObjectId) (idParam : String)
    (now : Nat) :
    (acceptSwap db caller idParam now).2.success = true
    ↔ ∃ sid s, castObjectId idParam = some sid ∧ findSwap db sid = some s
        ∧ caller = s.recipientId ∧ s.status = .pending
        ∧ (findUser db s.recipientId).isSome = true
        ∧ (findUser db s.requesterId).isSome = true
        ∧ (s.accept now).validate = true := by
  unfold acceptSwap
  cases hc : castObjectId idParam with
  | none => simp [reply]
  | some sid =>
    dsimp only
    cases hf : findSwap db sid with
    | none => simp [reply, hf]
    | some s =>
      dsimp only
      by_cases h1 : s.recipientId = caller
      · by_cases h2 : s.status = .pending
        · by_cases hval : (s.accept now).validate = false
          · simp [toString_inj, h1, h2, hval, reply, hf]
          have hval2 : (s.accept now).validate = true := by simpa using hval
          simp only [toString_inj, h1, h2, hval, ne_eq, not_true_eq_false, if_false]
          have hu : ∀ (l : List SwapRequest) (u : ObjectId),
              findUser ⟨db.users, l, db.notifications, db.feedback⟩ u = findUser db u := fun _ _ => rfl
          simp only [hu, SwapRequest.accept] at hval2 ⊢
          cases hr : findUser db caller with
          | none => simp [reply, hr, h1, hf]
          | some r =>
            cases hq : findUser db s.requesterId with
            | none => simp [reply, Notification.create, hr, h1, hf, hq]
            | some q =>
              have hm : r.name ++ " accepted your swap request!" ≠ "" :=
                append_ne_empty _ _ (by decide)
              simp [Notification.create, notificationTypes, hm, hr, h1, h2, hf, hq]
              exact hval2
        · simp [toString_inj, h1, h2, reply, hf]
      · have h1' : ¬ caller = s.recipientId := fun e => h1 e.symm
        simp [toString_inj, h1, h1', reply, hf]

/-- A successful accept: the addressed swap is saved as accepted and exactly one
notification, of type `swap_accepted`, is added for its requester. -/
theorem acceptSwap_success_effect (db : Db) (caller : ObjectId) (idParam : String)
    (now : Nat) (h : (acceptSwap db caller idParam now).2.success = true) :
    ∃ sid s message, castObjectId idParam = some sid ∧ findSwap db sid = some s
      ∧ (acceptSwap db caller idParam now).1.swaps = saveSwap db.swaps (s.accept now)
      ∧ (s.accept now).status = .accepted
      ∧ (acceptSwap db caller idParam now).1.notifications
          = db.notifications
              ++ [⟨s.requesterId, "swap_accepted", message, false, some s.id, now⟩] := by
  obtain ⟨sid, s, hc, hf, h1, h2, hr, hq, hval⟩ :=
    (acceptSwap_success_iff db caller idParam now).mp h
  have hval2 : ¬ (s.accept now).validate = false := by simp [hval]
  obtain ⟨r, hr⟩ := Option.isSome_iff_exists.mp hr
  obtain ⟨q, hq⟩ := Option.isSome_iff_exists.mp hq
  have hqid : q.id = s.requesterId := by
    have := List.find?_some hq
    simpa using this
  have hu : ∀ (l : List SwapRequest) (u : ObjectId),
      findUser ⟨db.users, l, db.notifications, db.feedback⟩ u = findUser db u := fun _ _ => rfl
  have hm : r.name ++ " accepted your swap request!" ≠ "" :=
    append_ne_empty _ _ (by decide)
  refine ⟨sid, s, r.name ++ " accepted your swap request!", hc, hf, ?_, rfl, ?_⟩
  · simp only [acceptSwap, hc, hf, h1, h2, hval2, if_false]
    simp [hu, SwapRequest.accept, hr, hq, Notification.create, notificationTypes, hm]
  · simp only [acceptSwap, hc, hf, h1, h2, hval2, if_false]
    simp [hu, SwapRequest.accept, hr, hq, Notification.create, notificationTypes, hm, hqid]

/-! ## The scenario of the specification -/

/-- Ann asks Bob, Guitar for Python; Bob accepts; Ann completes: the three answers are
201, 200 and 200, the swap ends completed with `completedAt` set, and Bob, then Ann,
have been notified. -/
theorem scenario_request_accept_complete :
    (createSwap emptyDb ann.id annToBob (sampleId 1) 1).2.status = 201
    ∧ (acceptSwap (createSwap emptyDb ann.id annToBob (sampleId 1) 1).1 bob.id
        "111111111111111111111111" 2).2.status = 200
    ∧ (completeSwap (acceptSwap (createSwap emptyDb ann.id annToBob (sampleId 1) 1).1
        bob.id "111111111111111111111111" 2).1 ann.id "111111111111111111111111" 3).2.status
        = 200
    ∧ (completeSwap (acceptSwap (createSwap emptyDb ann.id annToBob (sampleId 1) 1).1
        bob.id "111111111111111111111111" 2).1 ann.id "111111111111111111111111" 3).1.swaps.map
          (fun s => (s.status, s.completedAt)) = [(Status.completed, some 3)]
    ∧ (completeSwap (acceptSwap (createSwap emptyDb ann.id annToBob (sampleId 1) 1).1
        bob.id "111111111111111111111111" 2).1 ann.id
        "111111111111111111111111" 3).1.notifications.map (fun n => (n.userId, n.type))
          = [(bob.id, "swap_request"), (ann.id, "swap_accepted")] := by
  decide

/-! ## Cancel -/

theorem find_saveSwap (l : List SwapRequest) (sid : ObjectId) (s t : SwapRequest)
    (hfind : l.find? (fun x => decide (x.id = sid)) = some s) (hid : t.id = sid) :
    (saveSwap l t).find? (fun x => decide (x.id = sid)) = some t := by
  induction l with
  | nil => simp at hfind
  | cons x xs ih =>
    by_cases hx : x.id = sid
    · have hx2 : x.id = t.id := by rw [hid]; exact hx
      simp [saveSwap, hx2, List.find?, hid]
    · have hrest : xs.find? (fun x => decide (x.id = sid)) = some s := by
        simpa [List.find?, hx] using hfind
      have hx2 : ¬ x.id = t.id := by rw [hid]; exact hx
      simp [saveSwap, hx2, List.find?, hx, ih hrest]

theorem mem_saveSwap {l : List SwapRequest} {t x : SwapRequest} (h : x ∈ saveSwap l t) :
    x ∈ l ∨ x = t := by
  induction l with
  | nil => simp [saveSwap] at h
  | cons y ys ih =>
    by_cases hy : y.id = t.id
    · simp only [saveSwap, hy, if_true, List.mem_cons] at h
      rcases h with h | h
      · exact Or.inr h
      · exact Or.inl (List.mem_cons_of_mem _ h)
    · simp only [saveSwap, hy, if_false, List.mem_cons] at h
      rcases h with h | h
      · exact Or.inl (by rw [h]; exact List.mem_cons_self _ _)
      · rcases ih h with h' | h'
        · exact Or.inl (List.mem_cons_of_mem _ h')
        · exact Or.inr h'

/-- When the cancel handler answers success, and what it has then done. -/
theorem cancelSwap_success_iff (db : Db) (caller : ObjectId) (idParam : String)
    (reason : Option String) (now : Nat) :
    (cancelSwap db caller idParam reason now).2.success = true
    ↔ cancelValid reason = true
      ∧ ∃ sid s, castObjectId idParam = some sid ∧ findSwap db sid = some s
        ∧ (caller = s.requesterId ∨ caller = s.recipientId)
        ∧ (s.status = .pending ∨ s.status = .accepted)
        ∧ (s.cancel caller reason now).validate = true := by
  unfold cancelSwap
  by_cases hv : cancelValid reason = false
  · simp [hv, reply]
  · have hv' : cancelValid reason = true := Bool.of_not_eq_false hv
    simp only [hv, if_false]
    cases hc : castObjectId idParam with
    | none => simp [reply]
    | some sid =>
      dsimp only
      cases hf : findSwap db sid with
      | none => simp [reply, hf]
      | some s =>
        dsimp only
        by_cases h1 : s.requesterId.toString ≠ caller.toString
            ∧ s.recipientId.toString ≠ caller.toString
        · have h1' : ¬ (caller = s.requesterId ∨ caller = s.recipientId) := by
            rintro (e | e)
            · exact h1.1 (by rw [e])
            · exact h1.2 (by rw [e])
          simp [h1, reply, hf, h1']
        · have h1' : caller = s.requesterId ∨ caller = s.recipientId := by
            by_contra hcon
            rw [not_or] at hcon
            exact h1 ⟨fun e => hcon.1 (toString_inj.mp e).symm,
              fun e => hcon.2 (toString_inj.mp e).symm⟩
          by_cases h2 : s.status ∉ [Status.pending, Status.accepted]
          · have h2' : ¬ (s.status = .pending ∨ s.status = .accepted) := by
              simpa using h2
            simp only [h1, h2, if_true, if_false]
            simp [reply, hf, h2']
          · have h2' : s.status = .pending ∨ s.status = .accepted := by
              cases hst : s.status <;> simp [hst] at h2 ⊢
            by_cases hval : (s.cancel caller reason now).validate = false
            · simp only [h1, h2, hval, if_true, if_false]
              simp [reply, hf, hval]
            · have hval2 : (s.cancel caller reason now).validate = true := by
                simpa using hval
              simp only [h1, h2, hval, if_false]
              simp [hf, h1', h2', hv', hval2]

/-- What the schema asks of a cancelled document whose stored fields it accepts: a reason
of at most 200 code units. -/
theorem cancel_validate (s : SwapRequest) (caller : ObjectId) (reason : Option String)
    (now : Nat) (hs : s.validate = true) :
    (s.cancel caller reason now).validate = true ↔ utf16Length (reason.getD "") ≤ 200 := by
  simp only [SwapRequest.validate, Bool.and_eq_true, decide_eq_true_eq] at hs
  simp only [SwapRequest.validate, SwapRequest.cancel, Bool.and_eq_true, decide_eq_true_eq]
  constructor
  · intro h; exact h.2
  · intro h; exact ⟨hs.1, h⟩

/-- A successful cancel: the stored swap has status cancelled, `cancelledBy` the caller
and `cancellationReason` the given reason (the empty string when none was given), the
answer carries that document, and no notification is added. -/
theorem cancelSwap_success_effect (db : Db) (caller : ObjectId) (idParam : String)
    (reason : Option String) (now : Nat)
    (h : (cancelSwap db caller idParam reason now).2.success = true) :
    ∃ sid s t, castObjectId idParam = some sid ∧ findSwap db sid = some s
      ∧ t = s.cancel caller reason now
      ∧ (cancelSwap db caller idParam reason now).1.swaps = saveSwap db.swaps t
      ∧ findSwap (cancelSwap db caller idParam reason now).1 sid = some t
      ∧ (cancelSwap db caller idParam reason now).2.swapRequest = some t
      ∧ t.status = .cancelled ∧ t.cancelledBy = some caller
      ∧ t.cancellationReason = some (reason.getD "")
      ∧ (cancelSwap db caller idParam reason now).1.notifications = db.notifications
      ∧ (cancelSwap db caller idParam reason now).1.users = db.users
      ∧ (cancelSwap db caller idParam reason now).1.feedback = db.feedback := by
  obtain ⟨hv, sid, s, hc, hf, h1, h2, hval⟩ :=
    (cancelSwap_success_iff db caller idParam reason now).mp h
  have h1' : ¬ (s.requesterId.toString ≠ caller.toString
      ∧ s.recipientId.toString ≠ caller.toString) := by
    rintro ⟨a, b⟩
    rcases h1 with e | e
    · exact a (by rw [e])
    · exact b (by rw [e])
  have h2' : ¬ s.status ∉ [Status.pending, Status.accepted] := by
    rcases h2 with e | e <;> simp [e]
  have hres : cancelSwap db caller idParam reason now
      = ({ db with swaps := saveSwap db.swaps (s.cancel caller reason now) },
         ⟨200, true, "Swap request cancelled successfully",
           some (s.cancel caller reason now)⟩) := by
    unfold cancelSwap
    simp only [hv, hc, hf, h1', h2', hval, if_false, Bool.true_eq_false]
  refine ⟨sid, s, s.cancel caller reason now, hc, hf, rfl, ?_, ?_, ?_, rfl, rfl, rfl,
    ?_, ?_, ?_⟩
  · rw [hres]
  · rw [hres]
    have hid : s.id = sid := find_id hf
    exact find_saveSwap db.swaps sid s _ hf hid
  · rw [hres]
  · rw [hres]
  · rw [hres]
  · rw [hres]

set_option maxRecDepth 100000 in
/-- C11, failing input: Ann cancels her pending request to Bob with a reason of 150
characters outside the basic plane. The swap exists, the caller is its requester, its
status is pending and the reason passes the validation chain, which counts 150
characters; the schema counts 300 code units when the document is saved, so the call is
answered 500 and the swap stays pending. -/
theorem C11_astral_reason_is_answered_500 :
    cancelValid (some (astral 150)) = true
    ∧ (astral 150).length = 150
    ∧ utf16Length (astral 150) = 300
    ∧ findSwap (sampleDb .pending) (sampleId 1) = some (sampleSwap .pending)
    ∧ (sampleSwap .pending).requesterId = ann.id
    ∧ cancelSwap (sampleDb .pending) ann.id "111111111111111111111111" (some (astral 150)) 9
        = (sampleDb .pending, reply 500 "Server error while cancelling swap request") := by
  decide

/-! ## The terminal fields and the frame of a lifecycle call -/

/-- What one lifecycle call saves: nothing, or the found document after the model method
of its action, whose guard held. -/
theorem transitionSwap_saved (db : Db) (c : TransitionCall) :
    (transitionSwap db c).1 = db
    ∨ ∃ sid s t, castObjectId c.idParam = some sid ∧ findSwap db sid = some s
        ∧ (transitionSwap db c).1.swaps = saveSwap db.swaps t
        ∧ ((c.action = .accept ∧ s.status = .pending ∧ t = s.accept c.now)
          ∨ (c.action = .reject ∧ s.status = .pending ∧ t = s.reject c.now)
          ∨ (∃ r, c.action = .cancel r ∧ (s.status = .pending ∨ s.status = .accepted)
                ∧ (c.caller = s.requesterId ∨ c.caller = s.recipientId)
                ∧ t = s.cancel c.caller r c.now)
          ∨ (c.action = .complete ∧ s.status = .accepted ∧ t = s.complete c.now)) := by
  obtain ⟨caller, idParam, action, now⟩ := c
  cases action with
  | accept =>
    simp only [transitionSwap, acceptSwap]
    cases hsid : castObjectId idParam with
    | none => left; rfl
    | some sid =>
      dsimp only
      cases hs : findSwap db sid with
      | none => left; rfl
      | some s =>
        dsimp only
        by_cases h1 : s.recipientId.toString ≠ caller.toString
        · left; simp [h1]
        · by_cases h2 : s.status ≠ .pending
          · left; simp [h1, h2]
          · by_cases hval : (s.accept now).validate = false
            · left; simp [h1, h2, hval]
            right
            have h2p : s.status = .pending := by simpa using h2
            refine ⟨sid, s, s.accept now, rfl, hs, ?_, Or.inl ⟨trivial, h2p, rfl⟩⟩
            simp only [h1, h2, hval, if_false]
            cases hu : findUser _ (s.accept now).recipientId with
            | none => rfl
            | some r =>
              dsimp only
              cases hn : Notification.create _ _ _ _ _ _ with
              | none => rfl
              | some db2 =>
                obtain ⟨_, _, _, hs2, _⟩ := Notification.create_some hn
                exact hs2
  | reject =>
    simp only [transitionSwap, rejectSwap]
    cases hsid : castObjectId idParam with
    | none => left; rfl
    | some sid =>
      dsimp only
      cases hs : findSwap db sid with
      | none => left; rfl
      | some s =>
        dsimp only
        by_cases h1 : s.recipientId.toString ≠ caller.toString
        · left; simp [h1]
        · by_cases h2 : s.status ≠ .pending
          · left; simp [h1, h2]
          · by_cases hval : (s.reject now).validate = false
            · left; simp [h1, h2, hval]
            right
            have h2p : s.status = .pending := by simpa using h2
            refine ⟨sid, s, s.reject now, rfl, hs, ?_, Or.inr (Or.inl ⟨trivial, h2p, rfl⟩)⟩
            simp only [h1, h2, hval, if_false]
            cases hu : findUser _ (s.reject now).recipientId with
            | none => rfl
            | some r =>
              dsimp only
              cases hn : Notification.create _ _ _ _ _ _ with
              | none => rfl
              | some db2 =>
                obtain ⟨_, _, _, hs2, _⟩ := Notification.create_some hn
                exact hs2
  | cancel reason =>
    simp only [transitionSwap, cancelSwap]
    by_cases hv : cancelValid reason = false
    · left; simp [hv]
    · simp only [hv, if_false]
      cases hsid : castObjectId idParam with
      | none => left; rfl
      | some sid =>
        dsimp only
        cases hs : findSwap db sid with
        | none => left; rfl
        | some s =>
          dsimp only
          by_cases h1 : s.requesterId.toString ≠ caller.toString
              ∧ s.recipientId.toString ≠ caller.toString
          · left; simp [h1]
          · by_cases h2 : s.status ∉ [Status.pending, Status.accepted]
            · left; simp [h1, h2]
            · by_cases hval : (s.cancel caller reason now).validate = false
              · left
                have h2n : ¬ (¬ s.status = .pending ∧ ¬ s.status = .accepted) := by
                  simpa using h2
                simp [h1, h2n, hval]
              right
              have h1p : caller = s.requesterId ∨ caller = s.recipientId := by
                by_contra hcon
                rw [not_or] at hcon
                exact h1 ⟨fun e => hcon.1 (toString_inj.mp e).symm,
                  fun e => hcon.2 (toString_inj.mp e).symm⟩
              have h2p : s.status = .pending ∨ s.status = .accepted := by
                cases hst : s.status <;> simp [hst] at h2 ⊢
              refine ⟨sid, s, s.cancel caller reason now, rfl, hs, ?_,
                Or.inr (Or.inr (Or.inl ⟨reason, rfl, h2p, h1p, rfl⟩))⟩
              have h2n : ¬ (¬ s.status = .pending ∧ ¬ s.status = .accepted) := by
                rcases h2p with e | e <;> simp [e]
              simp [h1, h2n, hval]
  | complete =>
    simp only [transitionSwap, completeSwap]
    cases hsid : castObjectId idParam with
    | none => left; rfl
    | some sid =>
      dsimp only
      cases hs : findSwap db sid with
      | none => left; rfl
      | some s =>
        dsimp only
        by_cases h1 : s.requesterId.toString ≠ caller.toString
            ∧ s.recipientId.toString ≠ caller.toString
        · left; simp [h1]
        · by_cases h2 : s.status ≠ .accepted
          · left; simp [h1, h2]
          · by_cases hval : (s.complete now).validate = false
            · left; simp [h1, h2, hval]
            right
            have h2p : s.status = .accepted := by simpa using h2
            refine ⟨sid, s, s.complete now, rfl, hs, ?_, Or.inr (Or.inr (Or.inr ⟨trivial, h2p, rfl⟩))⟩
            simp [h1, h2, hval]

theorem newSwap_terminalFields (caller rid : ObjectId) (body : CreateBody)
    (newId : ObjectId) (now : Nat) : (newSwap caller rid body newId now).TerminalFields := by
  simp [SwapRequest.TerminalFields, newSwap]

/-- The document a lifecycle call saves keeps the terminal fields in agreement with the
status, and writes them only from unset. -/
theorem saved_terminalFields (c : TransitionCall) (s t : SwapRequest)
    (hinv : s.TerminalFields)
    (h : (c.action = .accept ∧ s.status = .pending ∧ t = s.accept c.now)
      ∨ (c.action = .reject ∧ s.status = .pending ∧ t = s.reject c.now)
      ∨ (∃ r, c.action = .cancel r ∧ (s.status = .pending ∨ s.status = .accepted)
            ∧ (c.caller = s.requesterId ∨ c.caller = s.recipientId)
            ∧ t = s.cancel c.caller r c.now)
      ∨ (c.action = .complete ∧ s.status = .accepted ∧ t = s.complete c.now)) :
    t.TerminalFields
    ∧ (t.completedAt ≠ s.completedAt →
        s.completedAt = none ∧ s.status = .accepted ∧ t.status = .completed
        ∧ c.action = .complete)
    ∧ (t.cancelledBy ≠ s.cancelledBy ∨ t.cancellationReason ≠ s.cancellationReason →
        s.cancelledBy = none ∧ s.cancellationReason = none ∧ t.status = .cancelled
        ∧ ∃ r, c.action = .cancel r) := by
  obtain ⟨i1, i2, i3, i4⟩ := hinv
  have none_of : ∀ {α : Type} (o : Option α), ¬ (o.isSome = true) → o = none := by
    intro α o ho
    cases o with
    | none => rfl
    | some _ => exact absurd rfl ho
  rcases h with ⟨_, hs, ht⟩ | ⟨_, hs, ht⟩ | ⟨r, hr, hs, hp, ht⟩ | ⟨hc, hs, ht⟩
  · have e1 := none_of s.completedAt (by rw [i1, hs]; simp)
    have e2 := none_of s.cancelledBy (by rw [i2, hs]; simp)
    have e3 := none_of s.cancellationReason (by rw [i3, hs]; simp)
    subst ht
    simp [SwapRequest.TerminalFields, SwapRequest.accept, e1, e2, e3]
  · have e1 := none_of s.completedAt (by rw [i1, hs]; simp)
    have e2 := none_of s.cancelledBy (by rw [i2, hs]; simp)
    have e3 := none_of s.cancellationReason (by rw [i3, hs]; simp)
    subst ht
    simp [SwapRequest.TerminalFields, SwapRequest.reject, e1, e2, e3]
  · have e1 := none_of s.completedAt (by rw [i1]; rcases hs with e | e <;> simp [e])
    have e2 := none_of s.cancelledBy (by rw [i2]; rcases hs with e | e <;> simp [e])
    have e3 := none_of s.cancellationReason (by rw [i3]; rcases hs with e | e <;> simp [e])
    subst ht
    refine ⟨?_, ?_, ?_⟩
    · simp [SwapRequest.TerminalFields, SwapRequest.cancel, e1, hp]
    · simp [SwapRequest.cancel]
    · intro _
      exact ⟨e2, e3, rfl, r, hr⟩
  · have e1 := none_of s.completedAt (by rw [i1, hs]; simp)
    have e2 := none_of s.cancelledBy (by rw [i2, hs]; simp)
    have e3 := none_of s.cancellationReason (by rw [i3, hs]; simp)
    subst ht
    refine ⟨?_, ?_, ?_⟩
    · simp [SwapRequest.TerminalFields, SwapRequest.complete, e2, e3]
    · intro _
      exact ⟨e1, hs, rfl, hc⟩
    · simp [SwapRequest.complete]

theorem findSwap_mem {db : Db} {sid : ObjectId} {s : SwapRequest}
    (h : findSwap db sid = some s) : s ∈ db.swaps :=
  List.mem_of_find?_eq_some h

/-- One call keeps the terminal fields of every stored swap in agreement with its
status. -/
theorem step_terminalFields (updateRating : UpdateRating) (d : Db) (op : Op)
    (hinv : ∀ s ∈ d.swaps, s.TerminalFields) :
    ∀ s ∈ (step updateRating d op).swaps, s.TerminalFields := by
  cases op with
  | create caller body newId now =>
    simp only [step]
    rcases createSwap_cases d caller body newId now with
      ⟨hsame, _⟩ | ⟨rid, _, _, _, _, _, _, _, _, _, _, _, _, heq⟩
    · rw [hsame]; exact hinv
    · rw [heq]
      intro s hs
      simp only [List.mem_append, List.mem_singleton] at hs
      rcases hs with hs | hs
      · exact hinv s hs
      · rw [hs]; exact newSwap_terminalFields _ _ _ _ _
  | transition c =>
    simp only [step]
    rcases transitionSwap_saved d c with hsame | ⟨sid, s, t, _, hfind, hsw, hcase⟩
    · rw [hsame]; exact hinv
    · rw [hsw]
      intro x hx
      rcases mem_saveSwap hx with hx | hx
      · exact hinv x hx
      · rw [hx]
        exact (saved_terminalFields c s t (hinv s (findSwap_mem hfind)) hcase).1
  | feedback caller body newId now =>
    simp only [step, submitFeedback_swaps]
    exact hinv

theorem run_terminalFields (updateRating : UpdateRating) (ops : List Op) :
    ∀ d : Db, (∀ s ∈ d.swaps, s.TerminalFields) →
      ∀ s ∈ (run updateRating d ops).swaps, s.TerminalFields := by
  induction ops with
  | nil => intro d h; exact h
  | cons o os ih =>
    intro d h
    simp only [run]
    exact ih _ (step_terminalFields updateRating d o h)

/-- One call changes a terminal field of a stored swap only from unset, through the
transition that owns the field. -/
theorem step_writes_once (updateRating : UpdateRating) (d : Db) (op : Op)
    (hinv : ∀ s ∈ d.swaps, s.TerminalFields) (i : Nat) (s t : SwapRequest)
    (hs : d.swaps[i]? = some s) (ht : (step updateRating d op).swaps[i]? = some t) :
    (t.completedAt ≠ s.completedAt →
        s.completedAt = none ∧ s.status = .accepted ∧ t.status = .completed
        ∧ ∃ c, op = .transition c ∧ c.action = .complete)
    ∧ (t.cancelledBy ≠ s.cancelledBy ∨ t.cancellationReason ≠ s.cancellationReason →
        s.cancelledBy = none ∧ s.cancellationReason = none ∧ t.status = .cancelled
        ∧ ∃ c r, op = .transition c ∧ c.action = .cancel r) := by
  have same : t = s →
      (t.completedAt ≠ s.completedAt →
        s.completedAt = none ∧ s.status = .accepted ∧ t.status = .completed
        ∧ ∃ c, op = .transition c ∧ c.action = .complete)
      ∧ (t.cancelledBy ≠ s.cancelledBy ∨ t.cancellationReason ≠ s.cancellationReason →
        s.cancelledBy = none ∧ s.cancellationReason = none ∧ t.status = .cancelled
        ∧ ∃ c r, op = .transition c ∧ c.action = .cancel r) := by
    intro e
    subst e
    exact ⟨fun h => absurd rfl h, fun h => by rcases h with h | h <;> exact absurd rfl h⟩
  have hi : i < d.swaps.length := by
    by_contra hcon
    rw [List.getElem?_eq_none (Nat.le_of_not_lt hcon)] at hs
    exact absurd hs (by simp)
  cases op with
  | create caller body newId now =>
    simp only [step] at ht
    rcases createSwap_cases d caller body newId now with
      ⟨hsame, _⟩ | ⟨rid, _, _, _, _, _, _, _, _, _, _, _, _, heq⟩
    · rw [hsame, hs] at ht
      cases ht
      exact same rfl
    · rw [heq] at ht
      simp only at ht
      rw [List.getElem?_append_left hi, hs] at ht
      cases ht
      exact same rfl
  | transition c =>
    simp only [step] at ht
    rcases transitionSwap_saved d c with hsame | ⟨sid, s0, t0, _, hfind, hsw, hcase⟩
    · rw [hsame, hs] at ht
      cases ht
      exact same rfl
    · have hid : s0.id = sid := find_id hfind
      have ht0 : t0.id = sid := by
        rcases hcase with ⟨_, _, e⟩ | ⟨_, _, e⟩ | ⟨_, _, _, _, e⟩ | ⟨_, _, e⟩ <;>
          rw [e] <;> exact hid
      obtain ⟨j, hj1, hj2, hrest⟩ := saveSwap_spec d.swaps sid s0 t0 hfind ht0
      rw [hsw] at ht
      by_cases hij : i = j
      · subst hij
        rw [hj1] at hs
        rw [hj2] at ht
        cases hs
        cases ht
        obtain ⟨_, h2, h3⟩ :=
          saved_terminalFields c s t (hinv s (findSwap_mem hfind)) hcase
        refine ⟨?_, ?_⟩
        · intro h
          obtain ⟨a, b, e, f⟩ := h2 h
          exact ⟨a, b, e, c, rfl, f⟩
        · intro h
          obtain ⟨a, b, e, r, f⟩ := h3 h
          exact ⟨a, b, e, c, r, rfl, f⟩
      · rw [hrest i hij, hs] at ht
        cases ht
        exact same rfl
  | feedback caller body newId now =>
    simp only [step, submitFeedback_swaps] at ht
    rw [hs] at ht
    cases ht
    exact same rfl

/-- C12. In every state reached from a store without swaps by creation, lifecycle and
feedback calls, each swap has `completedAt` set exactly when its status is completed,
and `cancelledBy` (and `cancellationReason`) set exactly when its status is cancelled,
the canceller being its requester or its recipient. From such a state, one more call
changes `completedAt` of a stored swap only if it was unset and the call is a complete
that moves the swap from accepted to completed, and changes `cancelledBy` or
`cancellationReason` only if they were unset and the call is a cancel that moves the
swap to cancelled: each field is written once and never changed afterwards. -/
theorem C12_terminal_fields_written_once (updateRating : UpdateRating)
    (users : List User) (notifications : List Notification) (feedback : List Feedback)
    (ops : List Op) :
    (∀ s ∈ (run updateRating ⟨users, [], notifications, feedback⟩ ops).swaps,
      (s.completedAt.isSome = true ↔ s.status = .completed)
      ∧ (s.cancelledBy.isSome = true ↔ s.status = .cancelled)
      ∧ (s.cancellationReason.isSome = true ↔ s.status = .cancelled)
      ∧ (∀ u, s.cancelledBy = some u → u = s.requesterId ∨ u = s.recipientId))
    ∧ (∀ (op : Op) (i : Nat) (s t : SwapRequest),
        (run updateRating ⟨users, [], notifications, feedback⟩ ops).swaps[i]? = some s →
        (step updateRating (run updateRating ⟨users, [], notifications, feedback⟩ ops)
          op).swaps[i]? = some t →
        (t.completedAt ≠ s.completedAt →
          s.completedAt = none ∧ s.status = .accepted ∧ t.status = .completed
          ∧ ∃ c, op = .transition c ∧ c.action = .complete)
        ∧ (t.cancelledBy ≠ s.cancelledBy ∨ t.cancellationReason ≠ s.cancellationReason →
          s.cancelledBy = none ∧ s.cancellationReason = none ∧ t.status = .cancelled
          ∧ ∃ c r, op = .transition c ∧ c.action = .cancel r)) := by
  have hinv := run_terminalFields updateRating ops ⟨users, [], notifications, feedback⟩
    (by intro s hs; simp at hs)
  exact ⟨hinv, fun op i s t hs ht => step_writes_once updateRating _ op hinv i s t hs ht⟩

/-! ## State conflicts and the frame of a transition -/

set_option maxRecDepth 8000 in
/-- C13, as stated, fails: Bob, the recipient, cancels the rejected swap with a reason of
201 characters and is answered 400 `Validation failed`, not the state conflict. -/
theorem C13_counterexample_long_reason_before_state :
    findSwap (sampleDb .rejected) (sampleId 1) = some (sampleSwap .rejected)
    ∧ bob.id = (sampleSwap .rejected).recipientId
    ∧ (sampleSwap .rejected).status ∉ [Status.pending, Status.accepted]
    ∧ cancelSwap (sampleDb .rejected) bob.id "111111111111111111111111"
        (some (String.mk (List.replicate 201 'x'))) 9
      = (sampleDb .rejected, reply 400 "Validation failed") := by
  decide

/-- C13, amended. For every stored swap, with the `:id` of the request denoting it, a
transition by a caller with the required role from a status that does not allow it
changes nothing in the store and is answered with the 400 of its state conflict: accept
and reject by the recipient when the status is not pending, complete by a participant
when the status is not accepted, and cancel by a participant when the status is neither
pending nor accepted and the reason passes validation; a cancel whose reason does not
pass validation is answered 400 `Validation failed` instead, also changing nothing. -/
theorem C13_disallowed_state_is_conflict (db : Db) (caller : ObjectId) (idParam : String)
    (reason : Option String) (now : Nat) (s : SwapRequest)
    (hcast : castObjectId idParam = some s.id) (hfind : findSwap db s.id = some s) :
    (caller = s.recipientId → s.status ≠ .pending →
      acceptSwap db caller idParam now = (db, reply 400 "Swap request is no longer pending")
      ∧ rejectSwap db caller idParam now
          = (db, reply 400 "Swap request is no longer pending"))
    ∧ (caller = s.requesterId ∨ caller = s.recipientId → s.status ≠ .accepted →
      completeSwap db caller idParam now
        = (db, reply 400 "Only accepted swaps can be marked as completed"))
    ∧ (caller = s.requesterId ∨ caller = s.recipientId →
        s.status ≠ .pending → s.status ≠ .accepted →
      (cancelValid reason = true →
        cancelSwap db caller idParam reason now
          = (db, reply 400 "Swap request cannot be cancelled"))
      ∧ (cancelValid reason = false →
        cancelSwap db caller idParam reason now = (db, reply 400 "Validation failed"))) := by
  refine ⟨?_, ?_, ?_⟩
  · intro hc hst
    simp [acceptSwap, rejectSwap, hcast, hfind, hc, hst]
  · intro hc hst
    have h' : ¬ (s.requesterId ≠ caller ∧ s.recipientId ≠ caller) := by
      rcases hc with h | h <;> simp [h]
    simp [completeSwap, hcast, hfind, toString_inj, h', hst]
  · intro hc h1 h2
    have h' : ¬ (s.requesterId ≠ caller ∧ s.recipientId ≠ caller) := by
      rcases hc with h | h <;> simp [h]
    refine ⟨?_, ?_⟩
    · intro hv
      simp [cancelSwap, hcast, hfind, toString_inj, h', hv, h1, h2]
    · intro hv
      simp [cancelSwap, hv]

/-- C13 at a concrete input: Bob, the recipient, accepts the swap he has rejected. -/
theorem C13_disallowed_state_witness :
    acceptSwap (sampleDb .rejected) bob.id "111111111111111111111111" 9
      = (sampleDb .rejected, reply 400 "Swap request is no longer pending") :=
  ((C13_disallowed_state_is_conflict (sampleDb .rejected) bob.id
      "111111111111111111111111" none 9 (sampleSwap .rejected)
      (by decide) (by decide)).1 (by decide) (by decide)).1

/-- C14. A lifecycle call, successful or not, leaves every stored swap at its position
with the same `_id`, `requesterId`, `recipientId`, `requesterSkill`, `recipientSkill`,
`message`, `scheduledDate` and `createdAt`, and changes at most the one swap its `:id`
denotes: all the others are as they were. -/
theorem C14_transition_frame (db : Db) (c : TransitionCall) :
    (transitionSwap db c).1.swaps.length = db.swaps.length
    ∧ (∀ (i : Nat) (s t : SwapRequest),
        db.swaps[i]? = some s → (transitionSwap db c).1.swaps[i]? = some t →
          t.id = s.id ∧ t.requesterId = s.requesterId ∧ t.recipientId = s.recipientId
          ∧ t.requesterSkill = s.requesterSkill ∧ t.recipientSkill = s.recipientSkill
          ∧ t.message = s.message ∧ t.scheduledDate = s.scheduledDate
          ∧ t.createdAt = s.createdAt)
    ∧ (∃ i : Nat, ∀ j : Nat, j ≠ i → (transitionSwap db c).1.swaps[j]? = db.swaps[j]?)
    ∧ (∀ sid s, castObjectId c.idParam = some sid → findSwap db sid = some s →
        ∀ x ∈ db.swaps, x ≠ s → x ∈ (transitionSwap db c).1.swaps) := by
  rcases transitionSwap_saved db c with hsame | ⟨sid, s0, t0, hcast, hfind, hsw, hcase⟩
  · rw [hsame]
    refine ⟨rfl, ?_, ⟨0, fun _ _ => rfl⟩, fun _ _ _ _ x hx _ => hx⟩
    intro i s t hs ht
    rw [hs] at ht
    cases ht
    exact ⟨rfl, rfl, rfl, rfl, rfl, rfl, rfl, rfl⟩
  · have hid : s0.id = sid := find_id hfind
    have hframe : t0.id = s0.id ∧ t0.requesterId = s0.requesterId
        ∧ t0.recipientId = s0.recipientId ∧ t0.requesterSkill = s0.requesterSkill
        ∧ t0.recipientSkill = s0.recipientSkill ∧ t0.message = s0.message
        ∧ t0.scheduledDate = s0.scheduledDate ∧ t0.createdAt = s0.createdAt := by
      rcases hcase with ⟨_, _, e⟩ | ⟨_, _, e⟩ | ⟨_, _, _, _, e⟩ | ⟨_, _, e⟩ <;>
        rw [e] <;> exact ⟨rfl, rfl, rfl, rfl, rfl, rfl, rfl, rfl⟩
    obtain ⟨j, hj1, hj2, hrest⟩ :=
      saveSwap_spec db.swaps sid s0 t0 hfind (hframe.1.trans hid)
    rw [hsw]
    refine ⟨saveSwap_length _ _, ?_, ⟨j, hrest⟩, ?_⟩
    · intro i s t hs ht
      by_cases hij : i = j
      · subst hij
        rw [hj1] at hs
        rw [hj2] at ht
        cases hs
        cases ht
        exact hframe
      · rw [hrest i hij, hs] at ht
        cases ht
        exact ⟨rfl, rfl, rfl, rfl, rfl, rfl, rfl, rfl⟩
    · intro sid' s' hc' hf' x hx hne
      have e1 : sid' = sid := by rw [hcast] at hc'; cases hc'; rfl
      subst e1
      have e2 : s' = s0 := by rw [hfind] at hf'; cases hf'; rfl
      subst e2
      obtain ⟨k, hk⟩ := List.mem_iff_getElem?.mp hx
      have hkj : k ≠ j := by
        intro e
        rw [e, hj1] at hk
        cases hk
        exact hne rfl
      apply List.mem_iff_getElem?.mpr
      exact ⟨k, by rw [hrest k hkj]; exact hk⟩

/-! ## Failure kinds and status codes -/

theorem createSwap_failure_status (db : Db) (caller : ObjectId) (body : CreateBody)
    (newId : ObjectId) (now : Nat) :
    (createSwap db caller body newId now).2.success = true
    ∨ (failureKind (createSwap db caller body newId now).2.message).map
        FailureKind.httpStatus = some (createSwap db caller body newId now).2.status := by
  unfold createSwap
  repeat' (first | split | (dsimp only; split))
  all_goals first
    | (right; rfl)
    | (left; rfl)

theorem transitionSwap_failure_status (db : Db) (c : TransitionCall) :
    (transitionSwap db c).2.success = true
    ∨ (failureKind (transitionSwap db c).2.message).map
        FailureKind.httpStatus = some (transitionSwap db c).2.status := by
  unfold transitionSwap
  split
  · unfold acceptSwap
    repeat' (first | split | (dsimp only; split))
    all_goals first
      | (right; rfl)
      | (left; rfl)
  · unfold rejectSwap
    repeat' (first | split | (dsimp only; split))
    all_goals first
      | (right; rfl)
      | (left; rfl)
  · unfold cancelSwap
    repeat' (first | split | (dsimp only; split))
    all_goals first
      | (right; rfl)
      | (left; rfl)
  · unfold completeSwap
    repeat' (first | split | (dsimp only; split))
    all_goals first
      | (right; rfl)
      | (left; rfl)

theorem submitFeedback_failure_status (updateRating : UpdateRating) (db : Db)
    (caller : ObjectId) (body : FeedbackBody) (newId : ObjectId) (now : Nat) :
    (submitFeedback updateRating db caller body newId now).2.success = true
    ∨ (failureKind (submitFeedback updateRating db caller body newId now).2.message).map
        FailureKind.httpStatus
          = some (submitFeedback updateRating db caller body newId now).2.status := by
  unfold submitFeedback
  repeat' (first | split | (dsimp only; split))
  all_goals first
    | (right; rfl)
    | (left; rfl)

/-- C15, as stated, fails: a self-swap (SelfReferenceError), a malformed request
(ValidationError) and a duplicate active swap (Conflict) are three different kinds of
failure and are all answered with the one status 400. -/
theorem C15_counterexample_three_kinds_one_status :
    createSwap emptyDb ann.id toAnnLower (sampleId 1) 9
        = (emptyDb, reply 400 "Cannot send swap request to yourself")
    ∧ createSwap emptyDb ann.id ⟨"bob", "Guitar", "Python", none, none⟩ (sampleId 1) 9
        = (emptyDb, reply 400 "Validation failed")
    ∧ createSwap (sampleDb .pending) ann.id annToBob (sampleId 2) 9
        = (sampleDb .pending,
            reply 400 "There is already an active swap request between you and this user")
    ∧ failureKind "Cannot send swap request to yourself" = some .selfReference
    ∧ failureKind "Validation failed" = some .validationError
    ∧ failureKind "There is already an active swap request between you and this user"
        = some .conflict := by
  decide

/-- C15, amended. Every failure answer of createSwap, of the four transitions and of
submitFeedback carries a message of the taxonomy and the status of its kind, where
NotFound is sent with 404, Forbidden with 403, a server error with 500, and Conflict,
ValidationError and SelfReferenceError all three with the one status 400: within 400
the kinds differ only by their message. -/
theorem C15_failure_status_by_kind :
    (∀ (db : Db) (caller : ObjectId) (body : CreateBody) (newId : ObjectId) (now : Nat),
      (createSwap db caller body newId now).2.success = false →
        (failureKind (createSwap db caller body newId now).2.message).map
          FailureKind.httpStatus = some (createSwap db caller body newId now).2.status)
    ∧ (∀ (db : Db) (c : TransitionCall),
      (transitionSwap db c).2.success = false →
        (failureKind (transitionSwap db c).2.message).map
          FailureKind.httpStatus = some (transitionSwap db c).2.status)
    ∧ (∀ (updateRating : UpdateRating) (db : Db) (caller : ObjectId) (body : FeedbackBody)
        (newId : ObjectId) (now : Nat),
      (submitFeedback updateRating db caller body newId now).2.success = false →
        (failureKind (submitFeedback updateRating db caller body newId now).2.message).map
          FailureKind.httpStatus
            = some (submitFeedback updateRating db caller body newId now).2.status)
    ∧ FailureKind.notFound.httpStatus = 404
    ∧ FailureKind.forbidden.httpStatus = 403
    ∧ FailureKind.serverError.httpStatus = 500
    ∧ FailureKind.conflict.httpStatus = 400
    ∧ FailureKind.validationError.httpStatus = 400
    ∧ FailureKind.selfReference.httpStatus = 400 := by
  refine ⟨?_, ?_, ?_, rfl, rfl, rfl, rfl, rfl, rfl⟩
  · intro db caller body newId now h
    rcases createSwap_failure_status db caller body newId now with h' | h'
    · rw [h] at h'; exact absurd h' (by simp)
    · exact h'
  · intro db c h
    rcases transitionSwap_failure_status db c with h' | h'
    · rw [h] at h'; exact absurd h' (by simp)
    · exact h'
  · intro updateRating db caller body newId now h
    rcases submitFeedback_failure_status updateRating db caller body newId now with h' | h'
    · rw [h] at h'; exact absurd h' (by simp)
    · exact h'

/-! ## The rating-eligibility gate -/

/-- C16. A feedback submission whose `swapRequestId` denotes a stored swap that is not
completed fails, whoever the caller and whatever the other fields, and changes nothing
in the store: no feedback record, no notification, no rating. When the submission passes
validation the answer is 400 `Feedback can only be given for completed swaps`. -/
theorem C16_feedback_needs_completed_swap (updateRating : UpdateRating) (db : Db)
    (caller : ObjectId) (body : FeedbackBody) (newId : ObjectId) (now : Nat)
    (s : SwapRequest)
    (hcast : castObjectId body.swapRequestId = some s.id)
    (hfind : findSwap db s.id = some s) (hst : s.status ≠ .completed) :
    (submitFeedback updateRating db caller body newId now).1 = db
    ∧ (submitFeedback updateRating db caller body newId now).2.success = false
    ∧ (feedbackValid body = true →
        (submitFeedback updateRating db caller body newId now).2
          = feedbackReply 400 "Feedback can only be given for completed swaps") := by
  obtain ⟨hfail, hcases⟩ := submitFeedback_cases updateRating db caller body newId now
  refine ⟨?_, hfail, ?_⟩
  · rcases hcases with h | ⟨sid, s', _, _, hc, hf, hs', _⟩
    · exact h
    · rw [hcast] at hc
      cases hc
      rw [hfind] at hf
      cases hf
      exact absurd hs' hst
  · intro hv
    simp [submitFeedback, hv, hcast, hfind, hst]

/-- C16 at a concrete input: Ann rates Bob while her request is still pending. -/
theorem C16_feedback_needs_completed_swap_witness :
    (submitFeedback foldRating (sampleDb .pending) ann.id annRatesBob (sampleId 2) 9).1
      = sampleDb .pending
    ∧ (submitFeedback foldRating (sampleDb .pending) ann.id annRatesBob (sampleId 2) 9).2
      = feedbackReply 400 "Feedback can only be given for completed swaps" :=
  ⟨(C16_feedback_needs_completed_swap foldRating (sampleDb .pending) ann.id annRatesBob
      (sampleId 2) 9 (sampleSwap .pending) (by decide) (by decide) (by decide)).1,
   (C16_feedback_needs_completed_swap foldRating (sampleDb .pending) ann.id annRatesBob
      (sampleId 2) 9 (sampleSwap .pending) (by decide) (by decide) (by decide)).2.2
      (by decide)⟩

theorem Notification.create_feedback {db db2 : Db} {userId : Option ObjectId}
    {type message : String} {sid : ObjectId} {now : Nat}
    (h : Notification.create db userId type message sid now = some db2) :
    db2.feedback = db.feedback := by
  unfold Notification.create at h
  split at h
  · exact absurd h (by simp)
  · split at h
    · cases h
      rfl
    · exact absurd h (by simp)

theorem createSwap_feedback (db : Db) (caller : ObjectId) (body : CreateBody)
    (newId : ObjectId) (now : Nat) :
    (createSwap db caller body newId now).1.feedback = db.feedback := by
  rcases createSwap_cases db caller body newId now with
    ⟨h, _⟩ | ⟨_, _, _, _, _, _, _, _, _, _, _, _, _, h⟩ <;> rw [h]

theorem transitionSwap_feedback (db : Db) (c : TransitionCall) :
    (transitionSwap db c).1.feedback = db.feedback := by
  unfold transitionSwap
  split
  · unfold acceptSwap
    repeat' (first | split | (dsimp only; split))
    all_goals first
      | rfl
      | (rename_i h; exact (Notification.create_feedback h).trans rfl)
  · unfold rejectSwap
    repeat' (first | split | (dsimp only; split))
    all_goals first
      | rfl
      | (rename_i h; exact (Notification.create_feedback h).trans rfl)
  · unfold cancelSwap
    repeat' (first | split | (dsimp only; split))
    all_goals rfl
  · unfold completeSwap
    repeat' (first | split | (dsimp only; split))
    all_goals rfl

/-- One call keeps at most one feedback record per swap and rater. -/
theorem step_feedback_unique (updateRating : UpdateRating) (d : Db) (op : Op)
    (sid u : ObjectId)
    (h : (d.feedback.filter (existingFeedbackQuery sid u)).length ≤ 1) :
    ((step updateRating d op).feedback.filter (existingFeedbackQuery sid u)).length ≤ 1 := by
  cases op with
  | create caller body newId now =>
    simp only [step, createSwap_feedback]
    exact h
  | transition c =>
    simp only [step, transitionSwap_feedback]
    exact h
  | feedback caller body newId now =>
    simp only [step]
    rcases (submitFeedback_cases updateRating d caller body newId now).2 with
      hsame | ⟨sid', _, toId, _, _, _, _, _, _, _, hnone, _, heq, _⟩
    · rw [hsame]; exact h
    · rw [heq]
      simp only [List.filter_append]
      by_cases hq : existingFeedbackQuery sid u
          (newFeedback caller sid' toId body newId now) = true
      · have hkey : sid' = sid ∧ caller = u := by
          simpa [existingFeedbackQuery, newFeedback] using hq
        have hempty : d.feedback.filter (existingFeedbackQuery sid u) = [] := by
          rw [List.filter_eq_nil_iff]
          intro f hf
          have := List.find?_eq_none.mp hnone f hf
          rw [hkey.1, hkey.2] at this
          exact this
        rw [hempty]
        simp [List.filter_cons]
        split <;> simp
      · have : [newFeedback caller sid' toId body newId now].filter
            (existingFeedbackQuery sid u) = [] := by
          simp [List.filter_cons, hq]
        rw [this]
        simpa using h

/-- A submission that passes validation and the first five checks while a record of the
caller for the swap exists is answered with the duplicate conflict and changes nothing. -/
theorem submitFeedback_duplicate (updateRating : UpdateRating) (db : Db)
    (caller : ObjectId) (body : FeedbackBody) (newId : ObjectId) (now : Nat)
    (sid : ObjectId) (s : SwapRequest)
    (hcast : castObjectId body.swapRequestId = some sid)
    (hex : ∃ f ∈ db.feedback, f.swapRequestId = sid ∧ f.fromUserId = caller)
    (hv : feedbackValid body = true) (hfs : findSwap db sid = some s)
    (hst : s.status = .completed)
    (hpart : s.requesterId = caller ∨ s.recipientId = caller)
    (hself : body.toUserId ≠ caller.toString)
    (hratee : s.requesterId.toString = body.toUserId
      ∨ s.recipientId.toString = body.toUserId) :
    submitFeedback updateRating db caller body newId now
      = (db, feedbackReply 400 "You have already given feedback for this swap") := by
  obtain ⟨f, hf, hf1, hf2⟩ := hex
  have hsome : ∃ g, db.feedback.find? (existingFeedbackQuery sid caller) = some g := by
    cases hfind : db.feedback.find? (existingFeedbackQuery sid caller) with
    | some g => exact ⟨g, rfl⟩
    | none =>
      have := List.find?_eq_none.mp hfind f hf
      simp [existingFeedbackQuery, hf1, hf2] at this
  obtain ⟨g, hg⟩ := hsome
  have h3 : ¬ (s.requesterId ≠ caller ∧ s.recipientId ≠ caller) := by
    rintro ⟨a, b⟩
    rcases hpart with e | e
    · exact a e
    · exact b e
  have h5 : ¬ (s.requesterId.toString ≠ body.toUserId
      ∧ s.recipientId.toString ≠ body.toUserId) := by
    rintro ⟨a, b⟩
    rcases hratee with e | e
    · exact a e
    · exact b e
  simp [submitFeedback, hv, hcast, hfs, hst, toString_inj, h3, hself, h5, hg]

/-- C17, as stated, fails: after Ann has rated Bob for the swap, a second submission by
Ann for the same swap that names herself is answered `Cannot rate yourself`, not the
`already rated` conflict. -/
theorem C17_counterexample_second_submission_other_error :
    ratedDb.feedback.map (fun f => (f.swapRequestId, f.fromUserId))
        = [(sampleId 1, ann.id)]
    ∧ castObjectId ratesAnnLower.swapRequestId = some (sampleId 1)
    ∧ (submitFeedback foldRating ratedDb ann.id ratesAnnLower (sampleId 3) 5).2
        = feedbackReply 400 "Cannot rate yourself" := by
  decide

/-- C17, amended. In every state reached from a store without swaps and without feedback
by creation, lifecycle and feedback calls there is at most one feedback record per pair
of swap and rater. When a record of the caller for the swap exists, every further
submission by that caller for that swap fails and changes nothing in the store (the
feedback records and every user's rating); it is answered 400 `You have already given
feedback for this swap` when it passes validation and the checks that come first (the
swap is completed, the caller takes part, the ratee string is not the caller's id and
is the id of a participant). -/
theorem C17_one_feedback_per_swap_and_rater (updateRating : UpdateRating) :
    (∀ (users : List User) (notifications : List Notification) (ops : List Op)
        (sid u : ObjectId),
      ((run updateRating ⟨users, [], notifications, []⟩ ops).feedback.filter
        (existingFeedbackQuery sid u)).length ≤ 1)
    ∧ (∀ (db : Db) (caller : ObjectId) (body : FeedbackBody) (newId : ObjectId) (now : Nat)
        (sid : ObjectId),
      castObjectId body.swapRequestId = some sid →
      (∃ f ∈ db.feedback, f.swapRequestId = sid ∧ f.fromUserId = caller) →
        (submitFeedback updateRating db caller body newId now).1 = db
        ∧ (submitFeedback updateRating db caller body newId now).2.success = false
        ∧ (∀ s, feedbackValid body = true → findSwap db sid = some s →
            s.status = .completed →
            (s.requesterId = caller ∨ s.recipientId = caller) →
            body.toUserId ≠ caller.toString →
            (s.requesterId.toString = body.toUserId
              ∨ s.recipientId.toString = body.toUserId) →
            (submitFeedback updateRating db caller body newId now).2
              = feedbackReply 400 "You have already given feedback for this swap")) := by
  refine ⟨?_, ?_⟩
  · intro users notifications ops sid u
    have key : ∀ (ops : List Op) (d : Db),
        (d.feedback.filter (existingFeedbackQuery sid u)).length ≤ 1 →
        ((run updateRating d ops).feedback.filter (existingFeedbackQuery sid u)).length
          ≤ 1 := by
      intro ops
      induction ops with
      | nil => intro d h; exact h
      | cons o os ih =>
        intro d h
        simp only [run]
        exact ih _ (step_feedback_unique updateRating d o sid u h)
    exact key ops _ (by simp)
  · intro db caller body newId now sid hcast hex
    obtain ⟨f, hf, hf1, hf2⟩ := hex
    have hsome : ∃ g, db.feedback.find? (existingFeedbackQuery sid caller) = some g := by
      cases hfind : db.feedback.find? (existingFeedbackQuery sid caller) with
      | some g => exact ⟨g, rfl⟩
      | none =>
        have := List.find?_eq_none.mp hfind f hf
        simp [existingFeedbackQuery, hf1, hf2] at this
    obtain ⟨g, hg⟩ := hsome
    obtain ⟨hfail, hcases⟩ := submitFeedback_cases updateRating db caller body newId now
    refine ⟨?_, hfail, ?_⟩
    · rcases hcases with h | ⟨sid', _, _, _, hc, _, _, _, _, _, hnone, _⟩
      · exact h
      · rw [hcast] at hc
        cases hc
        rw [hg] at hnone
        cases hnone
    · intro s hv hfs hst hpart hself hratee
      rw [submitFeedback_duplicate updateRating db caller body newId now sid s hcast
        ⟨f, hf, hf1, hf2⟩ hv hfs hst hpart hself hratee]

/-- C17 at a concrete input: Ann, who has rated Bob, submits the same rating again. -/
theorem C17_second_submission_witness :
    (submitFeedback foldRating ratedDb ann.id annRatesBob (sampleId 3) 5).2
      = feedbackReply 400 "You have already given feedback for this swap" :=
  ((C17_one_feedback_per_swap_and_rater foldRating).2 ratedDb ann.id annRatesBob
    (sampleId 3) 5 (sampleId 1) (by decide)
    ⟨newFeedback ann.id (sampleId 1) bob.id annRatesBob (sampleId 2) 4,
      by decide, by decide, by decide⟩).2.2
    { sampleSwap .completed with completedAt := some 3, updatedAt := 3, createdAt := 1 }
    (by decide) (by decide) (by decide) (by decide) (by decide) (by decide)

/-- C18 at its failing input: after the scenario Ann rates Bob, the other participant of
the completed swap, with valid fields and no earlier feedback. The feedback is stored
and Bob's rating is updated, but the notification has type `feedback`, which the
notification schema does not allow, so no notification is stored and the answer is 500
`Server error while creating feedback`, without the feedback document. -/
theorem C18_valid_rating_is_answered_500 :
    feedbackValid annRatesBob = true
    ∧ doneDb.swaps.map (fun s => (s.id, s.status, s.requesterId, s.recipientId))
        = [(sampleId 1, Status.completed, ann.id, bob.id)]
    ∧ castObjectId annRatesBob.swapRequestId = some (sampleId 1)
    ∧ castObjectId annRatesBob.toUserId = some bob.id
    ∧ doneDb.feedback = []
    ∧ (submitFeedback foldRating doneDb ann.id annRatesBob (sampleId 2) 4).2
        = feedbackReply 500 "Server error while creating feedback"
    ∧ (submitFeedback foldRating doneDb ann.id annRatesBob (sampleId 2) 4).1.feedback
        = [newFeedback ann.id (sampleId 1) bob.id annRatesBob (sampleId 2) 4]
    ∧ (submitFeedback foldRating doneDb ann.id annRatesBob (sampleId 2) 4).1.notifications
        = doneDb.notifications
    ∧ "feedback" ∉ notificationTypes := by
  decide

/-- C19 at its failing input: Ann, the requester of the completed swap, names her own id
in upper case as the ratee. The string denotes the caller, so the fourth check (the
ratee is not the caller) is the first one violated, and Ann is a participant, so the
fifth is not; the answer is that of the fifth check. -/
theorem C19_upper_case_self_rating_reports_fifth_check :
    feedbackValid ratesAnnUpper = true
    ∧ castObjectId ratesAnnUpper.toUserId = some ann.id
    ∧ doneDb.swaps.map (fun s => (s.id, s.status, s.requesterId, s.recipientId))
        = [(sampleId 1, Status.completed, ann.id, bob.id)]
    ∧ submitFeedback foldRating doneDb ann.id ratesAnnUpper (sampleId 2) 4
        = (doneDb, feedbackReply 400 "User being rated must be involved in the swap")
    ∧ submitFeedback foldRating doneDb ann.id ratesAnnLower (sampleId 2) 4
        = (doneDb, feedbackReply 400 "Cannot rate yourself") := by
  decide

/-- The order of the six checks of `POST /api/feedback`, for a submission that passes
validation: the answer is that of the first check that fails, the fourth and fifth
checks being comparisons of the ratee string with rendered ids. -/
theorem submitFeedback_first_failed_check (updateRating : UpdateRating) (db : Db)
    (caller : ObjectId) (body : FeedbackBody) (newId : ObjectId) (now : Nat)
    (sid : ObjectId) (hvalid : feedbackValid body = true)
    (hcast : castObjectId body.swapRequestId = some sid) :
    (findSwap db sid = none →
      submitFeedback updateRating db caller body newId now
        = (db, feedbackReply 404 "Swap request not found"))
    ∧ (∀ s, findSwap db sid = some s →
      (s.status ≠ .completed →
        submitFeedback updateRating db caller body newId now
          = (db, feedbackReply 400 "Feedback can only be given for completed swaps"))
      ∧ (s.status = .completed →
        (s.requesterId ≠ caller ∧ s.recipientId ≠ caller →
          submitFeedback updateRating db caller body newId now
            = (db, feedbackReply 403 "Not authorized to give feedback for this swap"))
        ∧ (s.requesterId = caller ∨ s.recipientId = caller →
          (body.toUserId = caller.toString →
            submitFeedback updateRating db caller body newId now
              = (db, feedbackReply 400 "Cannot rate yourself"))
          ∧ (body.toUserId ≠ caller.toString →
            (s.requesterId.toString ≠ body.toUserId
                ∧ s.recipientId.toString ≠ body.toUserId →
              submitFeedback updateRating db caller body newId now
                = (db, feedbackReply 400 "User being rated must be involved in the swap"))
            ∧ (s.requesterId.toString = body.toUserId
                ∨ s.recipientId.toString = body.toUserId →
              (∃ f ∈ db.feedback, f.swapRequestId = sid ∧ f.fromUserId = caller) →
              submitFeedback updateRating db caller body newId now
                = (db,
                    feedbackReply 400 "You have already given feedback for this swap")))))) := by
  refine ⟨?_, ?_⟩
  · intro h
    simp [submitFeedback, hvalid, hcast, h]
  · intro s hs
    refine ⟨?_, ?_⟩
    · intro h2
      simp [submitFeedback, hvalid, hcast, hs, h2]
    · intro h2
      refine ⟨?_, ?_⟩
      · intro h3
        simp [submitFeedback, hvalid, hcast, hs, h2, toString_inj, h3]
      · intro h3
        have h3' : ¬ (s.requesterId ≠ caller ∧ s.recipientId ≠ caller) := by
          rintro ⟨a, b⟩
          rcases h3 with e | e
          · exact a e
          · exact b e
        refine ⟨?_, ?_⟩
        · intro h4
          simp [submitFeedback, hvalid, hcast, hs, h2, toString_inj, h3', h4]
        · intro h4
          refine ⟨?_, ?_⟩
          · intro h5
            simp [submitFeedback, hvalid, hcast, hs, h2, toString_inj, h3', h4, h5]
          · intro h5 hex
            exact submitFeedback_duplicate updateRating db caller body newId now sid s
              hcast hex hvalid hs h2 h3 h4 h5

/-- C20. Every feedback record a submission adds to the store references a stored swap,
denoted by the `swapRequestId` of the request, whose two participants are exactly the
rater and the ratee: the rater is the caller and takes part in the swap, the ratee is
the other participant, and the two differ. -/
theorem C20_feedback_is_between_the_participants (updateRating : UpdateRating) (db : Db)
    (caller : ObjectId) (body : FeedbackBody) (newId : ObjectId) (now : Nat)
    (f : Feedback)
    (hnew : f ∈ (submitFeedback updateRating db caller body newId now).1.feedback)
    (hold : f ∉ db.feedback) :
    ∃ s, castObjectId body.swapRequestId = some f.swapRequestId
      ∧ findSwap db f.swapRequestId = some s
      ∧ s.status = .completed
      ∧ f.fromUserId = caller
      ∧ ((s.requesterId = f.fromUserId ∧ s.recipientId = f.toUserId)
        ∨ (s.requesterId = f.toUserId ∧ s.recipientId = f.fromUserId))
      ∧ f.toUserId ≠ f.fromUserId := by
  rcases (submitFeedback_cases updateRating db caller body newId now).2 with
    hsame | ⟨sid, s, toId, _, hcast, hfind, hst, hpart, hself, hratee, _, hto, heq, _⟩
  · rw [hsame] at hnew
    exact absurd hnew hold
  · rw [heq] at hnew
    simp only [List.mem_append, List.mem_singleton] at hnew
    rcases hnew with hnew | hnew
    · exact absurd hnew hold
    · subst hnew
      have hne : toId ≠ caller := by
        intro e
        apply hself
        rcases hratee with h | h
        · have := castObjectId_toString s.requesterId
          rw [h, hto] at this
          cases this
          rw [← h, e]
        · have := castObjectId_toString s.recipientId
          rw [h, hto] at this
          cases this
          rw [← h, e]
      have hmem : toId = s.requesterId ∨ toId = s.recipientId := by
        rcases hratee with h | h
        · left
          have := castObjectId_toString s.requesterId
          rw [h, hto] at this
          cases this
          rfl
        · right
          have := castObjectId_toString s.recipientId
          rw [h, hto] at this
          cases this
          rfl
      refine ⟨s, hcast, hfind, hst, rfl, ?_, hne⟩
      simp only [newFeedback]
      rcases hpart with hp | hp <;> rcases hmem with hm | hm
      · exact absurd (hm.trans hp) hne
      · exact Or.inl ⟨hp, hm.symm⟩
      · exact Or.inr ⟨hm.symm, hp⟩
      · exact absurd (hm.trans hp) hne

/-- C20 at a concrete input: the record stored when Ann rates Bob after the scenario. -/
theorem C20_feedback_is_between_the_participants_witness :
    ∃ s, castObjectId annRatesBob.swapRequestId = some (sampleId 1)
      ∧ findSwap doneDb (sampleId 1) = some s
      ∧ s.status = .completed
      ∧ ann.id = ann.id
      ∧ ((s.requesterId = ann.id ∧ s.recipientId = bob.id)
        ∨ (s.requesterId = bob.id ∧ s.recipientId = ann.id))
      ∧ bob.id ≠ ann.id :=
  C20_feedback_is_between_the_participants foldRating doneDb ann.id annRatesBob
    (sampleId 2) 4 (newFeedback ann.id (sampleId 1) bob.id annRatesBob (sampleId 2) 4)
    (by decide) (by decide)

/-- The page the store returns of `total` matching records has `min limit (total - skip)`
records. -/
theorem pageOf_length {α : Type} (matching : List α) (skip limit : Nat) (hl : 1 ≤ limit) :
    (pageOf matching skip limit).length = min limit (matching.length - skip) := by
  unfold pageOf
  rw [if_neg (by omega)]
  simp [List.length_take, List.length_drop]

/-- The rounded-up quotient is at most `n` exactly when `n` pages hold all records. -/
theorem ceil_div_le_iff (total limit n : Nat) (hl : 1 ≤ limit) :
    ⌈(total : ℚ) / (limit : ℚ)⌉₊ ≤ n ↔ total ≤ n * limit := by
  have hpos : (0 : ℚ) < (limit : ℚ) := by exact_mod_cast hl
  rw [Nat.ceil_le, div_le_iff₀ hpos]
  exact_mod_cast Iff.rfl

/-- The number of pages is the quotient rounded up. -/
theorem ceil_div_eq (total limit : Nat) (hl : 1 ≤ limit) :
    ⌈(total : ℚ) / (limit : ℚ)⌉₊ = (total + limit - 1) / limit := by
  have key : ∀ n, (total + limit - 1) / limit ≤ n ↔ total ≤ n * limit := by
    intro n
    rw [← Nat.lt_succ_iff, Nat.div_lt_iff_lt_mul (by omega), Nat.succ_mul]
    omega
  apply le_antisymm
  · rw [ceil_div_le_iff _ _ _ hl, ← key]
  · rw [key, ← ceil_div_le_iff _ _ _ hl]

/-- C30: for a total, a page of at least 1 and a limit of at least 1, with the store
returning the records of the page that exist, the pagination block has `totalPages`
equal to the quotient `total / limit` rounded up, `hasPrev` exactly when the page is
after the first, and `hasNext` exactly when the page is before the last. -/
theorem C30_pagination_block {α : Type} (matching : List α) (page limit : Nat)
    (hp : 1 ≤ page) (hl : 1 ≤ limit) :
    (paginationBlock matching.length page limit
        (pageOf matching ((page - 1) * limit) limit).length).totalPages
      = some ⌈(matching.length : ℚ) / (limit : ℚ)⌉₊
    ∧ (paginationBlock matching.length page limit
        (pageOf matching ((page - 1) * limit) limit).length).totalPages
      = some ((matching.length + limit - 1) / limit)
    ∧ ((paginationBlock matching.length page limit
        (pageOf matching ((page - 1) * limit) limit).length).hasPrev = true ↔ page > 1)
    ∧ ((paginationBlock matching.length page limit
        (pageOf matching ((page - 1) * limit) limit).length).hasNext = true
      ↔ page < ⌈(matching.length : ℚ) / (limit : ℚ)⌉₊) := by
  have key : ∀ returned, returned = min limit (matching.length - (page - 1) * limit) →
      ∀ p, p = paginationBlock matching.length page limit returned →
        p.totalPages = some ⌈(matching.length : ℚ) / (limit : ℚ)⌉₊
        ∧ p.totalPages = some ((matching.length + limit - 1) / limit)
        ∧ (p.hasPrev = true ↔ page > 1)
        ∧ (p.hasNext = true ↔ page < ⌈(matching.length : ℚ) / (limit : ℚ)⌉₊) := by
    intro returned hlen p hpd
    have htp : p.totalPages = some ⌈(matching.length : ℚ) / (limit : ℚ)⌉₊ := by
      rw [hpd]
      show (if limit = 0 then none else some _) = _
      rw [if_neg (by omega)]
    refine ⟨htp, by rw [htp, ceil_div_eq _ _ hl], by simp [hpd, paginationBlock], ?_⟩
    have hnext : p.hasNext = true ↔ (page - 1) * limit + returned < matching.length := by
      simp [hpd, paginationBlock]
    rw [hnext, hlen, ← not_le, ← not_le, ceil_div_le_iff _ _ _ hl, not_iff_not]
    obtain ⟨q, rfl⟩ : ∃ q, page = q + 1 := ⟨page - 1, by omega⟩
    simp only [Nat.add_sub_cancel, Nat.succ_mul]
    omega
  exact key _ (pageOf_length matching _ limit hl) _ rfl

/-- C30 at 25 records, page 2, limit 10: three pages, a previous and a next page. -/
theorem C30_pagination_block_witness :
    1 ≤ 2 ∧ 1 ≤ 10
    ∧ (paginationBlock 25 2 10 10).totalPages = some ((25 + 10 - 1) / 10)
    ∧ ((paginationBlock 25 2 10 10).hasPrev = true ↔ 2 > 1) :=
  ⟨by decide, by decide,
    (C30_pagination_block (List.replicate 25 ()) 2 10 (by decide) (by decide)).2.1,
    (C30_pagination_block (List.replicate 25 ()) 2 10 (by decide) (by decide)).2.2.1⟩

/-- The page is part of the matching records. -/
theorem pageOf_subset {α : Type} (matching : List α) (skip limit : Nat) :
    ∀ x ∈ pageOf matching skip limit, x ∈ matching := by
  intro x hx
  unfold pageOf at hx
  split at hx
  · exact List.mem_of_mem_drop hx
  · exact List.mem_of_mem_drop (List.mem_of_mem_take hx)

/-- A user found by id has that id. -/
theorem findUser_id {db : Db} {uid : ObjectId} {u : User}
    (h : findUser db uid = some u) : u.id = uid := by
  have := List.find?_some h
  simpa using this

/-- An annotated element is the document with its populated paths and the two added
fields. -/
theorem annotate_spec {db : Db} {caller : ObjectId} {s : SwapRequest} {x : MineItem}
    (h : annotate db caller s = some x) :
    x.swap = s
    ∧ findUser db s.requesterId = some x.requester
    ∧ x.recipient = findUser db s.recipientId
    ∧ (x.isRequester = true ↔ caller = s.requesterId)
    ∧ x.otherUser = (if caller = s.requesterId then findUser db s.recipientId
                     else findUser db s.requesterId) := by
  unfold annotate at h
  cases hu : findUser db s.requesterId with
  | none => rw [hu] at h; simp at h
  | some requester =>
    rw [hu] at h
    dsimp only at h
    have hid : requester.id = s.requesterId := findUser_id hu
    injection h with h
    subst h
    dsimp only
    have hiff : requester.id.toString = caller.toString ↔ caller = s.requesterId := by
      rw [hid]
      constructor
      · intro e; exact (toString_inj.mp e).symm
      · intro e; rw [e]
    refine ⟨rfl, rfl, rfl, by simp [hiff], ?_⟩
    by_cases hc : caller = s.requesterId
    · simp [hc, hid]
    · have : ¬ requester.id.toString = caller.toString := fun e => hc (hiff.mp e)
      simp [hc, this]

/-- Every element of the annotated list comes from a document of the page. -/
theorem annotateAll_mem {db : Db} {caller : ObjectId} :
    ∀ {docs : List SwapRequest} {items : List MineItem},
      annotateAll db caller docs = some items →
      ∀ x ∈ items, ∃ s ∈ docs, annotate db caller s = some x := by
  intro docs
  induction docs with
  | nil =>
    intro items h x hx
    simp [annotateAll] at h
    subst h
    simp at hx
  | cons s rest ih =>
    intro items h x hx
    unfold annotateAll at h
    cases ha : annotate db caller s with
    | none => rw [ha] at h; simp at h
    | some y =>
      cases hr : annotateAll db caller rest with
      | none => rw [ha, hr] at h; simp at h
      | some ys =>
        rw [ha, hr] at h
        injection h with h
        subst h
        rcases List.mem_cons.mp hx with rfl | hx
        · exact ⟨s, List.mem_cons_self _ _, ha⟩
        · obtain ⟨t, ht, hta⟩ := ih hr x hx
          exact ⟨t, List.mem_cons_of_mem _ ht, hta⟩

/-- The `map` over the page returns when the requester of every document has an
account. -/
theorem annotateAll_some {db : Db} {caller : ObjectId} :
    ∀ {docs : List SwapRequest},
      (∀ s ∈ docs, findUser db s.requesterId ≠ none) →
      ∃ items, annotateAll db caller docs = some items := by
  intro docs
  induction docs with
  | nil => intro _; exact ⟨[], rfl⟩
  | cons s rest ih =>
    intro h
    obtain ⟨ys, hys⟩ := ih (fun t ht => h t (List.mem_cons_of_mem _ ht))
    cases hu : findUser db s.requesterId with
    | none => exact absurd hu (h s (List.mem_cons_self _ _))
    | some requester =>
      unfold annotateAll annotate
      rw [hu, hys]
      exact ⟨_, rfl⟩

/-- The listing leaves the store as it was. -/
theorem listMine_db (db : Db) (caller : ObjectId) (status : Option String)
    (page limit : Nat) : (listMine db caller status page limit).1 = db := by
  unfold listMine
  split
  · rfl
  · dsimp only
    split <;> rfl

/-- C24: the listing changes nothing in the store, it answers with a list for a page of
at least 1 when the requester of every stored swap has an account, and every element it returns is a
stored swap in which the caller is requester or recipient and, when a status filter is
given, whose status is the filter; `isRequester` holds exactly when the caller is the
requester of that swap, and `otherUser` is the populated participant on the other side:
the recipient when the caller is the requester, the requester otherwise, a user whose id
is not the caller's as long as the swap has two different participants. -/
theorem C24_list_mine (db : Db) (caller : ObjectId) (status : Option String)
    (page limit : Nat) :
    (listMine db caller status page limit).1 = db
    ∧ (1 ≤ page → (∀ s ∈ db.swaps, findUser db s.requesterId ≠ none) →
        ∃ r, (listMine db caller status page limit).2 = some r)
    ∧ ∀ r, (listMine db caller status page limit).2 = some r → ∀ x ∈ r.swaps,
        x.swap ∈ db.swaps
        ∧ (x.swap.requesterId = caller ∨ x.swap.recipientId = caller)
        ∧ (∀ st, status = some st → st ≠ "" → x.swap.status.name = st)
        ∧ (x.isRequester = true ↔ caller = x.swap.requesterId)
        ∧ x.otherUser = findUser db (if caller = x.swap.requesterId
                                     then x.swap.recipientId else x.swap.requesterId)
        ∧ (x.swap.requesterId ≠ x.swap.recipientId →
            ∀ u, x.otherUser = some u → u.id ≠ caller) := by
  refine ⟨listMine_db db caller status page limit, ?_, ?_⟩
  · intro hp hall
    unfold listMine
    rw [if_neg (by omega)]
    dsimp only
    obtain ⟨items, hitems⟩ := @annotateAll_some db caller
      (pageOf ((db.swaps.filter (mineQuery caller status)).insertionSort
        (fun a b => b.createdAt ≤ a.createdAt)) ((page - 1) * limit) limit)
      (fun s hs => hall s (List.mem_of_mem_filter
        ((List.mem_insertionSort _).mp (pageOf_subset _ _ _ s hs))))
    rw [hitems]
    exact ⟨_, rfl⟩
  intro r hr x hx
  unfold listMine at hr
  split at hr
  · simp at hr
  · dsimp only at hr
    split at hr
    · simp at hr
    · rename_i items hitems
      injection hr with hr
      subst hr
      obtain ⟨s, hs, ha⟩ := annotateAll_mem hitems x hx
      have hs1 := pageOf_subset _ _ _ s hs
      rw [List.mem_insertionSort] at hs1
      obtain ⟨hmem, hq⟩ := List.mem_filter.mp hs1
      obtain ⟨e1, _, _, e4, e5⟩ := annotate_spec ha
      rw [e1]
      unfold mineQuery at hq
      rw [Bool.and_eq_true, Bool.or_eq_true, decide_eq_true_eq, decide_eq_true_eq] at hq
      refine ⟨hmem, hq.1, ?_, e4, ?_, ?_⟩
      · intro st hst hne
        have h2 := hq.2
        rw [hst] at h2
        simpa [hne] using h2
      · rw [e5]; split <;> rfl
      · intro hdiff u hu
        rw [e5] at hu
        by_cases hc : caller = s.requesterId
        · rw [if_pos hc] at hu
          have := findUser_id hu
          rw [this, hc]; exact fun e => hdiff e.symm
        · rw [if_neg hc] at hu
          have := findUser_id hu
          rw [this]; exact fun e => hc e.symm

/-- A feedback found by id has that id and is stored. -/
theorem findFeedback_spec {db : Db} {fid : ObjectId} {f : Feedback}
    (h : findFeedback db fid = some f) : f.id = fid ∧ f ∈ db.feedback := by
  have h1 := List.find?_some h
  exact ⟨by simpa using h1, List.mem_of_find?_eq_some h⟩

/-- The author test of the two handlers compares renderings, which decide the id. -/
theorem author_test (f : Feedback) (caller : ObjectId) :
    f.fromUserId.toString ≠ caller.toString ↔ f.fromUserId ≠ caller :=
  not_congr toString_inj

/-- What `DELETE /api/feedback/:id` answers and does, check by check. -/
theorem deleteFeedback_cases (db : Db) (caller : ObjectId) (idParam : String) (now : Nat) :
    (castObjectId idParam = none
      ∧ deleteFeedback db caller idParam now
          = (db, feedbackReply 500 "Server error while deleting feedback"))
    ∨ (∃ fid, castObjectId idParam = some fid ∧ findFeedback db fid = none
      ∧ deleteFeedback db caller idParam now = (db, feedbackReply 404 "Feedback not found"))
    ∨ (∃ fid f, castObjectId idParam = some fid ∧ findFeedback db fid = some f
      ∧ ((f.fromUserId ≠ caller
          ∧ deleteFeedback db caller idParam now
              = (db, feedbackReply 403 "Not authorized to delete this feedback"))
        ∨ (f.fromUserId = caller ∧ olderThan24Hours now f.createdAt = true
          ∧ deleteFeedback db caller idParam now
              = (db, feedbackReply 400
                  "Feedback can only be deleted within 24 hours of creation"))
        ∨ (f.fromUserId = caller ∧ olderThan24Hours now f.createdAt = false
          ∧ deleteFeedback db caller idParam now
              = ({ db with feedback := db.feedback.eraseP (fun g => decide (g.id = fid)) },
                  ⟨200, true, "Feedback deleted successfully", none⟩)))) := by
  unfold deleteFeedback
  cases hc : castObjectId idParam with
  | none => exact Or.inl ⟨rfl, rfl⟩
  | some fid =>
    dsimp only
    cases hf : findFeedback db fid with
    | none => exact Or.inr (Or.inl ⟨fid, rfl, hf, rfl⟩)
    | some f =>
      dsimp only
      refine Or.inr (Or.inr ⟨fid, f, rfl, hf, ?_⟩)
      by_cases ha : f.fromUserId = caller
      · have ha2 : ¬ f.fromUserId.toString ≠ caller.toString := by
          rw [author_test]; exact fun h => h ha
        rw [if_neg ha2]
        by_cases ho : olderThan24Hours now f.createdAt = true
        · rw [if_pos ho]; exact Or.inr (Or.inl ⟨ha, ho, rfl⟩)
        · rw [if_neg ho]
          exact Or.inr (Or.inr ⟨ha, by simpa using ho, rfl⟩)
      · have ha2 : f.fromUserId.toString ≠ caller.toString := (author_test f caller).mpr ha
        rw [if_pos ha2]; exact Or.inl ⟨ha, rfl⟩

/-- What `PUT /api/feedback/:id` answers and does, check by check. -/
theorem updateFeedback_cases (db : Db) (caller : ObjectId) (idParam : String)
    (body : FeedbackUpdateBody) (now : Nat) :
    (feedbackUpdateValid body = false
      ∧ updateFeedback db caller idParam body now = (db, feedbackReply 400 "Validation failed"))
    ∨ (feedbackUpdateValid body = true ∧
      ((castObjectId idParam = none
        ∧ updateFeedback db caller idParam body now
            = (db, feedbackReply 500 "Server error while updating feedback"))
      ∨ (∃ fid, castObjectId idParam = some fid ∧ findFeedback db fid = none
        ∧ updateFeedback db caller idParam body now
            = (db, feedbackReply 404 "Feedback not found"))
      ∨ (∃ fid f, castObjectId idParam = some fid ∧ findFeedback db fid = some f
        ∧ ((f.fromUserId ≠ caller
            ∧ updateFeedback db caller idParam body now
                = (db, feedbackReply 403 "Not authorized to update this feedback"))
          ∨ (f.fromUserId = caller ∧ olderThan24Hours now f.createdAt = true
            ∧ updateFeedback db caller idParam body now
                = (db, feedbackReply 400
                    "Feedback can only be updated within 24 hours of creation"))
          ∨ (f.fromUserId = caller ∧ olderThan24Hours now f.createdAt = false
            ∧ ((f.applyUpdate body now = none
                ∧ updateFeedback db caller idParam body now
                    = (db, feedbackReply 500 "Server error while updating feedback"))
              ∨ (∃ g, f.applyUpdate body now = some g
                ∧ duplicateKey (db.feedback.eraseP (fun x => decide (x.id = fid))) g = true
                ∧ updateFeedback db caller idParam body now
                    = (db, feedbackReply 500 "Server error while updating feedback"))
              ∨ (∃ g, f.applyUpdate body now = some g
                ∧ duplicateKey (db.feedback.eraseP (fun x => decide (x.id = fid))) g = false
                ∧ updateFeedback db caller idParam body now
                    = ({ db with feedback := saveFeedback db.feedback g },
                        ⟨200, true, "Feedback updated successfully", some g⟩)))))))) := by
  unfold updateFeedback
  by_cases hv : feedbackUpdateValid body = false
  · rw [if_pos hv]; exact Or.inl ⟨hv, rfl⟩
  rw [if_neg hv]
  refine Or.inr ⟨by simpa using hv, ?_⟩
  cases hc : castObjectId idParam with
  | none => exact Or.inl ⟨rfl, rfl⟩
  | some fid =>
    dsimp only
    cases hf : findFeedback db fid with
    | none => exact Or.inr (Or.inl ⟨fid, rfl, hf, rfl⟩)
    | some f =>
      dsimp only
      refine Or.inr (Or.inr ⟨fid, f, rfl, hf, ?_⟩)
      by_cases ha : f.fromUserId = caller
      · have ha2 : ¬ f.fromUserId.toString ≠ caller.toString := by
          rw [author_test]; exact fun h => h ha
        rw [if_neg ha2]
        by_cases ho : olderThan24Hours now f.createdAt = true
        · rw [if_pos ho]; exact Or.inr (Or.inl ⟨ha, ho, rfl⟩)
        · rw [if_neg ho]
          refine Or.inr (Or.inr ⟨ha, by simpa using ho, ?_⟩)
          cases hg : f.applyUpdate body now with
          | none => exact Or.inl ⟨rfl, rfl⟩
          | some g =>
            dsimp only
            by_cases hd : duplicateKey (db.feedback.eraseP (fun x => decide (x.id = fid))) g
                = true
            · rw [if_pos hd]; exact Or.inr (Or.inl ⟨g, rfl, hd, rfl⟩)
            · rw [if_neg hd]; exact Or.inr (Or.inr ⟨g, rfl, by simpa using hd, rfl⟩)
      · have ha2 : f.fromUserId.toString ≠ caller.toString := (author_test f caller).mpr ha
        rw [if_pos ha2]; exact Or.inl ⟨ha, rfl⟩

/-- When `DELETE /api/feedback/:id` succeeds. -/
theorem deleteFeedback_success_iff (db : Db) (caller : ObjectId) (idParam : String)
    (now : Nat) :
    (deleteFeedback db caller idParam now).2.success = true
      ↔ ∃ fid f, castObjectId idParam = some fid ∧ findFeedback db fid = some f
          ∧ f.fromUserId = caller ∧ olderThan24Hours now f.createdAt = false := by
  rcases deleteFeedback_cases db caller idParam now with
    ⟨hc, h⟩ | ⟨fid, hc, hf, h⟩ | ⟨fid, f, hc, hf, ⟨ha, h⟩ | ⟨ha, ho, h⟩ | ⟨ha, ho, h⟩⟩
  · simp [h, hc, feedbackReply]
  · simp [h, hc, hf, feedbackReply]
  · simp [h, hc, hf, ha, feedbackReply]
  · simp [h, hc, hf, ho, feedbackReply]
  · simp [h, hc, hf, ha, ho]

/-- When `PUT /api/feedback/:id` succeeds. -/
theorem updateFeedback_success_iff (db : Db) (caller : ObjectId) (idParam : String)
    (body : FeedbackUpdateBody) (now : Nat) :
    (updateFeedback db caller idParam body now).2.success = true
      ↔ feedbackUpdateValid body = true
        ∧ ∃ fid f g, castObjectId idParam = some fid ∧ findFeedback db fid = some f
          ∧ f.fromUserId = caller ∧ olderThan24Hours now f.createdAt = false
          ∧ f.applyUpdate body now = some g
          ∧ duplicateKey (db.feedback.eraseP (fun x => decide (x.id = fid))) g = false := by
  rcases updateFeedback_cases db caller idParam body now with
    ⟨hv, h⟩ | ⟨hv, ⟨hc, h⟩ | ⟨fid, hc, hf, h⟩ | ⟨fid, f, hc, hf, ⟨ha, h⟩ | ⟨ha, ho, h⟩
      | ⟨ha, ho, ⟨hg, h⟩ | ⟨g, hg, hd, h⟩ | ⟨g, hg, hd, h⟩⟩⟩⟩
  · simp [h, hv, feedbackReply]
  · simp [h, hc, feedbackReply]
  · simp [h, hc, hf, feedbackReply]
  · simp [h, hc, hf, ha, feedbackReply]
  · simp [h, hc, hf, ho, feedbackReply]
  · simp [h, hc, hf, hg, feedbackReply]
  · simp [h, hc, hf, hg, hd, feedbackReply]
  · simp [h, hc, hf, hg, hd, ha, ho, hv]

/-- A refused deletion leaves the store as it was. -/
theorem deleteFeedback_failure_frame (db : Db) (caller : ObjectId) (idParam : String)
    (now : Nat) (hfail : (deleteFeedback db caller idParam now).2.success = false) :
    (deleteFeedback db caller idParam now).1 = db := by
  rcases deleteFeedback_cases db caller idParam now with
    ⟨_, h⟩ | ⟨_, _, _, h⟩ | ⟨_, _, _, _, ⟨_, h⟩ | ⟨_, _, h⟩ | ⟨_, _, h⟩⟩
  all_goals first
    | (rw [h]; done)
    | (rw [h] at hfail; exact absurd hfail (by simp))

/-- A refused edit leaves the store as it was. -/
theorem updateFeedback_failure_frame (db : Db) (caller : ObjectId) (idParam : String)
    (body : FeedbackUpdateBody) (now : Nat)
    (hfail : (updateFeedback db caller idParam body now).2.success = false) :
    (updateFeedback db caller idParam body now).1 = db := by
  rcases updateFeedback_cases db caller idParam body now with
    ⟨_, h⟩ | ⟨_, ⟨_, h⟩ | ⟨_, _, _, h⟩ | ⟨_, _, _, _, ⟨_, h⟩ | ⟨_, _, h⟩
      | ⟨_, _, ⟨_, h⟩ | ⟨_, _, _, h⟩ | ⟨_, _, _, h⟩⟩⟩⟩
  all_goals first
    | (rw [h]; done)
    | (rw [h] at hfail; exact absurd hfail (by simp))

/-- C23, counterexample: in the store where Ann rated Bob at instant 4, Ann, the author,
edits her feedback `222222222222222222222222` at instant 5 with the rating 7 and is
refused; Bob, who is not the author, sends the same body and is answered 400, not 403. -/
theorem C23_counterexample_author_in_time_is_refused :
    (findFeedback ratedDb (sampleId 2)).map (fun f => (f.fromUserId, f.createdAt))
        = some (ann.id, 4)
    ∧ olderThan24Hours 5 4 = false
    ∧ (updateFeedback ratedDb ann.id "222222222222222222222222" (editRating 7) 5).2
        = feedbackReply 400 "Validation failed"
    ∧ (updateFeedback ratedDb bob.id "222222222222222222222222" (editRating 7) 5).2.status
        = 400 := by
  decide

/-- C23, as amended: deleting a feedback succeeds exactly when the id names a stored
feedback, the caller is its author and at most 24 hours have passed since its creation;
editing succeeds exactly when, in addition, the body passes validation and the store
accepts the update. A non-author is answered 403 whatever the age of the feedback (for
an edit, once the body is valid); an author acting after more than 24 hours is answered
400; and every refusal leaves the store, hence the feedback, unchanged. -/
theorem C23_edit_and_delete_rules (db : Db) (caller : ObjectId) (idParam : String)
    (body : FeedbackUpdateBody) (now : Nat) :
    ((deleteFeedback db caller idParam now).2.success = true
      ↔ ∃ fid f, castObjectId idParam = some fid ∧ findFeedback db fid = some f
          ∧ f.fromUserId = caller ∧ olderThan24Hours now f.createdAt = false)
    ∧ ((updateFeedback db caller idParam body now).2.success = true
      ↔ feedbackUpdateValid body = true
        ∧ ∃ fid f g, castObjectId idParam = some fid ∧ findFeedback db fid = some f
          ∧ f.fromUserId = caller ∧ olderThan24Hours now f.createdAt = false
          ∧ f.applyUpdate body now = some g
          ∧ duplicateKey (db.feedback.eraseP (fun x => decide (x.id = fid))) g = false)
    ∧ (∀ fid f, castObjectId idParam = some fid → findFeedback db fid = some f →
        f.fromUserId ≠ caller →
        (deleteFeedback db caller idParam now).2.status = 403
        ∧ (feedbackUpdateValid body = true →
            (updateFeedback db caller idParam body now).2.status = 403))
    ∧ (∀ fid f, castObjectId idParam = some fid → findFeedback db fid = some f →
        f.fromUserId = caller → olderThan24Hours now f.createdAt = true →
        (deleteFeedback db caller idParam now).2.status = 400
        ∧ (feedbackUpdateValid body = true →
            (updateFeedback db caller idParam body now).2.status = 400))
    ∧ ((deleteFeedback db caller idParam now).2.success = false →
        (deleteFeedback db caller idParam now).1 = db)
    ∧ ((updateFeedback db caller idParam body now).2.success = false →
        (updateFeedback db caller idParam body now).1 = db) := by
  refine ⟨deleteFeedback_success_iff db caller idParam now,
    updateFeedback_success_iff db caller idParam body now, ?_, ?_,
    deleteFeedback_failure_frame db caller idParam now,
    updateFeedback_failure_frame db caller idParam body now⟩
  · intro fid f hc hf ha
    have ha2 : f.fromUserId.toString ≠ caller.toString := (author_test f caller).mpr ha
    constructor
    · simp [deleteFeedback, hc, hf, ha2, feedbackReply]
    · intro hv
      simp [updateFeedback, hv, hc, hf, ha2, feedbackReply]
  · intro fid f hc hf ha ho
    have ha2 : ¬ f.fromUserId.toString ≠ caller.toString := by
      rw [author_test]; exact fun h => h ha
    constructor
    · simp only [deleteFeedback, hc, hf, if_neg ha2, ho, if_true, feedbackReply]
    · intro hv
      simp only [updateFeedback, hv, hc, hf, if_neg ha2, ho, if_true, feedbackReply]
      simp

/-- An edit whose body carries only a rating and a comment rewrites those two fields and
the `updatedAt` stamp of the feedback, and nothing else. -/
theorem updateFeedback_plain_body (db : Db) (caller : ObjectId) (idParam : String)
    (rating : Option Int) (comment : Option String) (now : Nat)
    (hs : (updateFeedback db caller idParam ⟨rating, comment, none, none, none, none⟩
            now).2.success = true) :
    ∃ fid f g, castObjectId idParam = some fid ∧ findFeedback db fid = some f
      ∧ updateFeedback db caller idParam ⟨rating, comment, none, none, none, none⟩ now
          = ({ db with feedback := saveFeedback db.feedback g },
              ⟨200, true, "Feedback updated successfully", some g⟩)
      ∧ g.id = f.id ∧ g.swapRequestId = f.swapRequestId ∧ g.fromUserId = f.fromUserId
      ∧ g.toUserId = f.toUserId ∧ g.skillRated = f.skillRated ∧ g.createdAt = f.createdAt
      ∧ g.rating = rating.getD f.rating
      ∧ (∀ c, comment = some c → g.comment = some c)
      ∧ (comment = none → g.comment = f.comment) := by
  rcases updateFeedback_cases db caller idParam ⟨rating, comment, none, none, none, none⟩
      now with
    ⟨_, h⟩ | ⟨_, ⟨_, h⟩ | ⟨_, _, _, h⟩ | ⟨fid, f, hc, hf, ⟨_, h⟩ | ⟨_, _, h⟩
      | ⟨_, _, ⟨_, h⟩ | ⟨_, _, _, h⟩ | ⟨g, hg, _, h⟩⟩⟩⟩
  all_goals first
    | (rw [h] at hs; simp [feedbackReply] at hs; done)
    | skip
  simp [Feedback.applyUpdate, castOptionalId] at hg
  obtain ⟨_, hg⟩ := hg
  subst hg
  exact ⟨fid, f, _, hc, hf, h, rfl, rfl, rfl, rfl, rfl, rfl, rfl,
    fun c e => by rw [e], fun e => by rw [e]⟩

set_option maxRecDepth 8000 in
/-- C29, failing input: in the store where Ann rated Bob for the swap
`111111111111111111111111`, Ann edits her feedback within the day with a body that
carries only `toUserId`, Dan's id. The edit succeeds and her feedback now rates Dan, who
takes no part in the swap. -/
theorem C29_edit_moves_feedback_to_outsider :
    (updateFeedback ratedDb ann.id "222222222222222222222222" moveToDan 5).2.success = true
    ∧ (findFeedback ratedDb (sampleId 2)).map (fun f => (f.swapRequestId, f.toUserId))
        = some (sampleId 1, bob.id)
    ∧ (findFeedback (updateFeedback ratedDb ann.id "222222222222222222222222" moveToDan 5).1
          (sampleId 2)).map (fun f => (f.swapRequestId, f.toUserId))
        = some (sampleId 1, dan.id)
    ∧ (findSwap (updateFeedback ratedDb ann.id "222222222222222222222222" moveToDan 5).1
          (sampleId 1)).map (fun s => (s.requesterId, s.recipientId))
        = some (ann.id, bob.id) := by
  decide

/-- Deleting a feedback, as author or as administrator, and editing one leave the users
collection as it was. -/
theorem feedback_routes_users (db : Db) (caller : ObjectId) (idParam : String)
    (body : FeedbackUpdateBody) (now : Nat) :
    (deleteFeedback db caller idParam now).1.users = db.users
    ∧ (adminDeleteFeedback db idParam).1.users = db.users
    ∧ (updateFeedback db caller idParam body now).1.users = db.users := by
  refine ⟨?_, ?_, ?_⟩
  · rcases deleteFeedback_cases db caller idParam now with
      ⟨_, h⟩ | ⟨_, _, _, h⟩ | ⟨_, _, _, _, ⟨_, h⟩ | ⟨_, _, h⟩ | ⟨_, _, h⟩⟩ <;> rw [h]
  · unfold adminDeleteFeedback
    repeat' split
    all_goals rfl
  · rcases updateFeedback_cases db caller idParam body now with
      ⟨_, h⟩ | ⟨_, ⟨_, h⟩ | ⟨_, _, _, h⟩ | ⟨_, _, _, _, ⟨_, h⟩ | ⟨_, _, h⟩
        | ⟨_, _, ⟨_, h⟩ | ⟨_, _, _, h⟩ | ⟨_, _, _, h⟩⟩⟩⟩ <;> rw [h]

set_option maxRecDepth 8000 in
/-- C22, failing input: after the scenario Ann rates Bob five and then deletes her
feedback `222222222222222222222222` within the day. Whatever `updateRating` does, the
deletion succeeds and leaves the users as they were, while the computed value for Bob
goes from `(5, 1)` to `(0, 0)`: the stored pair of Bob cannot agree with the computed one
both before and after the deletion. -/
theorem C22_deletion_keeps_stored_rating (updateRating : UpdateRating) :
    let db1 := step updateRating doneDb (.feedback ann.id annRatesBob (sampleId 2) 4)
    let db2 := (deleteFeedback db1 ann.id "222222222222222222222222" 5).1
    (deleteFeedback db1 ann.id "222222222222222222222222" 5).2.success = true
    ∧ db2.users = db1.users
    ∧ Feedback.getAverageRating db1 bob.id = (5, 1)
    ∧ Feedback.getAverageRating db2 bob.id = (0, 0)
    ∧ ¬ ((∀ u ∈ db1.users, (u.rating, u.totalRatings) = Feedback.getAverageRating db1 u.id)
        ∧ (∀ u ∈ db2.users, (u.rating, u.totalRatings) = Feedback.getAverageRating db2 u.id))
    := by
  intro db1 db2
  have hf1 : db1.feedback
      = [⟨sampleId 2, sampleId 1, ann.id, bob.id, 5, none, "Python", 4, 4⟩] := by
    rfl
  have hu1 : db1.users
      = [ann, { bob with rating := (updateRating 0 0 5).1,
                         totalRatings := (updateRating 0 0 5).2 }, dan] := by
    rfl
  have hs : (deleteFeedback db1 ann.id "222222222222222222222222" 5).2.success = true := by
    rw [deleteFeedback_success_iff]
    refine ⟨sampleId 2, ⟨sampleId 2, sampleId 1, ann.id, bob.id, 5, none, "Python", 4, 4⟩,
      by decide, ?_, rfl, by decide⟩
    unfold findFeedback
    rw [hf1]
    decide
  have hu2 : db2.users = db1.users := (feedback_routes_users db1 ann.id _ (editRating 1) 5).1
  have hf2 : db2.feedback = [] := by
    rcases deleteFeedback_cases db1 ann.id "222222222222222222222222" 5 with
      ⟨_, h⟩ | ⟨_, _, _, h⟩ | ⟨fid, _, hc, _, ⟨_, h⟩ | ⟨_, _, h⟩ | ⟨_, _, h⟩⟩
    all_goals first
      | (rw [h] at hs; simp [feedbackReply] at hs; done)
      | skip
    have hfid : fid = sampleId 2 := by
      have : castObjectId "222222222222222222222222" = some (sampleId 2) := by decide
      rw [this] at hc
      injection hc with hc
      exact hc.symm
    show (deleteFeedback db1 ann.id "222222222222222222222222" 5).1.feedback = []
    rw [h, hfid]
    show db1.feedback.eraseP (fun g => decide (g.id = sampleId 2)) = []
    rw [hf1]
    decide
  have hg1 : Feedback.getAverageRating db1 bob.id = (5, 1) := by
    unfold Feedback.getAverageRating
    rw [hf1]
    decide
  have hg2 : Feedback.getAverageRating db2 bob.id = (0, 0) := by
    unfold Feedback.getAverageRating
    rw [hf2]
    rfl
  refine ⟨hs, hu2, hg1, hg2, ?_⟩
  rintro ⟨h1, h2⟩
  have hb : ({ bob with rating := (updateRating 0 0 5).1,
                        totalRatings := (updateRating 0 0 5).2 } : User) ∈ db1.users := by
    rw [hu1]; simp
  have e1 := h1 _ hb
  have e2 := h2 _ (hu2 ▸ hb)
  have hid : ({ bob with rating := (updateRating 0 0 5).1,
                         totalRatings := (updateRating 0 0 5).2 } : User).id = bob.id := rfl
  rw [hid, hg1] at e1
  rw [hid, hg2] at e2
  have c1 := congrArg Prod.snd e1
  have c2 := congrArg Prod.snd e2
  simp only at c1 c2
  omega

/-- A refused creation, cancellation or completion leaves the store as it was. -/
theorem failure_frame_without_notification (db : Db) :
    (∀ caller body newId now, (createSwap db caller body newId now).2.success = false →
      (createSwap db caller body newId now).1 = db)
    ∧ (∀ caller idParam reason now,
        (cancelSwap db caller idParam reason now).2.success = false →
        (cancelSwap db caller idParam reason now).1 = db)
    ∧ (∀ caller idParam now, (completeSwap db caller idParam now).2.success = false →
        (completeSwap db caller idParam now).1 = db) := by
  refine ⟨?_, ?_, ?_⟩
  · intro caller body newId now hfail
    rcases createSwap_cases db caller body newId now with ⟨h, _⟩ | ⟨_, _, _, _, _, _, _, _,
      _, _, _, _, _, h⟩
    · exact h
    · rw [h] at hfail; simp at hfail
  · intro caller idParam reason now
    unfold cancelSwap
    repeat' (first | split | (dsimp only; split))
    all_goals first | (intro _; rfl) | (intro h; simp at h)
  · intro caller idParam now
    unfold completeSwap
    repeat' (first | split | (dsimp only; split))
    all_goals first | (intro _; rfl) | (intro h; simp at h)

/-- C25, failing inputs: after the scenario Ann rates Bob; the call is answered with a
failure, yet the feedback is stored, whatever `updateRating` does. And when Ann's account
is gone, Bob's accept of her pending request is answered with a failure, yet the stored
swap is accepted. -/
theorem C25_failure_after_the_write (updateRating : UpdateRating) :
    (submitFeedback updateRating doneDb ann.id annRatesBob (sampleId 2) 4).2.success = false
    ∧ doneDb.feedback = []
    ∧ (submitFeedback updateRating doneDb ann.id annRatesBob (sampleId 2) 4).1.feedback
        = [⟨sampleId 2, sampleId 1, ann.id, bob.id, 5, none, "Python", 4, 4⟩]
    ∧ (transitionSwap annDeletedDb ⟨bob.id, "111111111111111111111111", .accept, 2⟩).2.success
        = false
    ∧ (findSwap annDeletedDb (sampleId 1)).map (·.status) = some .pending
    ∧ (findSwap
          (transitionSwap annDeletedDb ⟨bob.id, "111111111111111111111111", .accept, 2⟩).1
          (sampleId 1)).map (·.status) = some .accepted :=
  ⟨rfl, rfl, rfl, by decide, by decide, by decide⟩

/-- The accept handler is its first half followed, when that half ends with a document,
by its second half on the same store. -/
theorem acceptSwap_read_then_write (db : Db) (caller : ObjectId) (idParam : String)
    (now : Nat) :
    acceptSwap db caller idParam now
      = (match respondRead "accept" db caller idParam with
         | .error r => (db, r)
         | .ok swapRequest => acceptWrite db swapRequest now) := by
  unfold acceptSwap respondRead acceptWrite
  repeat' (first | split | (dsimp only; split))
  all_goals first | rfl | simp_all

/-- The reject handler is its first half followed by its second half. -/
theorem rejectSwap_read_then_write (db : Db) (caller : ObjectId) (idParam : String)
    (now : Nat) :
    rejectSwap db caller idParam now
      = (match respondRead "reject" db caller idParam with
         | .error r => (db, r)
         | .ok swapRequest => rejectWrite db swapRequest now) := by
  unfold rejectSwap respondRead rejectWrite
  repeat' (first | split | (dsimp only; split))
  all_goals first | rfl | simp_all

/-- C26, failing input: Bob sends an accept and a reject for Ann's pending request at the
same time. Both handlers run their first half, the read and the checks, on the store
where the swap is pending; then the accept writes, then the reject writes. Both are
answered with success, two notifications go to Ann, and the swap ends rejected. -/
theorem C26_interleaved_accept_and_reject_both_succeed :
    respondRead "accept" (sampleDb .pending) bob.id "111111111111111111111111"
        = .ok (sampleSwap .pending)
    ∧ respondRead "reject" (sampleDb .pending) bob.id "111111111111111111111111"
        = .ok (sampleSwap .pending)
    ∧ (acceptWrite (sampleDb .pending) (sampleSwap .pending) 5).2.success = true
    ∧ (rejectWrite (acceptWrite (sampleDb .pending) (sampleSwap .pending) 5).1
          (sampleSwap .pending) 6).2.success = true
    ∧ (findSwap (rejectWrite (acceptWrite (sampleDb .pending) (sampleSwap .pending) 5).1
          (sampleSwap .pending) 6).1 (sampleId 1)).map (·.status) = some .rejected
    ∧ (rejectWrite (acceptWrite (sampleDb .pending) (sampleSwap .pending) 5).1
          (sampleSwap .pending) 6).1.notifications.map (fun n => (n.userId, n.type))
        = [(ann.id, "swap_accepted"), (ann.id, "swap_rejected")] :=
  ⟨rfl, rfl, by decide, by decide, by decide, by decide⟩

/-- The top-level keys that are left after the four `delete` statements set none of the
four protected paths. -/
theorem setFields_strip (u : User) (body : ProfileBody) :
    (u.setFields body.strip.fields).email = u.email
    ∧ (u.setFields body.strip.fields).password = u.password
    ∧ (u.setFields body.strip.fields).role = u.role
    ∧ (u.setFields body.strip.fields).banned = u.banned
    ∧ (u.setFields body.strip.fields).id = u.id :=
  ⟨rfl, rfl, rfl, rfl, rfl⟩

/-- A profile update whose body has no `$set` key succeeds exactly when the body is valid,
the `:id` is the caller's own and the caller has an account, and it then saves the
caller's document with `email`, `password`, `role` and `banned` as they were. -/
theorem updateProfile_flat_body (db : Db) (caller : ObjectId) (idParam : String)
    (fields : ProfileFields) :
    ((updateProfile db caller idParam ⟨fields, none⟩).2.success = true
      ↔ profileValid ⟨fields, none⟩ = true ∧ idParam = caller.toString
        ∧ ∃ user, findUser db caller = some user)
    ∧ (∀ user, (updateProfile db caller idParam ⟨fields, none⟩).2.success = true →
        findUser db caller = some user →
        ∃ updated, (updateProfile db caller idParam ⟨fields, none⟩).1
            = { db with users := saveUser db.users updated }
          ∧ (updateProfile db caller idParam ⟨fields, none⟩).2.user = some updated
          ∧ updated.id = user.id ∧ updated.email = user.email
          ∧ updated.password = user.password ∧ updated.role = user.role
          ∧ updated.banned = user.banned) := by
  unfold updateProfile
  by_cases hv : profileValid ⟨fields, none⟩ = false
  · simp [hv]
  rw [if_neg hv]
  by_cases hid : idParam ≠ caller.toString
  · simp [hid]
  rw [if_neg hid]
  have hid2 : idParam = caller.toString := by simpa using hid
  subst hid2
  simp only [castObjectId_toString]
  cases hu : findUser db caller with
  | none => simp [hv]
  | some user =>
    dsimp only
    refine ⟨by simp [hv], ?_⟩
    intro user2 _ h2
    injection h2 with h2
    subst h2
    exact ⟨_, rfl, rfl, rfl, rfl, rfl, rfl, rfl⟩

/-- C27, failing input: Ann sends `PUT /api/users/aaaaaaaaaaaaaaaaaaaaaaaa` with the body
`{ $set: { role: 'admin' } }`. The four `delete` statements find no top-level key to
remove, the update is applied, the call succeeds and Ann's stored role is `admin`. The
body `{ role: 'admin' }` succeeds as well and leaves her role as it was. -/
theorem C27_set_operator_reaches_role :
    (findUser emptyDb ann.id).map (·.role) = some "user"
    ∧ (updateProfile emptyDb ann.id "aaaaaaaaaaaaaaaaaaaaaaaa" setRoleAdmin).2.success = true
    ∧ (findUser (updateProfile emptyDb ann.id "aaaaaaaaaaaaaaaaaaaaaaaa" setRoleAdmin).1
          ann.id).map (·.role) = some "admin"
    ∧ (updateProfile emptyDb ann.id "aaaaaaaaaaaaaaaaaaaaaaaa" roleAdmin).2.success = true
    ∧ (findUser (updateProfile emptyDb ann.id "aaaaaaaaaaaaaaaaaaaaaaaa" roleAdmin).1
          ann.id).map (·.role) = some "user" := by
  decide

/-- What `POST /api/auth/login` answers and does once the user of the address is found. -/
theorem login_found (isEmail : String → Bool) (normalizeEmail : String → String)
    (comparePassword : String → String → Bool) (db : Db) (body : LoginBody) (user : User)
    (hvalid : (isEmail body.email && decide (body.password ≠ "")) = true)
    (hfind : db.users.find? (fun u => decide (u.email = normalizeEmail body.email))
              = some user) :
    login isEmail normalizeEmail comparePassword db body
      = if user.banned = true then (db, ⟨403, false, "Account has been banned", none⟩)
        else if comparePassword user.password body.password = false then
          (db, ⟨401, false, "Invalid credentials", none⟩)
        else if user.email = "p@p.com" ∧ body.password = "password123456789" then
          ({ db with users := saveUser db.users { user with role := "admin" } },
            ⟨200, true, "Login successful", some { user with role := "admin" }⟩)
        else (db, ⟨200, true, "Login successful", some user⟩) := by
  unfold login
  rw [if_neg (by rw [hvalid]; decide)]
  simp only [hfind]

/-- C28: for a login whose body is valid and whose address, as the sanitizer leaves it,
is that of a stored user: a banned user is refused and the store is unchanged; a user
who is not banned and passes the password comparison is logged in, and the stored role
is set to `admin` when the address is `p@p.com` and the password `password123456789`,
while in every other case the store, hence every role, is left as it was. -/
theorem C28_login_role_rule (isEmail : String → Bool) (normalizeEmail : String → String)
    (comparePassword : String → String → Bool) (db : Db) (body : LoginBody) (user : User)
    (hvalid : (isEmail body.email && decide (body.password ≠ "")) = true)
    (hfind : db.users.find? (fun u => decide (u.email = normalizeEmail body.email))
              = some user) :
    (user.banned = true →
      (login isEmail normalizeEmail comparePassword db body).2.success = false
      ∧ (login isEmail normalizeEmail comparePassword db body).1 = db)
    ∧ (user.banned = false → comparePassword user.password body.password = true →
        (login isEmail normalizeEmail comparePassword db body).2.success = true
        ∧ (normalizeEmail body.email = "p@p.com" ∧ body.password = "password123456789" →
            (login isEmail normalizeEmail comparePassword db body).1
              = { db with users := saveUser db.users { user with role := "admin" } }
            ∧ (login isEmail normalizeEmail comparePassword db body).2.user
              = some { user with role := "admin" })
        ∧ (¬ (normalizeEmail body.email = "p@p.com"
              ∧ body.password = "password123456789") →
            (login isEmail normalizeEmail comparePassword db body).1 = db
            ∧ (login isEmail normalizeEmail comparePassword db body).2.user = some user))
    ∧ ((login isEmail normalizeEmail comparePassword db body).2.success = false →
        (login isEmail normalizeEmail comparePassword db body).1 = db) := by
  have hemail : user.email = normalizeEmail body.email := by
    have := List.find?_some hfind
    simpa using this
  rw [login_found isEmail normalizeEmail comparePassword db body user hvalid hfind]
  have hspec : (user.email = "p@p.com" ∧ body.password = "password123456789")
      ↔ (normalizeEmail body.email = "p@p.com" ∧ body.password = "password123456789") := by
    rw [hemail]
  refine ⟨?_, ?_, ?_⟩
  · intro hb
    rw [if_pos hb]
    exact ⟨rfl, rfl⟩
  · intro hb hc
    have hb2 : ¬ user.banned = true := by simp [hb]
    have hc2 : ¬ comparePassword user.password body.password = false := by simp [hc]
    rw [if_neg hb2, if_neg hc2]
    refine ⟨?_, ?_, ?_⟩
    · split <;> rfl
    · intro hs
      rw [if_pos (hspec.mpr hs)]
      exact ⟨rfl, rfl⟩
    · intro hs
      rw [if_neg (fun h => hs (hspec.mp h))]
      exact ⟨rfl, rfl⟩
  · repeat' split
    all_goals first | (intro _; rfl) | (intro h; simp at h)

/-- C28 at Pat, whose address is `p@p.com`, logging in with the password
`password123456789`, for a comparison that accepts it: the login succeeds and Pat's
stored role is `admin`. -/
theorem C28_login_role_rule_witness :
    (login (fun _ => true) id (fun _ _ => true) patDb
        ⟨"p@p.com", "password123456789"⟩).2.success = true
    ∧ (login (fun _ => true) id (fun _ _ => true) patDb ⟨"p@p.com", "password123456789"⟩).1
        = { patDb with users := saveUser patDb.users { pat with role := "admin" } } :=
  have h := (C28_login_role_rule (fun _ => true) id (fun _ _ => true) patDb
    ⟨"p@p.com", "password123456789"⟩ pat (by decide) (by decide)).2.1 (by decide) rfl
  ⟨h.1, (h.2.1 ⟨by decide, by decide⟩).1⟩

/-- Saving a document leaves the lookup of every other id as it was. -/
theorem find_saveSwap_ne (l : List SwapRequest) (t : SwapRequest) (sid : ObjectId)
    (h : t.id ≠ sid) :
    (saveSwap l t).find? (fun x => decide (x.id = sid))
      = l.find? (fun x => decide (x.id = sid)) := by
  induction l with
  | nil => rfl
  | cons x xs ih =>
    by_cases hx : x.id = t.id
    · have hx2 : ¬ x.id = sid := fun e => h (hx ▸ e)
      rw [saveSwap, if_pos hx]
      simp [List.find?, h, hx2]
    · rw [saveSwap, if_neg hx]
      by_cases hs : x.id = sid
      · simp [List.find?, hs]
      · simp [List.find?, hs, ih]

/-- A sound feedback stays sound when the lookup of its swap stays the same. -/
theorem Feedback.Sound.of_find {d e : Db} {f : Feedback} (h : f.Sound d)
    (hfind : ∀ s, findSwap d f.swapRequestId = some s → findSwap e f.swapRequestId = some s) :
    f.Sound e := by
  obtain ⟨s, hs, rest⟩ := h
  exact ⟨s, hfind s hs, rest⟩

/-- One call keeps every stored feedback sound, and the feedback it adds is sound. -/
theorem step_feedback_sound (updateRating : UpdateRating) (d : Db) (op : Op)
    (h : ∀ f ∈ d.feedback, f.Sound d) :
    ∀ f ∈ (step updateRating d op).feedback, f.Sound (step updateRating d op) := by
  cases op with
  | create caller body newId now =>
    intro f hf
    have hf2 : f ∈ d.feedback := by
      have := createSwap_feedback d caller body newId now
      simp only [step] at hf
      rwa [this] at hf
    refine (h f hf2).of_find ?_
    intro s hs
    simp only [step]
    rcases createSwap_cases d caller body newId now with ⟨e, _⟩ | ⟨_, _, _, _, _, _, _, _,
      _, _, _, _, _, e⟩
    · rw [e]; exact hs
    · rw [e]
      unfold findSwap at hs ⊢
      simp [List.find?_append, hs]
  | transition c =>
    intro f hf
    have hf2 : f ∈ d.feedback := by
      have := transitionSwap_feedback d c
      simp only [step] at hf
      rwa [this] at hf
    refine (h f hf2).of_find ?_
    intro s hs
    simp only [step]
    obtain ⟨s1, hs1, hdone, _⟩ := h f hf2
    rcases transitionSwap_cases d c with ⟨e, _⟩ | ⟨sid, s0, t, _, hs0, hid, _, _, hedge, e, _⟩
    · rw [e]; exact hs
    · unfold findSwap
      rw [e]
      have hne : t.id ≠ f.swapRequestId := by
        intro heq
        have h0 : s0.id = sid := find_id hs0
        have : findSwap d f.swapRequestId = some s0 := by
          rw [← heq, hid, h0]; exact hs0
        rw [hs1] at this
        injection this with this
        subst this
        have := Edge.not_terminal hedge
        rw [hdone] at this
        exact absurd this (by decide)
      rw [find_saveSwap_ne _ _ _ hne]
      exact hs
  | feedback caller body newId now =>
    intro f hf
    simp only [step] at hf ⊢
    have hsw := submitFeedback_swaps updateRating d caller body newId now
    have keep : ∀ g : Feedback, g.Sound d →
        g.Sound (submitFeedback updateRating d caller body newId now).1 := by
      intro g hg
      refine hg.of_find ?_
      intro s hs
      unfold findSwap at hs ⊢
      rw [hsw]; exact hs
    rcases (submitFeedback_cases updateRating d caller body newId now).2 with e
      | ⟨sid, s, toId, _, _, hs, hdone, hpart, hself, hto, _, hcast, e, _⟩
    · rw [e] at hf
      exact keep f (h f hf)
    · rw [e] at hf
      rcases List.mem_append.mp hf with hold | hnew
      · exact keep f (h f hold)
      · have hfeq : f = newFeedback caller sid toId body newId now := by simpa using hnew
        have hto2 : toId = s.requesterId ∨ toId = s.recipientId := by
          rcases hto with ht | ht
          · left
            have := congrArg castObjectId ht
            rw [castObjectId_toString, hcast] at this
            injection this with this
            exact this.symm
          · right
            have := congrArg castObjectId ht
            rw [castObjectId_toString, hcast] at this
            injection this with this
            exact this.symm
        have hne : caller ≠ toId := by
          intro heq
          apply hself
          rcases hto with ht | ht
          · rw [← ht, heq]
            rcases hto2 with h2 | h2
            · rw [h2]
            · have := congrArg castObjectId ht
              rw [castObjectId_toString, hcast] at this
              injection this with this
              rw [this]
          · rw [← ht, heq]
            rcases hto2 with h2 | h2
            · have := congrArg castObjectId ht
              rw [castObjectId_toString, hcast] at this
              injection this with this
              rw [this]
            · rw [h2]
        refine ⟨s, ?_, hdone, ?_, ?_⟩
        · unfold findSwap
          rw [hsw, hfeq]
          exact hs
        · rw [hfeq]
          simp only [newFeedback]
          rcases hpart with hp | hp <;> rcases hto2 with h2 | h2
          · exact absurd (hp.symm.trans h2.symm) hne
          · exact Or.inl ⟨hp.symm, h2⟩
          · exact Or.inr ⟨hp.symm, h2⟩
          · exact absurd (hp.symm.trans h2.symm) hne
        · rw [hfeq]
          exact hne

/-- Every feedback of a reachable state is sound. -/
theorem run_feedback_sound (updateRating : UpdateRating) (ops : List Op) :
    ∀ d : Db, (∀ f ∈ d.feedback, f.Sound d) →
      ∀ f ∈ (run updateRating d ops).feedback, f.Sound (run updateRating d ops) := by
  induction ops with
  | nil => intro d h; exact h
  | cons o os ih =>
    intro d h
    exact ih _ (step_feedback_sound updateRating d o h)

/-- A reachable state holds at most one feedback per swap and rater. -/
theorem run_feedback_unique (updateRating : UpdateRating) (ops : List Op)
    (sid u : ObjectId) :
    ∀ d : Db, (d.feedback.filter (existingFeedbackQuery sid u)).length ≤ 1 →
      ((run updateRating d ops).feedback.filter (existingFeedbackQuery sid u)).length ≤ 1 := by
  induction ops with
  | nil => intro d h; exact h
  | cons o os ih =>
    intro d h
    exact ih _ (step_feedback_unique updateRating d o sid u h)

/-- Two entries of a list that pass a test make the filtered list two long. -/
theorem two_le_filter_length {α : Type} (p : α → Bool) :
    ∀ (l : List α) (i j : Nat) (a b : α), i < j → l[i]? = some a → l[j]? = some b →
      p a = true → p b = true → 2 ≤ (l.filter p).length := by
  intro l
  induction l with
  | nil => intro i j a b _ hi; simp at hi
  | cons x xs ih =>
    intro i j a b hij hi hj ha hb
    cases j with
    | zero => omega
    | succ j =>
      cases i with
      | zero =>
        have hxa : x = a := by simpa using hi
        have hb2 : b ∈ xs.filter p :=
          List.mem_filter.mpr ⟨List.mem_iff_getElem?.mpr ⟨j, by simpa using hj⟩, hb⟩
        have : 1 ≤ (xs.filter p).length := List.length_pos_of_mem hb2
        rw [List.filter_cons, hxa, if_pos ha, List.length_cons]
        omega
      | succ i =>
        have := ih i j a b (by omega) (by simpa using hi) (by simpa using hj) ha hb
        rw [List.filter_cons]
        split
        · rw [List.length_cons]; omega
        · exact this

/-- A filter whose test implies one of two others on the list keeps at most as many
entries as the two together. -/
theorem filter_length_le_add {α : Type} (p q1 q2 : α → Bool) :
    ∀ l : List α, (∀ x ∈ l, p x = true → q1 x = true ∨ q2 x = true) →
      (l.filter p).length ≤ (l.filter q1).length + (l.filter q2).length := by
  intro l
  induction l with
  | nil => intro _; simp
  | cons x xs ih =>
    intro h
    have ih2 := ih (fun y hy => h y (List.mem_cons_of_mem _ hy))
    have hx := h x (List.mem_cons_self _ _)
    simp only [List.filter_cons]
    cases hp : p x <;> cases h1 : q1 x <;> cases h2 : q2 x <;>
      simp only [hp, h1, h2] at hx ⊢ <;> simp at hx ⊢ <;> omega

/-- C21: in every state reached from a store without swaps and feedback by creations,
lifecycle calls and feedback submissions, every feedback belongs to a stored swap whose
status is completed and goes from one participant of that swap to the other; a swap has
at most two feedback records; and two records of one swap come from the two different
participants, each rating the other. -/
theorem C21_feedback_records_of_a_swap (updateRating : UpdateRating) (users : List User)
    (notifications : List Notification) (ops : List Op) :
    (∀ f ∈ (run updateRating ⟨users, [], notifications, []⟩ ops).feedback,
      f.Sound (run updateRating ⟨users, [], notifications, []⟩ ops))
    ∧ (∀ sid, ((run updateRating ⟨users, [], notifications, []⟩ ops).feedback.filter
        (fun f => decide (f.swapRequestId = sid))).length ≤ 2)
    ∧ (∀ (i j : Nat) (f g : Feedback), i < j →
        (run updateRating ⟨users, [], notifications, []⟩ ops).feedback[i]? = some f →
        (run updateRating ⟨users, [], notifications, []⟩ ops).feedback[j]? = some g →
        f.swapRequestId = g.swapRequestId →
        f.fromUserId ≠ g.fromUserId ∧ f.toUserId = g.fromUserId
        ∧ g.toUserId = f.fromUserId) := by
  have hsound := run_feedback_sound updateRating ops ⟨users, [], notifications, []⟩
    (by intro f hf; simp at hf)
  have huniq : ∀ sid u, ((run updateRating ⟨users, [], notifications, []⟩ ops).feedback.filter
      (existingFeedbackQuery sid u)).length ≤ 1 := fun sid u =>
    run_feedback_unique updateRating ops sid u ⟨users, [], notifications, []⟩ (by simp)
  generalize run updateRating ⟨users, [], notifications, []⟩ ops = db at hsound huniq
  refine ⟨hsound, ?_, ?_⟩
  · intro sid
    cases hL : db.feedback.filter (fun f => decide (f.swapRequestId = sid)) with
    | nil => simp
    | cons f rest =>
      rw [← hL]
      have hfm : f ∈ db.feedback.filter (fun f => decide (f.swapRequestId = sid)) := by
        rw [hL]; exact List.mem_cons_self _ _
      obtain ⟨hf, hfs⟩ := List.mem_filter.mp hfm
      have hfs2 : f.swapRequestId = sid := by simpa using hfs
      obtain ⟨s, hs, _, _, _⟩ := hsound f hf
      have hcover : ∀ x ∈ db.feedback, (fun f => decide (f.swapRequestId = sid)) x = true →
          existingFeedbackQuery sid s.requesterId x = true
          ∨ existingFeedbackQuery sid s.recipientId x = true := by
        intro x hx hxs
        have hxs2 : x.swapRequestId = sid := by simpa using hxs
        obtain ⟨s2, hs2, _, hpart, _⟩ := hsound x hx
        rw [hxs2, ← hfs2, hs] at hs2
        injection hs2 with hs2
        subst hs2
        rcases hpart with ⟨h1, _⟩ | ⟨h1, _⟩
        · left; simp [existingFeedbackQuery, hxs2, h1]
        · right; simp [existingFeedbackQuery, hxs2, h1]
      have := filter_length_le_add _ _ _ db.feedback hcover
      have h1 := huniq sid s.requesterId
      have h2 := huniq sid s.recipientId
      omega
  · intro i j f g hij hi hj hsame
    have hfm : f ∈ db.feedback := List.mem_iff_getElem?.mpr ⟨i, hi⟩
    have hgm : g ∈ db.feedback := List.mem_iff_getElem?.mpr ⟨j, hj⟩
    have hne : f.fromUserId ≠ g.fromUserId := by
      intro heq
      have := two_le_filter_length (existingFeedbackQuery g.swapRequestId g.fromUserId)
        db.feedback i j f g hij hi hj (by simp [existingFeedbackQuery, hsame, heq])
        (by simp [existingFeedbackQuery])
      have := huniq g.swapRequestId g.fromUserId
      omega
    obtain ⟨s, hs, _, hpf, _⟩ := hsound f hfm
    obtain ⟨s2, hs2, _, hpg, _⟩ := hsound g hgm
    rw [← hsame, hs] at hs2
    injection hs2 with hs2
    subst hs2
    refine ⟨hne, ?_, ?_⟩
    · rcases hpf with ⟨a1, a2⟩ | ⟨a1, a2⟩ <;> rcases hpg with ⟨b1, b2⟩ | ⟨b1, b2⟩
      · exact absurd (a1.trans b1.symm) hne
      · rw [a2, b1]
      · rw [a2, b1]
      · exact absurd (a1.trans b1.symm) hne
    · rcases hpf with ⟨a1, a2⟩ | ⟨a1, a2⟩ <;> rcases hpg with ⟨b1, b2⟩ | ⟨b1, b2⟩
      · exact absurd (a1.trans b1.symm) hne
      · rw [a1, b2]
      · rw [a1, b2]
      · exact absurd (a1.trans b1.symm) hne

end SkillShare
